import Mathlib

/-!
# Session table of `libIOTCAPIsT.c`

A shallow embedding of the session/channel core of `native/libIOTCAPIsT.c`.

Modelling conventions:

* The global `g_iotc_state` becomes an explicit value of type `iotc_state`
  that every public function takes and returns (`Int × iotc_state`: the C
  return value and the new global state; an `Option` of it for a function
  that may not return).
* C `int` / `uint32_t` values are `Int` / `Nat`; conversions between them
  are made explicit with `toInt32` and `toUInt32` (two's complement wrap).
* A pointer into the `sessions` array is the index of the slot.  The array
  pointer itself is an `Option`: `none` is `NULL`.
* The embedding describes one caller at a time, so a `pthread_mutex_lock`
  on a mutex that nobody holds is transparent.  The one exception is the
  call of `IOTC_Get_SessionID` inside `IOTC_Connect_ByUID`: the caller holds
  `global_mutex` there, the mutex is created with the default attributes
  (not recursive), and locking it again never returns.  A call that does
  not return is `none` (`lock_global_mutex`, `IOTC_Get_SessionID_from`).
* The environment is passed in: `now` is the value of `time(NULL)` during
  the call, `sock` the result of `socket(...)`, `alloc_ok` whether `calloc`
  returned a non-null block.  `remote_addr` is only ever zeroed and is left
  out of the slot record.
* A channel's message queue is the list of its messages in the slot record.
  The linked representation (entries with `next` pointers, `msg_queue_head`
  and `msg_queue_tail`) is embedded separately as `linked_queue`, with the
  address returned by `malloc` passed in, and related to the list by
  `contents`.
* `IOTC_Session_Read_with` is `IOTC_Session_Read` with the function it
  delegates to as a parameter; the byte-order helpers take the outcome of
  the compile-time test `__BYTE_ORDER__ == __ORDER_LITTLE_ENDIAN__` as the
  parameter `little_endian`.
-/

namespace IOTC

/-! ## Constants -/

/-- Error code `IOTC_ER_NoERROR`. -/
abbrev IOTC_ER_NoERROR : Int := 0
/-- Error code `IOTC_ER_NOT_INITIALIZED`. -/
abbrev IOTC_ER_NOT_INITIALIZED : Int := -1
/-- Error code `IOTC_ER_ALREADY_INITIALIZED`. -/
abbrev IOTC_ER_ALREADY_INITIALIZED : Int := -2
/-- Error code `IOTC_ER_FAIL_CREATE_SOCKET`. -/
abbrev IOTC_ER_FAIL_CREATE_SOCKET : Int := -6
/-- Error code `IOTC_ER_INVALID_SID`. -/
abbrev IOTC_ER_INVALID_SID : Int := -15
/-- Error code `IOTC_ER_EXCEED_MAX_SESSION`. -/
abbrev IOTC_ER_EXCEED_MAX_SESSION : Int := -16
/-- Error code `IOTC_ER_CH_NOT_ON`. -/
abbrev IOTC_ER_CH_NOT_ON : Int := -21
/-- Error code `IOTC_ER_FAIL_CREATE_MUTEX`. -/
abbrev IOTC_ER_FAIL_CREATE_MUTEX : Int := -22
/-- Error code `IOTC_ER_NOT_SUPPORT`. -/
abbrev IOTC_ER_NOT_SUPPORT : Int := -25
/-- Error code `IOTC_ER_INVALID_ARG`. -/
abbrev IOTC_ER_INVALID_ARG : Int := -27
/-- Error code `IOTC_ER_FAIL_SETUP_CHANNEL`. -/
abbrev IOTC_ER_FAIL_SETUP_CHANNEL : Int := -29

/-- Library constant `MAX_DEFAULT_SESSION_NUMBER`. -/
abbrev MAX_DEFAULT_SESSION_NUMBER : Int := 16
/-- Library constant `MAX_CHANNEL_NUMBER`. -/
abbrev MAX_CHANNEL_NUMBER : Nat := 32
/-- Library constant `MAX_PACKET_SIZE`. -/
abbrev MAX_PACKET_SIZE : Nat := 1400

/-! ## Machine integers -/

/-- Conversion of an integer value to C `int` (32 bit, two's complement). -/
def toInt32 (x : Int) : Int := (x + 2147483648) % 4294967296 - 2147483648

/-- Conversion of an integer value to C `uint32_t`. -/
def toUInt32 (x : Int) : Nat := (x % 4294967296).toNat

/-! ## Data model -/

/-- Session states, `session_state_t`. -/
inductive session_state_t where
  | FREE
  | USED
  | CONNECTING
  | CONNECTED
  | DISCONNECTED
deriving DecidableEq, Repr

/-- The numeric value of a session state, as returned by the status call. -/
def session_state_t.toInt : session_state_t → Int
  | .FREE => 0
  | .USED => 1
  | .CONNECTING => 2
  | .CONNECTED => 3
  | .DISCONNECTED => 4

/-- Channel states, `channel_state_t`. -/
inductive channel_state_t where
  | OFF
  | ON
deriving DecidableEq, Repr

/-- The numeric value of a channel state. -/
def channel_state_t.toInt : channel_state_t → Int
  | .OFF => 0
  | .ON => 1

/-- Message queue entry, `message_entry_t` (the `next` link is the list). -/
structure message_entry_t where
  data : List Nat
  size : Nat
  seq_id : Nat
deriving DecidableEq, Repr

/-- Channel information, `channel_info_t`.  The linked list from
`msg_queue_head` to `msg_queue_tail` is the list `msg_queue`. -/
structure channel_info_t where
  state : channel_state_t
  next_seq_id : Nat
  msg_queue : List message_entry_t
deriving DecidableEq, Repr

/-- Session information, `session_info_t`. -/
structure session_info_t where
  state : session_state_t
  uid : List Nat
  socket_fd : Int
  session_id : Nat
  channels : List channel_info_t
  last_activity : Int
deriving DecidableEq, Repr

/-- The global state, `g_iotc_state`. -/
structure iotc_state where
  initialized : Bool
  sessions : Option (List session_info_t)
  max_sessions : Int
  next_session_id : Int
deriving DecidableEq, Repr

/-- The static initial value `g_iotc_state = {0}`. -/
def g_iotc_state_zero : iotc_state :=
  { initialized := false, sessions := none, max_sessions := 0, next_session_id := 0 }

/-- The slots of the table (an absent table has none). -/
def slots (s : iotc_state) : List session_info_t := s.sessions.getD []

/-- Assignment through a slot pointer: slot `i` becomes `f` of itself. -/
def modify_slot (s : iotc_state) (i : Nat) (f : session_info_t → session_info_t) : iotc_state :=
  { s with
    sessions := s.sessions.map (fun ss =>
      match ss[i]? with
      | some x => ss.set i (f x)
      | none => ss) }

/-- Assignment through a channel pointer of a slot. -/
def modify_channel (x : session_info_t) (c : Nat) (f : channel_info_t → channel_info_t) :
    session_info_t :=
  { x with
    channels :=
      match x.channels[c]? with
      | some ch => x.channels.set c (f ch)
      | none => x.channels }

/-! ## Network helpers -/

/-- Function `create_udp_socket`: `sock` is what `socket(...)` returned. -/
def create_udp_socket (sock : Int) : Int := if sock < 0 then -1 else sock

/-! ## Message queue management -/

/-- Function `init_channel`. -/
def init_channel (_channel : channel_info_t) : channel_info_t :=
  { state := .OFF, next_seq_id := 1, msg_queue := [] }

/-- Function `cleanup_channel`: frees every queued entry. -/
def cleanup_channel (channel : channel_info_t) : channel_info_t :=
  { channel with msg_queue := [] }

/-- Function `enqueue_message`; `mem_ok` says whether both `malloc`s succeed. -/
def enqueue_message (channel : channel_info_t) (data : List Nat) (size : Nat) (seq_id : Nat)
    (mem_ok : Bool) : Int × channel_info_t :=
  if !mem_ok then (-1, channel)
  else (0, { channel with
    msg_queue := channel.msg_queue ++ [{ data := data.take size, size := size, seq_id := seq_id % 65536 }] })

/-- Function `dequeue_message`. -/
def dequeue_message (channel : channel_info_t) : Option message_entry_t × channel_info_t :=
  match channel.msg_queue with
  | [] => (none, channel)
  | entry :: rest => (some entry, { channel with msg_queue := rest })

/-! ## Session management -/

/-- The loop of `find_session_by_id` over the slots it visits. -/
def find_session_by_id_loop (session_id : Int) : List session_info_t → Option Nat
  | [] => none
  | x :: xs =>
    if x.state ≠ .FREE ∧ x.session_id = toUInt32 session_id then some 0
    else (find_session_by_id_loop session_id xs).map (· + 1)

/-- Function `find_session_by_id`: index of the slot found, `none` for `NULL`. -/
def find_session_by_id (s : iotc_state) (session_id : Int) : Option Nat :=
  find_session_by_id_loop session_id ((slots s).take s.max_sessions.toNat)

/-- The loop of `find_free_session` over the slots it visits. -/
def find_free_session_loop : List session_info_t → Option Nat
  | [] => none
  | x :: xs =>
    if x.state = .FREE then some 0
    else (find_free_session_loop xs).map (· + 1)

/-- Function `find_free_session`: index of the slot found, `none` for `NULL`. -/
def find_free_session (s : iotc_state) : Option Nat :=
  find_free_session_loop ((slots s).take s.max_sessions.toNat)

/-- The zero-filled slot that `calloc` hands out. -/
def calloc_session : session_info_t :=
  { state := .FREE, uid := List.replicate 21 0, socket_fd := 0, session_id := 0,
    channels := List.replicate MAX_CHANNEL_NUMBER { state := .OFF, next_seq_id := 0, msg_queue := [] },
    last_activity := 0 }

/-- Function `init_session`. -/
def init_session (now : Int) (session : session_info_t) : session_info_t :=
  { state := .FREE,
    uid := List.replicate 21 0,
    socket_fd := -1,
    session_id := 0,
    last_activity := now,
    channels := (session.channels.take MAX_CHANNEL_NUMBER).map init_channel ++
      session.channels.drop MAX_CHANNEL_NUMBER }

/-- Function `cleanup_session`. -/
def cleanup_session (session : session_info_t) : session_info_t :=
  { session with
    socket_fd := if session.socket_fd ≥ 0 then -1 else session.socket_fd,
    channels := (session.channels.take MAX_CHANNEL_NUMBER).map cleanup_channel ++
      session.channels.drop MAX_CHANNEL_NUMBER,
    state := .FREE }

/-! ## Public API -/

/-- Function `IOTC_Initialize`. -/
def IOTC_Initialize (alloc_ok : Bool) (now : Int) (s : iotc_state) : Int × iotc_state :=
  if s.initialized then (IOTC_ER_ALREADY_INITIALIZED, s)
  else
    let s1 := { s with max_sessions := MAX_DEFAULT_SESSION_NUMBER }
    if !alloc_ok then (IOTC_ER_FAIL_CREATE_MUTEX, { s1 with sessions := none })
    else
      let table := (List.replicate s1.max_sessions.toNat calloc_session).map (init_session now)
      (IOTC_ER_NoERROR,
        { s1 with sessions := some table, next_session_id := 1, initialized := true })

/-- The slots as the cleanup loop of `IOTC_DeInitialize` leaves them, just
before the table is freed. -/
def deinitialize_cleanup (s : iotc_state) : List session_info_t :=
  ((slots s).take s.max_sessions.toNat).map cleanup_session ++
    (slots s).drop s.max_sessions.toNat

/-- Function `IOTC_DeInitialize`. -/
def IOTC_DeInitialize (s : iotc_state) : Int × iotc_state :=
  if !s.initialized then (IOTC_ER_NOT_INITIALIZED, s)
  else
    let s1 := { s with sessions := s.sessions.map (fun _ => deinitialize_cleanup s) }
    (IOTC_ER_NoERROR, { s1 with sessions := none, initialized := false })

/-- Function `IOTC_Get_SessionID`. -/
def IOTC_Get_SessionID (s : iotc_state) : Int × iotc_state :=
  if !s.initialized then (IOTC_ER_NOT_INITIALIZED, s)
  else
    match find_free_session s with
    | none => (IOTC_ER_EXCEED_MAX_SESSION, s)
    | some i =>
      let id := toUInt32 s.next_session_id
      let s1 := modify_slot s i (fun x => { x with state := .USED, session_id := id })
      (toInt32 id, { s1 with next_session_id := toInt32 (s.next_session_id + 1) })

/-- Function `IOTC_Set_Max_Session_Number`; `max_sessions` is an `unsigned int`. -/
def IOTC_Set_Max_Session_Number (max_sessions : Nat) (s : iotc_state) : Int × iotc_state :=
  if s.initialized then (IOTC_ER_ALREADY_INITIALIZED, s)
  else (Int.ofNat max_sessions, { s with max_sessions := toInt32 max_sessions })

/-- The call `pthread_mutex_lock(&g_iotc_state.global_mutex)`; `held` says
whether the calling thread holds the mutex already.  The mutex is created by
`pthread_mutex_init(&g_iotc_state.global_mutex, NULL)`, so it is not
recursive: locking it again from the thread that holds it never returns
(`none`). -/
def lock_global_mutex (held : Bool) : Option Unit :=
  if held then none else some ()

/-- Function `IOTC_Get_SessionID` called from a context that holds
`global_mutex` (`held = true`) or does not: its first statement is the lock of
`global_mutex`. -/
def IOTC_Get_SessionID_from (held : Bool) (s : iotc_state) : Option (Int × iotc_state) :=
  match lock_global_mutex held with
  | none => none
  | some _ => some (IOTC_Get_SessionID s)

/-- Function `IOTC_Connect_ByUID`.  A non-null `uid` is given by the
characters of the C string it points to (the terminating NUL excluded), so
`strlen` is the length of the list.  The function calls `IOTC_Get_SessionID`
while it holds `global_mutex`; `none` is "does not return". -/
def IOTC_Connect_ByUID (uid : Option (List Nat)) (sock : Int) (now : Int) (s : iotc_state) :
    Option (Int × iotc_state) :=
  match uid with
  | none => some (IOTC_ER_INVALID_ARG, s)
  | some u =>
    if u.length ≠ 20 then some (IOTC_ER_INVALID_ARG, s)
    else if !s.initialized then some (IOTC_ER_NOT_INITIALIZED, s)
    else
      match IOTC_Get_SessionID_from true s with
      | none => none
      | some r =>
        let session_id := toInt32 r.1
        let s1 := r.2
        if session_id < 0 then some (session_id, s1)
        else
          match find_session_by_id s1 session_id with
          | none => some (IOTC_ER_INVALID_SID, s1)
          | some i =>
            let s2 := modify_slot s1 i (fun x =>
              { x with uid := u.take 20 ++ [0], state := .CONNECTING,
                       socket_fd := create_udp_socket sock })
            if create_udp_socket sock < 0 then
              some (IOTC_ER_FAIL_CREATE_SOCKET, modify_slot s2 i cleanup_session)
            else
              some (session_id,
                modify_slot s2 i (fun x => { x with state := .CONNECTED, last_activity := now }))

/-- Function `IOTC_Session_Close`. -/
def IOTC_Session_Close (session_id : Int) (s : iotc_state) : Int × iotc_state :=
  if !s.initialized then (IOTC_ER_NOT_INITIALIZED, s)
  else
    match find_session_by_id s session_id with
    | none => (IOTC_ER_INVALID_SID, s)
    | some i => (IOTC_ER_NoERROR, modify_slot s i cleanup_session)

/-- The lookup shared by the channel and data calls: the slot found by
`find_session_by_id`, provided its state is `CONNECTED`. -/
def find_connected (s : iotc_state) (session_id : Int) : Option (Nat × session_info_t) :=
  match find_session_by_id s session_id with
  | none => none
  | some i =>
    match (slots s)[i]? with
    | none => none
    | some x => if x.state ≠ .CONNECTED then none else some (i, x)

/-- Function `IOTC_Session_Channel_ON`; `channel` is an `unsigned char`. -/
def IOTC_Session_Channel_ON (session_id : Int) (channel : Nat) (s : iotc_state) :
    Int × iotc_state :=
  if channel ≥ MAX_CHANNEL_NUMBER then (IOTC_ER_INVALID_ARG, s)
  else if !s.initialized then (IOTC_ER_NOT_INITIALIZED, s)
  else
    match find_connected s session_id with
    | none => (IOTC_ER_INVALID_SID, s)
    | some (i, _) =>
      (IOTC_ER_NoERROR,
        modify_slot s i (fun x => modify_channel x channel (fun c => { c with state := .ON })))

/-- Function `IOTC_Session_Channel_OFF`. -/
def IOTC_Session_Channel_OFF (session_id : Int) (channel : Nat) (s : iotc_state) :
    Int × iotc_state :=
  if channel ≥ MAX_CHANNEL_NUMBER then (IOTC_ER_INVALID_ARG, s)
  else if !s.initialized then (IOTC_ER_NOT_INITIALIZED, s)
  else
    match find_connected s session_id with
    | none => (IOTC_ER_INVALID_SID, s)
    | some (i, _) =>
      (IOTC_ER_NoERROR,
        modify_slot s i (fun x => modify_channel x channel (fun c =>
          init_channel (cleanup_channel { c with state := .OFF }))))

/-- Function `IOTC_Session_Channel_Check_ON_OFF`. -/
def IOTC_Session_Channel_Check_ON_OFF (session_id : Int) (channel : Nat) (s : iotc_state) :
    Int × iotc_state :=
  if channel ≥ MAX_CHANNEL_NUMBER then (IOTC_ER_INVALID_ARG, s)
  else if !s.initialized then (IOTC_ER_NOT_INITIALIZED, s)
  else
    match find_connected s session_id with
    | none => (IOTC_ER_INVALID_SID, s)
    | some (_, x) =>
      match x.channels[channel]? with
      | some c => (c.state.toInt, s)
      | none => (0, s)

/-- The scan of `IOTC_Session_Get_Free_Channel` over the channels it visits. -/
def free_channel_loop : List channel_info_t → Option Nat
  | [] => none
  | c :: cs =>
    if c.state = .OFF then some 0
    else (free_channel_loop cs).map (· + 1)

/-- Function `IOTC_Session_Get_Free_Channel`. -/
def IOTC_Session_Get_Free_Channel (session_id : Int) (s : iotc_state) : Int × iotc_state :=
  if !s.initialized then (IOTC_ER_NOT_INITIALIZED, s)
  else
    match find_connected s session_id with
    | none => (IOTC_ER_INVALID_SID, s)
    | some (_, x) =>
      match free_channel_loop (x.channels.take MAX_CHANNEL_NUMBER) with
      | some i => (Int.ofNat i, s)
      | none => (IOTC_ER_FAIL_SETUP_CHANNEL, s)

/-- Function `IOTC_Session_Write`.  `data` is `none` for a null pointer;
`size` is an `unsigned int`, `channel` an `unsigned char`. -/
def IOTC_Session_Write (session_id : Int) (data : Option (List Nat)) (size : Nat) (channel : Nat)
    (now : Int) (s : iotc_state) : Int × iotc_state :=
  if data.isNone ∨ size = 0 ∨ size > MAX_PACKET_SIZE ∨ channel ≥ MAX_CHANNEL_NUMBER then
    (IOTC_ER_INVALID_ARG, s)
  else if !s.initialized then (IOTC_ER_NOT_INITIALIZED, s)
  else
    match find_connected s session_id with
    | none => (IOTC_ER_INVALID_SID, s)
    | some (i, x) =>
      if (x.channels[channel]?.map (·.state)) ≠ some .ON then (IOTC_ER_CH_NOT_ON, s)
      else (Int.ofNat size, modify_slot s i (fun y => { y with last_activity := now }))

/-- What `IOTC_Session_Read_Check_Lost_Data_And_Datatype` hands back: the
return value and the bytes behind the two out-pointers (`none` for a null
pointer). -/
structure read_result where
  ret : Int
  lost : Option Nat
  datatype : Option Nat
deriving DecidableEq, Repr

/-- Function `IOTC_Session_Read_Check_Lost_Data_And_Datatype`.  `buf` is
`false` for a null pointer; `lost` and `datatype` are the bytes behind the
out-pointers before the call. -/
def IOTC_Session_Read_Check_Lost_Data_And_Datatype (session_id : Int) (buf : Bool) (size : Int)
    (_timeout : Int) (lost datatype : Option Nat) (_flags _unused : Int)
    (now : Int) (s : iotc_state) : read_result × iotc_state :=
  if !buf ∨ size ≤ 0 then (⟨IOTC_ER_INVALID_ARG, lost, datatype⟩, s)
  else if !s.initialized then (⟨IOTC_ER_NOT_INITIALIZED, lost, datatype⟩, s)
  else
    match find_connected s session_id with
    | none => (⟨IOTC_ER_INVALID_SID, lost, datatype⟩, s)
    | some (i, _) =>
      (⟨0, lost.map (fun _ => 0), datatype.map (fun _ => 0)⟩,
        modify_slot s i (fun y => { y with last_activity := now }))

/-- Function `IOTC_Session_Read`.  `guard_before` and `guard_after` are the
values of `__stack_chk_guard` read before and after the delegated call;
`none` is the call of `__stack_chk_fail` (no return). -/
def IOTC_Session_Read (session_id : Int) (buf : Bool) (size timeout flags : Int)
    (guard_before guard_after : Nat) (now : Int) (s : iotc_state) : Option (Int × iotc_state) :=
  let r := IOTC_Session_Read_Check_Lost_Data_And_Datatype session_id buf size timeout
    (some 0) (some 0) flags 0 now s
  if r.1.ret = 0 ∧ guard_before = guard_after then some (r.1.ret, r.2)
  else none

/-- Function `IOTC_Get_Session_Status`. -/
def IOTC_Get_Session_Status (session_id : Int) (s : iotc_state) : Int × iotc_state :=
  if !s.initialized then (IOTC_ER_NOT_INITIALIZED, s)
  else
    match find_session_by_id s session_id with
    | none => (IOTC_ER_INVALID_SID, s)
    | some i =>
      match (slots s)[i]? with
      | some x => (x.state.toInt, s)
      | none => (IOTC_ER_INVALID_SID, s)

/-- Function `IOTC_Session_Check`. -/
def IOTC_Session_Check (session_id : Int) (s : iotc_state) : Int × iotc_state :=
  let r := IOTC_Get_Session_Status session_id s
  (if r.1 = session_state_t.CONNECTED.toInt then 1 else 0, r.2)

/-- Function `IOTC_Session_Get_Channel_ON_Count`. -/
def IOTC_Session_Get_Channel_ON_Count (session_id : Int) (s : iotc_state) : Int × iotc_state :=
  if !s.initialized then (IOTC_ER_NOT_INITIALIZED, s)
  else
    match find_connected s session_id with
    | none => (IOTC_ER_INVALID_SID, s)
    | some (_, x) =>
      (Int.ofNat ((x.channels.take MAX_CHANNEL_NUMBER).countP (fun c => c.state = .ON)), s)

/-- The bitmap loop of `IOTC_Session_Get_Channel_ON_Bitmap`, from bit `i` on. -/
def bitmap_loop : List channel_info_t → Nat → Nat
  | [], _ => 0
  | c :: cs, i => (if c.state = .ON then 2 ^ i % 4294967296 else 0) ||| bitmap_loop cs (i + 1)

/-- Function `IOTC_Session_Get_Channel_ON_Bitmap` (the result is a `uint32_t`). -/
def IOTC_Session_Get_Channel_ON_Bitmap (session_id : Int) (s : iotc_state) : Nat × iotc_state :=
  if !s.initialized then (0, s)
  else
    match find_connected s session_id with
    | none => (0, s)
    | some (_, x) => (bitmap_loop (x.channels.take MAX_CHANNEL_NUMBER) 0, s)

/-! ## Sequences of calls -/

/-- A call of the public API, with its arguments and with what the
environment supplies during the call. -/
inductive Op where
  | Initialize (alloc_ok : Bool) (now : Int)
  | DeInitialize
  | Get_SessionID
  | Set_Max_Session_Number (max_sessions : Nat)
  | Connect_ByUID (uid : Option (List Nat)) (sock : Int) (now : Int)
  | Session_Close (session_id : Int)
  | Session_Channel_ON (session_id : Int) (channel : Nat)
  | Session_Channel_OFF (session_id : Int) (channel : Nat)
  | Session_Channel_Check_ON_OFF (session_id : Int) (channel : Nat)
  | Session_Get_Free_Channel (session_id : Int)
  | Session_Write (session_id : Int) (data : Option (List Nat)) (size : Nat) (channel : Nat)
      (now : Int)
  | Session_Read_Check_Lost_Data_And_Datatype (session_id : Int) (buf : Bool) (size : Int)
      (timeout : Int) (lost datatype : Option Nat) (flags unused : Int) (now : Int)
  | Session_Read (session_id : Int) (buf : Bool) (size timeout flags : Int)
      (guard_before guard_after : Nat) (now : Int)
  | Get_Session_Status (session_id : Int)
  | Session_Check (session_id : Int)
  | Session_Get_Channel_ON_Count (session_id : Int)
  | Session_Get_Channel_ON_Bitmap (session_id : Int)
deriving DecidableEq, Repr

/-- One call: the value it returns and the state it leaves; `none` when the
call does not return (`__stack_chk_fail`, or the second lock of
`global_mutex`). -/
def step (op : Op) (s : iotc_state) : Option (Int × iotc_state) :=
  match op with
  | .Initialize alloc_ok now => some (IOTC_Initialize alloc_ok now s)
  | .DeInitialize => some (IOTC_DeInitialize s)
  | .Get_SessionID => some (IOTC_Get_SessionID s)
  | .Set_Max_Session_Number n => some (IOTC_Set_Max_Session_Number n s)
  | .Connect_ByUID uid sock now => IOTC_Connect_ByUID uid sock now s
  | .Session_Close sid => some (IOTC_Session_Close sid s)
  | .Session_Channel_ON sid ch => some (IOTC_Session_Channel_ON sid ch s)
  | .Session_Channel_OFF sid ch => some (IOTC_Session_Channel_OFF sid ch s)
  | .Session_Channel_Check_ON_OFF sid ch => some (IOTC_Session_Channel_Check_ON_OFF sid ch s)
  | .Session_Get_Free_Channel sid => some (IOTC_Session_Get_Free_Channel sid s)
  | .Session_Write sid data size ch now => some (IOTC_Session_Write sid data size ch now s)
  | .Session_Read_Check_Lost_Data_And_Datatype sid buf size timeout lost datatype flags unused now =>
    let r := IOTC_Session_Read_Check_Lost_Data_And_Datatype sid buf size timeout lost datatype
      flags unused now s
    some (r.1.ret, r.2)
  | .Session_Read sid buf size timeout flags g0 g1 now =>
    IOTC_Session_Read sid buf size timeout flags g0 g1 now s
  | .Get_Session_Status sid => some (IOTC_Get_Session_Status sid s)
  | .Session_Check sid => some (IOTC_Session_Check sid s)
  | .Session_Get_Channel_ON_Count sid => some (IOTC_Session_Get_Channel_ON_Count sid s)
  | .Session_Get_Channel_ON_Bitmap sid =>
    let r := IOTC_Session_Get_Channel_ON_Bitmap sid s
    some (Int.ofNat r.1, r.2)

/-- The state after a sequence of calls (`none` once a call did not return). -/
def run : iotc_state → List Op → Option iotc_state
  | s, [] => some s
  | s, op :: ops =>
    match step op s with
    | none => none
    | some r => run r.2 ops

/-- The values returned by a sequence of calls, in order. -/
def results : iotc_state → List Op → List Int
  | _, [] => []
  | s, op :: ops =>
    match step op s with
    | none => []
    | some r => r.1 :: results r.2 ops

/-- The handle that the call `op` allocates in state `s`: the value returned
by a successful `IOTC_Get_SessionID`.  (The call of `IOTC_Get_SessionID`
inside `IOTC_Connect_ByUID` stops at its lock and allocates nothing.) -/
def allocation (op : Op) (s : iotc_state) : Option Int :=
  match op with
  | .Get_SessionID =>
    if 0 ≤ (IOTC_Get_SessionID s).1 then some (IOTC_Get_SessionID s).1 else none
  | _ => none

/-- The handles allocated during a sequence of calls, in order. -/
def handles : iotc_state → List Op → List Int
  | _, [] => []
  | s, op :: ops =>
    (allocation op s).toList ++
      (match step op s with
       | none => []
       | some r => handles r.2 ops)

/-! ## Specification predicates -/

/-- Every occupied slot carries a handle below `k`. -/
def ids_below (s : iotc_state) (k : Int) : Prop :=
  ∀ x ∈ slots s, x.state ≠ .FREE → (x.session_id : Int) < k

instance (s : iotc_state) (k : Int) : Decidable (ids_below s k) := by
  unfold ids_below
  infer_instance

/-- The footprint of a call that allocates nothing: the flags, the capacity
and the allocator are kept, and no occupied slot gets a new handle. -/
def frame (s s' : iotc_state) : Prop :=
  s'.initialized = s.initialized ∧ s'.max_sessions = s.max_sessions ∧
  s'.next_session_id = s.next_session_id ∧ ∀ k, ids_below s k → ids_below s' k

/-- Number of `FREE` slots among those the table scans visit. -/
def free_slots (s : iotc_state) : Nat :=
  ((slots s).take s.max_sessions.toNat).countP (fun x => x.state = .FREE)

/-! ## Sample states -/

/-- The table after initialising the all-zero state and allocating all 16
slots. -/
def full_table : iotc_state :=
  (run (IOTC_Initialize true 0 g_iotc_state_zero).2
    (List.replicate 16 .Get_SessionID)).getD g_iotc_state_zero


/-! ## Invariants of the reachable states -/

/-- Channel `c` of a slot is `ON`. -/
def chan_on (x : session_info_t) (c : Nat) : Prop :=
  (x.channels[c]?).map (·.state) = some .ON

instance (x : session_info_t) (c : Nat) : Decidable (chan_on x c) := by
  unfold chan_on
  infer_instance

/-- The shape of the table of an initialized library: 16 slots of 32
channels, each slot `FREE`, `USED` or `CONNECTED`, the allocator in the
positive `int` range, and the occupied slots carrying pairwise distinct
handles between 1 and the allocator's next value. -/
def table_wf (s : iotc_state) : Prop :=
  s.max_sessions = 16 ∧ (slots s).length = 16 ∧
  (∀ x ∈ slots s, x.channels.length = 32) ∧
  (∀ x ∈ slots s, x.state = .FREE ∨ x.state = .USED ∨ x.state = .CONNECTED) ∧
  1 ≤ s.next_session_id ∧ s.next_session_id ≤ 2147483647 ∧
  (∀ x ∈ slots s, x.state ≠ .FREE →
    1 ≤ x.session_id ∧ (x.session_id : Int) < s.next_session_id) ∧
  (∀ (i j : Nat) (x y : session_info_t), (slots s)[i]? = some x → (slots s)[j]? = some y →
    x.state ≠ .FREE → y.state ≠ .FREE → x.session_id = y.session_id → i = j)

/-- What a call may do to a slot that it does not newly occupy: the handle
and the number of channels stay, the state stays or becomes `FREE` or (from an
occupied slot) `CONNECTED`, and a channel is `ON` afterwards only if it was
before or the slot is `CONNECTED` before and after. -/
def slot_rel (x y : session_info_t) : Prop :=
  y.session_id = x.session_id ∧ y.channels.length = x.channels.length ∧
  (y.state = x.state ∨ y.state = .FREE ∨ (x.state ≠ .FREE ∧ y.state = .CONNECTED)) ∧
  (∀ c, chan_on y c → chan_on x c ∨ (x.state = .CONNECTED ∧ y.state = .CONNECTED))

/-- The footprint of a call that occupies no slot. -/
def evolves (s s' : iotc_state) : Prop :=
  s'.initialized = s.initialized ∧ s'.max_sessions = s.max_sessions ∧
  s'.next_session_id = s.next_session_id ∧ (slots s').length = (slots s).length ∧
  ∀ (i : Nat) (y : session_info_t), (slots s')[i]? = some y →
    ∃ x, (slots s)[i]? = some x ∧ slot_rel x y

/-- The handles of the occupied slots, in slot order. -/
def live_handles (s : iotc_state) : List Nat :=
  ((slots s).filter (fun x => x.state ≠ .FREE)).map (·.session_id)

/-- No slot of `s'` has another channel `ON`/`OFF` pattern than the slot of
`s` at the same index. -/
def keeps_channels (s s' : iotc_state) : Prop :=
  ∀ (i : Nat) (y : session_info_t), (slots s')[i]? = some y →
    ∃ x, (slots s)[i]? = some x ∧ y.channels.map (·.state) = x.channels.map (·.state)

/-- A table whose slot 0 holds a `CONNECTED` session with handle 1: the
table after `IOTC_Initialize` and `IOTC_Get_SessionID`, with slot 0 then
given the id, the socket 3 and the state `CONNECTED` that the tail of
`IOTC_Connect_ByUID` writes.  It is a sample state for the calls that require
a connected session; no sequence of calls produces it, since
`IOTC_Connect_ByUID` does not return. -/
def connected_table : iotc_state :=
  modify_slot (IOTC_Get_SessionID (IOTC_Initialize true 0 g_iotc_state_zero).2).2 0
    (fun x => { x with uid := List.replicate 20 65 ++ [0], state := .CONNECTED,
                       socket_fd := 3, last_activity := 0 })

/-- A sequence of calls that consumes `k` allocator values on one slot:
`k` rounds of `IOTC_Get_SessionID` followed by the close of the handle
obtained (the handles are `1, 2, ..., k`). -/
def churn : Nat → List Op
  | 0 => []
  | k + 1 => churn k ++ [.Get_SessionID, .Session_Close (Int.ofNat (k + 1))]

/-- The table after `k` rounds of `churn` on a fresh table: slot 0 is `FREE`
again and still stores the last handle `k`, the allocator stands at `k + 1`. -/
def churned (k : Nat) (s : iotc_state) : Prop :=
  s.initialized = true ∧ s.max_sessions = 16 ∧ s.next_session_id = Int.ofNat k + 1 ∧
  slots s = { init_session 0 calloc_session with session_id := k } ::
    List.replicate 15 (init_session 0 calloc_session)

/-! ## Channels and bitmaps -/

/-- The channel record that a channel or data call on handle `h` and channel
`c` addresses: channel `c` of the slot found for `h`, provided that slot is
`CONNECTED`. -/
def channel_of (s : iotc_state) (h : Int) (c : Nat) : Option channel_info_t :=
  match find_connected s h with
  | none => none
  | some p => p.2.channels[c]?

/-- The `ON`/`OFF` state of channel `c` of the connected session of handle
`h`; `none` when there is no such session or no such channel. -/
def channel_state (s : iotc_state) (h : Int) (c : Nat) : Option channel_state_t :=
  (channel_of s h c).map (fun ch => ch.state)

/-- Number of set bits among the 32 low bits of `n`. -/
def popcount32 (n : Nat) : Nat := (List.range 32).countP (fun k => n.testBit k)

/-- A channel record that is `ON`, with sequence counter 7 and two queued
messages. -/
def queued_channel : channel_info_t :=
  { state := .ON, next_seq_id := 7,
    msg_queue := [{ data := [1, 2, 3], size := 3, seq_id := 5 },
                  { data := [9], size := 1, seq_id := 6 }] }

/-- A table with one connected session (handle 1, slot 0) whose channel 3 is
`queued_channel`. -/
def queued_table : iotc_state :=
  modify_slot connected_table 0 (fun x => modify_channel x 3 (fun _ => queued_channel))

/-- What a call on channel `c` of handle `h` may change between `s` and `s'`:
the flags, the capacity, the allocator and the number of slots stay; every
slot keeps its state, UID, socket, handle, time stamp and number of channels;
channel `c'` of slot `j` keeps its whole record unless `j` is the slot found
for `h` and `c' = c`. -/
def channel_frame (s s' : iotc_state) (h : Int) (c : Nat) : Prop :=
  s'.initialized = s.initialized ∧ s'.max_sessions = s.max_sessions ∧
  s'.next_session_id = s.next_session_id ∧ (slots s').length = (slots s).length ∧
  ∀ (j : Nat) (y : session_info_t), (slots s)[j]? = some y →
    ∃ y', (slots s')[j]? = some y' ∧ y'.state = y.state ∧ y'.uid = y.uid ∧
      y'.socket_fd = y.socket_fd ∧ y'.session_id = y.session_id ∧
      y'.last_activity = y.last_activity ∧ y'.channels.length = y.channels.length ∧
      ∀ c' : Nat, (find_session_by_id s h ≠ some j ∨ c' ≠ c) →
        y'.channels[c']? = y.channels[c']?

/-- What a successful data call on handle `h` at time `now` may change between
`s` and `s'`: the flags, the capacity, the allocator and the number of slots
stay, and every slot is unchanged except that the slot found for `h` has
`last_activity = now`. -/
def stamped (s s' : iotc_state) (h : Int) (now : Int) : Prop :=
  s'.initialized = s.initialized ∧ s'.max_sessions = s.max_sessions ∧
  s'.next_session_id = s.next_session_id ∧ (slots s').length = (slots s).length ∧
  ∀ (j : Nat) (y : session_info_t), (slots s)[j]? = some y →
    (slots s')[j]? =
      some (if find_session_by_id s h = some j then { y with last_activity := now } else y)

/-- The table right after `IOTC_Initialize` on the all-zero state: initialized,
16 free slots, no handle allocated. -/
def fresh_table : iotc_state := (IOTC_Initialize true 0 g_iotc_state_zero).2

/-- A table with two `CONNECTED` sessions, handle 1 in slot 0 and handle 2 in
slot 1, all channels `OFF`: `connected_table` after `IOTC_Get_SessionID`, with
slot 1 then given an id, the socket 4 and the state `CONNECTED`. -/
def two_connected_table : iotc_state :=
  modify_slot (IOTC_Get_SessionID connected_table).2 1
    (fun x => { x with uid := List.replicate 20 66 ++ [0], state := .CONNECTED,
                       socket_fd := 4, last_activity := 0 })

/-! ## The read wrapper with its delegate as a parameter -/

/-- The body of `IOTC_Session_Read` with the function it delegates to given as
`delegate` (the test suite links a stub in place of
`IOTC_Session_Read_Check_Lost_Data_And_Datatype`).  `guard_before` and
`guard_after` are the values of `__stack_chk_guard` read before and after the
delegated call; `none` is the call of `__stack_chk_fail` (no return). -/
def IOTC_Session_Read_with
    (delegate : Int → Bool → Int → Int → Option Nat → Option Nat → Int → Int → Int →
      iotc_state → read_result × iotc_state)
    (session_id : Int) (buf : Bool) (size timeout flags : Int)
    (guard_before guard_after : Nat) (now : Int) (s : iotc_state) : Option (Int × iotc_state) :=
  let r := delegate session_id buf size timeout (some 0) (some 0) flags 0 now s
  if r.1.ret = 0 ∧ guard_before = guard_after then some (r.1.ret, r.2)
  else none

/-- A delegate as the test suite stubs it: it returns `ret` whatever the
arguments and touches nothing. -/
def stub_read (ret : Int) : Int → Bool → Int → Int → Option Nat → Option Nat → Int → Int → Int →
    iotc_state → read_result × iotc_state :=
  fun _ _ _ _ lost datatype _ _ _ s => (⟨ret, lost, datatype⟩, s)

/-! ## Version and byte order -/

/-- Function `IOTC_Get_Version`: the value behind the out-pointer after the
call (`none` for a null pointer). -/
def IOTC_Get_Version (version : Option Nat) : Option Nat :=
  match version with
  | none => none
  | some _ => some 0x010d0700

/-- Function `IOTC_Get_Version_String`. -/
def IOTC_Get_Version_String : String := "1.13.7.0"

/-- The four bytes of a packed 32-bit value, most significant first. -/
def version_bytes (v : Nat) : List Nat :=
  [v / 16777216 % 256, v / 65536 % 256, v / 256 % 256, v % 256]

/-- The loop reading dot-separated decimal numbers; `acc` is the number read
so far. -/
def version_components_loop : List Char → Nat → List Nat
  | [], acc => [acc]
  | c :: cs, acc =>
    if c = '.' then acc :: version_components_loop cs 0
    else version_components_loop cs (10 * acc + (c.toNat - 48))

/-- The decimal numbers that a dotted version string is made of. -/
def version_components (s : String) : List Nat := version_components_loop s.data 0

/-- Function `bswap32` on a `uint32_t`; a left shift is reduced modulo
`2^32`. -/
def bswap32 (v : Nat) : Nat :=
  (((v &&& 0x000000FF) <<< 24) % 4294967296) |||
  (((v &&& 0x0000FF00) <<< 8) % 4294967296) |||
  ((v &&& 0x00FF0000) >>> 8) |||
  ((v &&& 0xFF000000) >>> 24)

/-- Function `IOTC_Data_ntoh`; `little_endian` is the outcome of the test
`__BYTE_ORDER__ == __ORDER_LITTLE_ENDIAN__` made when the file is compiled. -/
def IOTC_Data_ntoh (little_endian : Bool) (data : Nat) : Nat :=
  if little_endian then bswap32 data else data

/-- Function `IOTC_Data_hton`. -/
def IOTC_Data_hton (little_endian : Bool) (data : Nat) : Nat :=
  if little_endian then bswap32 data else data

/-- Packet header, `IOTCHeader`: five `uint32_t` fields. -/
structure IOTCHeader where
  flag : Nat
  sid : Nat
  seq : Nat
  timestamp : Nat
  payload : Nat
deriving DecidableEq, Repr

/-- Function `IOTC_Header_ntoh`: the header behind the pointer after the call
(`none` for a null pointer). -/
def IOTC_Header_ntoh (little_endian : Bool) (hdr : Option IOTCHeader) : Option IOTCHeader :=
  match hdr with
  | none => none
  | some h =>
    some { flag := IOTC_Data_ntoh little_endian h.flag,
           sid := IOTC_Data_ntoh little_endian h.sid,
           seq := IOTC_Data_ntoh little_endian h.seq,
           timestamp := IOTC_Data_ntoh little_endian h.timestamp,
           payload := IOTC_Data_ntoh little_endian h.payload }

/-- Function `IOTC_Header_hton`. -/
def IOTC_Header_hton (little_endian : Bool) (hdr : Option IOTCHeader) : Option IOTCHeader :=
  match hdr with
  | none => none
  | some h =>
    some { flag := IOTC_Data_hton little_endian h.flag,
           sid := IOTC_Data_hton little_endian h.sid,
           seq := IOTC_Data_hton little_endian h.seq,
           timestamp := IOTC_Data_hton little_endian h.timestamp,
           payload := IOTC_Data_hton little_endian h.payload }

/-- Byte `k` of a value, byte 0 being the least significant. -/
def byte_of (k v : Nat) : Nat := v / 256 ^ k % 256

/-- A header whose five fields are 32-bit values. -/
def header_in_range (h : IOTCHeader) : Prop :=
  h.flag < 4294967296 ∧ h.sid < 4294967296 ∧ h.seq < 4294967296 ∧
  h.timestamp < 4294967296 ∧ h.payload < 4294967296

/-- The header of the conversion test. -/
def test_header : IOTCHeader :=
  { flag := 0x11223344, sid := 0x55667788, seq := 0x99aabbcc, timestamp := 0xddeeff00,
    payload := 0x12345678 }

/-! ## Slot states -/

/-- Every slot is `FREE`, `USED` or `CONNECTED`. -/
def states_ok (s : iotc_state) : Prop :=
  ∀ x ∈ slots s, x.state = .FREE ∨ x.state = .USED ∨ x.state = .CONNECTED

/-- A `message_entry_t` in memory, with its `next` pointer; an address is a
number and `none` is `NULL`. -/
structure linked_entry where
  data : List Nat
  size : Nat
  seq_id : Nat
  next : Option Nat
deriving DecidableEq, Repr

/-- Assignment to the memory cell at address `a`. -/
def store (mem : Nat → Option linked_entry) (a : Nat) (v : Option linked_entry) :
    Nat → Option linked_entry :=
  fun b => if b = a then v else mem b

/-- The queue pointers of a `channel_info_t` and the memory holding the
entries (`mem a` is the entry at address `a`, `none` where nothing is
allocated). -/
structure linked_queue where
  mem : Nat → Option linked_entry
  msg_queue_head : Option Nat
  msg_queue_tail : Option Nat

/-- The queue part of `init_channel`: both pointers become `NULL`. -/
def linked_init_channel (q : linked_queue) : linked_queue :=
  { q with msg_queue_head := none, msg_queue_tail := none }

/-- Function `enqueue_message` on the pointers. `entry` is what the first
`malloc` returns (`none` for `NULL`), `data_ok` says whether the second one
succeeds; `seq_id` is a `uint16_t`. -/
def linked_enqueue_message (q : linked_queue) (data : List Nat) (size : Nat) (seq_id : Nat)
    (entry : Option Nat) (data_ok : Bool) : Int × linked_queue :=
  match entry with
  | none => (-1, q)
  | some e =>
    if !data_ok then (-1, q)
    else
      let mem1 := store q.mem e
        (some { data := data.take size, size := size, seq_id := seq_id % 65536, next := none })
      match q.msg_queue_tail with
      | some t =>
        (0, { mem := store mem1 t ((mem1 t).map (fun c => { c with next := some e })),
              msg_queue_head := q.msg_queue_head,
              msg_queue_tail := some e })
      | none =>
        (0, { mem := mem1, msg_queue_head := some e, msg_queue_tail := some e })

/-- Function `dequeue_message` on the pointers: the pointer returned and the
queue left. -/
def linked_dequeue_message (q : linked_queue) : Option Nat × linked_queue :=
  match q.msg_queue_head with
  | none => (none, q)
  | some e =>
    let head := (q.mem e).bind (fun c => c.next)
    (some e, { q with
      msg_queue_head := head,
      msg_queue_tail := if head.isNone then none else q.msg_queue_tail })

/-- Following `next` from pointer `p` visits exactly the addresses `l`, in
this order, and ends at `NULL`. -/
def chain (mem : Nat → Option linked_entry) : List Nat → Option Nat → Prop
  | [], p => p = none
  | a :: l, p => p = some a ∧ ∃ c, mem a = some c ∧ chain mem l c.next

/-- The queue consists of the entries at the pairwise distinct addresses `l`:
they are linked in this order from `msg_queue_head`, and `msg_queue_tail`
points to the last of them (it is `NULL` when there is none). -/
def queue_wf (q : linked_queue) (l : List Nat) : Prop :=
  chain q.mem l q.msg_queue_head ∧ q.msg_queue_tail = l.getLast? ∧ l.Nodup

/-- The message that an entry carries. -/
def message_of (c : linked_entry) : message_entry_t :=
  { data := c.data, size := c.size, seq_id := c.seq_id }

/-- The message behind a pointer. -/
def message_at (q : linked_queue) (p : Option Nat) : Option message_entry_t :=
  (p.bind q.mem).map message_of

/-- The messages of the entries at the addresses `l`, in order. -/
def contents (q : linked_queue) (l : List Nat) : List message_entry_t :=
  l.filterMap (fun a => (q.mem a).map message_of)

/-- A request to enqueue: the address `malloc` hands out for the entry, and
the arguments of `enqueue_message`. -/
structure enqueue_request where
  addr : Nat
  data : List Nat
  size : Nat
  seq_id : Nat
deriving DecidableEq, Repr

/-- The message a request asks to enqueue. -/
def enqueue_request.message (r : enqueue_request) : message_entry_t :=
  { data := r.data.take r.size, size := r.size, seq_id := r.seq_id % 65536 }

/-- Successive calls of `enqueue_message`, both allocations succeeding. -/
def linked_enqueue_all : linked_queue → List enqueue_request → linked_queue
  | q, [] => q
  | q, r :: rs =>
    linked_enqueue_all (linked_enqueue_message q r.data r.size r.seq_id (some r.addr) true).2 rs

/-- The codes returned by successive calls of `enqueue_message`, both
allocations succeeding. -/
def linked_enqueue_codes : linked_queue → List enqueue_request → List Int
  | _, [] => []
  | q, r :: rs =>
    (linked_enqueue_message q r.data r.size r.seq_id (some r.addr) true).1 ::
      linked_enqueue_codes (linked_enqueue_message q r.data r.size r.seq_id (some r.addr) true).2 rs

/-- The messages behind the pointers that `n` successive calls of
`dequeue_message` return (`none` for a `NULL` result), and the queue left. -/
def linked_dequeue_all : linked_queue → Nat → List (Option message_entry_t) × linked_queue
  | q, 0 => ([], q)
  | q, n + 1 =>
    (message_at q (linked_dequeue_message q).1 ::
        (linked_dequeue_all (linked_dequeue_message q).2 n).1,
      (linked_dequeue_all (linked_dequeue_message q).2 n).2)

/-- A queue with no entry in an empty memory. -/
def empty_queue : linked_queue :=
  { mem := fun _ => none, msg_queue_head := none, msg_queue_tail := none }

/-- Three requests of the sample run, at addresses 40, 8 and 24. -/
def sample_requests : List enqueue_request :=
  [{ addr := 40, data := [1, 2, 3], size := 3, seq_id := 1 },
   { addr := 8, data := [7], size := 1, seq_id := 2 },
   { addr := 24, data := [5, 6], size := 2, seq_id := 65535 }]

/-! # Theorems -/

/-! ## Helper lemmas: machine integers -/

theorem toInt32_toUInt32_of_range (c : Int) (h0 : 0 ≤ c) (h1 : c ≤ 2147483647) :
    toInt32 (toUInt32 c) = c := by
  unfold toInt32 toUInt32
  rw [Int.toNat_of_nonneg (by omega)]
  omega

theorem toUInt32_of_range (c : Int) (h0 : 0 ≤ c) (h1 : c ≤ 2147483647) :
    (toUInt32 c : Int) = c := by
  unfold toUInt32
  rw [Int.toNat_of_nonneg (by omega)]
  omega

theorem toInt32_of_range (c : Int) (h0 : -2147483648 ≤ c) (h1 : c ≤ 2147483647) :
    toInt32 c = c := by
  unfold toInt32
  omega

theorem toInt32_idem (x : Int) : toInt32 (toInt32 x) = toInt32 x := by
  unfold toInt32
  omega

/-! ## Helper lemmas: slots and the two scans -/

theorem slots_modify_slot (s : iotc_state) (i : Nat) (f : session_info_t → session_info_t) :
    slots (modify_slot s i f) =
      match (slots s)[i]? with
      | some x => (slots s).set i (f x)
      | none => slots s := by
  unfold modify_slot slots
  cases hs : s.sessions with
  | none => simp
  | some ss =>
    simp only [Option.map_some', Option.getD_some]

theorem slots_modify_slot_of_some (s : iotc_state) (i : Nat) (f : session_info_t → session_info_t)
    (x : session_info_t) (hx : (slots s)[i]? = some x) :
    slots (modify_slot s i f) = (slots s).set i (f x) := by
  rw [slots_modify_slot, hx]

theorem modify_slot_initialized (s : iotc_state) (i : Nat) (f : session_info_t → session_info_t) :
    (modify_slot s i f).initialized = s.initialized := rfl

theorem modify_slot_next (s : iotc_state) (i : Nat) (f : session_info_t → session_info_t) :
    (modify_slot s i f).next_session_id = s.next_session_id := rfl

theorem modify_slot_max (s : iotc_state) (i : Nat) (f : session_info_t → session_info_t) :
    (modify_slot s i f).max_sessions = s.max_sessions := rfl

theorem mem_slots_modify_slot (s : iotc_state) (i : Nat) (f : session_info_t → session_info_t)
    (y : session_info_t) (hy : y ∈ slots (modify_slot s i f)) :
    y ∈ slots s ∨ ∃ x, (slots s)[i]? = some x ∧ y = f x := by
  rw [slots_modify_slot] at hy
  cases hx : (slots s)[i]? with
  | none =>
    rw [hx] at hy
    exact Or.inl hy
  | some x =>
    rw [hx] at hy
    rcases List.mem_or_eq_of_mem_set hy with h | h
    · exact Or.inl h
    · exact Or.inr ⟨x, rfl, h⟩

theorem find_free_session_loop_some (l : List session_info_t) (i : Nat) :
    find_free_session_loop l = some i ↔
      (∃ x, l[i]? = some x ∧ x.state = .FREE) ∧
      ∀ j, j < i → ∀ y, l[j]? = some y → y.state ≠ .FREE := by
  induction l generalizing i with
  | nil => simp [find_free_session_loop]
  | cons a l ih =>
    unfold find_free_session_loop
    by_cases ha : a.state = .FREE
    · simp only [ha, if_true, Option.some.injEq]
      constructor
      · rintro rfl
        exact ⟨⟨a, by simp, ha⟩, fun j hj => absurd hj (Nat.not_lt_zero j)⟩
      · rintro ⟨_, hlow⟩
        cases i with
        | zero => rfl
        | succ k => exact absurd ha (hlow 0 (Nat.succ_pos k) a (by simp))
    · simp only [ha, if_false, Option.map_eq_some']
      constructor
      · rintro ⟨k, hk, rfl⟩
        obtain ⟨⟨x, hx, hxs⟩, hlow⟩ := (ih k).1 hk
        refine ⟨⟨x, by simpa using hx, hxs⟩, ?_⟩
        intro j hj y hy
        cases j with
        | zero =>
          simp at hy
          subst hy
          exact ha
        | succ m =>
          exact hlow m (by omega) y (by simpa using hy)
      · rintro ⟨⟨x, hx, hxs⟩, hlow⟩
        cases i with
        | zero =>
          simp at hx
          subst hx
          exact absurd hxs ha
        | succ k =>
          refine ⟨k, (ih k).2 ⟨⟨x, by simpa using hx, hxs⟩, ?_⟩, rfl⟩
          intro j hj y hy
          exact hlow (j + 1) (by omega) y (by simpa using hy)

theorem find_free_session_loop_none (l : List session_info_t) :
    find_free_session_loop l = none ↔ ∀ x ∈ l, x.state ≠ .FREE := by
  induction l with
  | nil => simp [find_free_session_loop]
  | cons a l ih =>
    unfold find_free_session_loop
    by_cases ha : a.state = .FREE
    · simp [ha]
    · simp [ha, ih]

theorem find_session_by_id_loop_some (sid : Int) (l : List session_info_t) (i : Nat) :
    find_session_by_id_loop sid l = some i ↔
      (∃ x, l[i]? = some x ∧ x.state ≠ .FREE ∧ x.session_id = toUInt32 sid) ∧
      ∀ j, j < i → ∀ y, l[j]? = some y → ¬ (y.state ≠ .FREE ∧ y.session_id = toUInt32 sid) := by
  induction l generalizing i with
  | nil => simp [find_session_by_id_loop]
  | cons a l ih =>
    unfold find_session_by_id_loop
    by_cases ha : a.state ≠ .FREE ∧ a.session_id = toUInt32 sid
    · rw [if_pos ha]
      simp only [Option.some.injEq]
      constructor
      · rintro rfl
        exact ⟨⟨a, by simp, ha⟩, fun j hj => absurd hj (Nat.not_lt_zero j)⟩
      · rintro ⟨_, hlow⟩
        cases i with
        | zero => rfl
        | succ k => exact absurd ha (hlow 0 (Nat.succ_pos k) a (by simp))
    · rw [if_neg ha]
      simp only [Option.map_eq_some']
      constructor
      · rintro ⟨k, hk, rfl⟩
        obtain ⟨⟨x, hx, hxs⟩, hlow⟩ := (ih k).1 hk
        refine ⟨⟨x, by simpa using hx, hxs⟩, ?_⟩
        intro j hj y hy
        cases j with
        | zero =>
          simp at hy
          subst hy
          exact ha
        | succ m =>
          exact hlow m (by omega) y (by simpa using hy)
      · rintro ⟨⟨x, hx, hxs⟩, hlow⟩
        cases i with
        | zero =>
          simp at hx
          subst hx
          exact absurd hxs ha
        | succ k =>
          refine ⟨k, (ih k).2 ⟨⟨x, by simpa using hx, hxs⟩, ?_⟩, rfl⟩
          intro j hj y hy
          exact hlow (j + 1) (by omega) y (by simpa using hy)

theorem find_session_by_id_loop_none (sid : Int) (l : List session_info_t) :
    find_session_by_id_loop sid l = none ↔
      ∀ x ∈ l, ¬ (x.state ≠ .FREE ∧ x.session_id = toUInt32 sid) := by
  induction l with
  | nil => simp [find_session_by_id_loop]
  | cons a l ih =>
    unfold find_session_by_id_loop
    by_cases ha : a.state ≠ .FREE ∧ a.session_id = toUInt32 sid
    · rw [if_pos ha]
      simp only [List.mem_cons, forall_eq_or_imp, false_iff, reduceCtorEq]
      exact fun h => h.1 ha
    · rw [if_neg ha]
      simp only [Option.map_eq_none', List.mem_cons, forall_eq_or_imp, ih]
      exact ⟨fun h => ⟨ha, h⟩, fun h => h.2⟩

theorem getElem?_take_some {α : Type} (l : List α) (n i : Nat) (x : α)
    (h : (l.take n)[i]? = some x) : i < n ∧ l[i]? = some x := by
  rw [List.getElem?_take] at h
  by_cases hi : i < n
  · rw [if_pos hi] at h
    exact ⟨hi, h⟩
  · rw [if_neg hi] at h
    cases h

theorem find_free_session_some (s : iotc_state) (i : Nat) (h : find_free_session s = some i) :
    ∃ x, (slots s)[i]? = some x ∧ x.state = .FREE := by
  unfold find_free_session at h
  obtain ⟨⟨x, hx, hxs⟩, _⟩ := (find_free_session_loop_some _ i).1 h
  exact ⟨x, (getElem?_take_some _ _ _ _ hx).2, hxs⟩

theorem find_session_by_id_some (s : iotc_state) (sid : Int) (i : Nat)
    (h : find_session_by_id s sid = some i) :
    ∃ x, (slots s)[i]? = some x ∧ x.state ≠ .FREE ∧ x.session_id = toUInt32 sid := by
  unfold find_session_by_id at h
  obtain ⟨⟨x, hx, hxs⟩, _⟩ := (find_session_by_id_loop_some sid _ i).1 h
  exact ⟨x, (getElem?_take_some _ _ _ _ hx).2, hxs⟩

theorem find_connected_some (s : iotc_state) (sid : Int) (i : Nat) (x : session_info_t)
    (h : find_connected s sid = some (i, x)) :
    (slots s)[i]? = some x ∧ x.state = .CONNECTED ∧ x.session_id = toUInt32 sid := by
  unfold find_connected at h
  cases hf : find_session_by_id s sid with
  | none => simp [hf] at h
  | some k =>
    obtain ⟨y, hy, hys, hyid⟩ := find_session_by_id_some s sid k hf
    simp only [hf, hy] at h
    by_cases hc : y.state = .CONNECTED
    · simp only [hc, ne_eq, not_true_eq_false, if_false, Option.some.injEq, Prod.mk.injEq] at h
      obtain ⟨rfl, rfl⟩ := h
      exact ⟨hy, hc, hyid⟩
    · simp [hc] at h

/-! ## Helper lemmas: one call and the allocator -/

theorem ids_below_modify_slot (s : iotc_state) (k : Int) (i : Nat)
    (f : session_info_t → session_info_t) (h : ids_below s k)
    (hid : ∀ x, (f x).session_id = x.session_id)
    (hst : ∀ x, (slots s)[i]? = some x → (f x).state ≠ .FREE → x.state ≠ .FREE) :
    ids_below (modify_slot s i f) k := by
  intro y hy hfree
  rcases mem_slots_modify_slot s i f y hy with hmem | ⟨x, hx, rfl⟩
  · exact h y hmem hfree
  · rw [hid x]
    exact h x (List.getElem?_mem hx) (hst x hx hfree)

theorem ids_below_mono (s : iotc_state) (k k' : Int) (h : ids_below s k) (hk : k ≤ k') :
    ids_below s k' :=
  fun x hx hfree => lt_of_lt_of_le (h x hx hfree) hk

theorem get_sessionid_cases (s : iotc_state) (hinit : s.initialized = true) :
    (find_free_session s = none ∧ IOTC_Get_SessionID s = (IOTC_ER_EXCEED_MAX_SESSION, s)) ∨
    (∃ i x, find_free_session s = some i ∧ (slots s)[i]? = some x ∧ x.state = .FREE ∧
      IOTC_Get_SessionID s =
        (toInt32 (toUInt32 s.next_session_id),
          { modify_slot s i
              (fun x => { x with state := .USED, session_id := toUInt32 s.next_session_id }) with
            next_session_id := toInt32 (s.next_session_id + 1) })) := by
  unfold IOTC_Get_SessionID
  cases hf : find_free_session s with
  | none => simp [hinit]
  | some i =>
    obtain ⟨x, hx, hxs⟩ := find_free_session_some s i hf
    right
    exact ⟨i, x, rfl, hx, hxs, by simp [hinit]⟩

/-- What one call of `IOTC_Get_SessionID` does to the allocator, for a
counter value `c` in the positive `int` range. -/
theorem get_sessionid_alloc (s : iotc_state) (c : Int) (hinit : s.initialized = true)
    (hnext : s.next_session_id = c) (h1 : 1 ≤ c) (h2 : c ≤ 2147483647) (hids : ids_below s c) :
    (IOTC_Get_SessionID s = (IOTC_ER_EXCEED_MAX_SESSION, s)) ∨
    ((IOTC_Get_SessionID s).1 = c ∧ (IOTC_Get_SessionID s).2.initialized = true ∧
      (IOTC_Get_SessionID s).2.max_sessions = s.max_sessions ∧
      (IOTC_Get_SessionID s).2.next_session_id = toInt32 (c + 1) ∧
      ids_below (IOTC_Get_SessionID s).2 (c + 1)) := by
  rcases get_sessionid_cases s hinit with ⟨_, h⟩ | ⟨i, x, _, hx, _, h⟩
  · exact Or.inl h
  · right
    rw [h, hnext]
    refine ⟨toInt32_toUInt32_of_range c (by omega) h2, hinit, rfl, rfl, ?_⟩
    intro y hy hfree
    have hy2 : y ∈ slots (modify_slot s i
        (fun x => { x with state := .USED, session_id := toUInt32 c })) := hy
    rcases mem_slots_modify_slot s i _ y hy2 with hmem | ⟨z, _, rfl⟩
    · have := hids y hmem hfree
      omega
    · simp only
      rw [toUInt32_of_range c (by omega) h2]
      omega

theorem frame_refl (s : iotc_state) : frame s s :=
  ⟨rfl, rfl, rfl, fun _ h => h⟩

theorem frame_trans (s t u : iotc_state) (h1 : frame s t) (h2 : frame t u) : frame s u :=
  ⟨h2.1.trans h1.1, h2.2.1.trans h1.2.1, h2.2.2.1.trans h1.2.2.1,
    fun k hk => h2.2.2.2 k (h1.2.2.2 k hk)⟩

theorem frame_modify_slot (s : iotc_state) (i : Nat) (f : session_info_t → session_info_t)
    (hid : ∀ x, (f x).session_id = x.session_id)
    (hst : ∀ x, (slots s)[i]? = some x → (f x).state ≠ .FREE → x.state ≠ .FREE) :
    frame s (modify_slot s i f) :=
  ⟨rfl, rfl, rfl, fun k hk => ids_below_modify_slot s k i f hk hid hst⟩

theorem modify_slot_modify_slot (s : iotc_state) (i : Nat)
    (f g : session_info_t → session_info_t) :
    modify_slot (modify_slot s i f) i g = modify_slot s i (fun x => g (f x)) := by
  unfold modify_slot
  cases hs : s.sessions with
  | none => simp
  | some ss =>
    cases hx : ss[i]? with
    | none => simp [hx]
    | some x =>
      have hi : i < ss.length := (List.getElem?_eq_some.1 hx).1
      simp [hx, hi, List.set_set]

theorem frame_close (sid : Int) (s : iotc_state) : frame s (IOTC_Session_Close sid s).2 := by
  unfold IOTC_Session_Close
  split
  · exact frame_refl s
  · split
    · exact frame_refl s
    · exact frame_modify_slot s _ _ (fun _ => rfl) (fun _ _ h => absurd rfl h)

theorem modify_channel_state (x : session_info_t) (c : Nat) (f : channel_info_t → channel_info_t) :
    (modify_channel x c f).state = x.state := rfl

theorem modify_channel_session_id (x : session_info_t) (c : Nat)
    (f : channel_info_t → channel_info_t) :
    (modify_channel x c f).session_id = x.session_id := rfl

theorem frame_channel_on (sid : Int) (ch : Nat) (s : iotc_state) :
    frame s (IOTC_Session_Channel_ON sid ch s).2 := by
  unfold IOTC_Session_Channel_ON
  split
  · exact frame_refl s
  · split
    · exact frame_refl s
    · split
      · exact frame_refl s
      · exact frame_modify_slot s _ _ (fun _ => rfl) (fun _ _ h => h)

theorem frame_channel_off (sid : Int) (ch : Nat) (s : iotc_state) :
    frame s (IOTC_Session_Channel_OFF sid ch s).2 := by
  unfold IOTC_Session_Channel_OFF
  split
  · exact frame_refl s
  · split
    · exact frame_refl s
    · split
      · exact frame_refl s
      · exact frame_modify_slot s _ _ (fun _ => rfl) (fun _ _ h => h)

theorem channel_check_state (sid : Int) (ch : Nat) (s : iotc_state) :
    (IOTC_Session_Channel_Check_ON_OFF sid ch s).2 = s := by
  unfold IOTC_Session_Channel_Check_ON_OFF
  repeat' split
  all_goals rfl

theorem free_channel_state (sid : Int) (s : iotc_state) :
    (IOTC_Session_Get_Free_Channel sid s).2 = s := by
  unfold IOTC_Session_Get_Free_Channel
  repeat' split
  all_goals rfl

theorem frame_write (sid : Int) (data : Option (List Nat)) (size ch : Nat) (now : Int)
    (s : iotc_state) : frame s (IOTC_Session_Write sid data size ch now s).2 := by
  unfold IOTC_Session_Write
  split
  · exact frame_refl s
  · split
    · exact frame_refl s
    · split
      · exact frame_refl s
      · split
        · exact frame_refl s
        · exact frame_modify_slot s _ _ (fun _ => rfl) (fun _ _ h => h)

theorem frame_read_check (sid : Int) (buf : Bool) (size timeout : Int) (lost datatype : Option Nat)
    (flags unused now : Int) (s : iotc_state) :
    frame s (IOTC_Session_Read_Check_Lost_Data_And_Datatype sid buf size timeout lost datatype
      flags unused now s).2 := by
  unfold IOTC_Session_Read_Check_Lost_Data_And_Datatype
  split
  · exact frame_refl s
  · split
    · exact frame_refl s
    · split
      · exact frame_refl s
      · exact frame_modify_slot s _ _ (fun _ => rfl) (fun _ _ h => h)

theorem status_state (sid : Int) (s : iotc_state) : (IOTC_Get_Session_Status sid s).2 = s := by
  unfold IOTC_Get_Session_Status
  repeat' split
  all_goals rfl

theorem session_check_state (sid : Int) (s : iotc_state) : (IOTC_Session_Check sid s).2 = s := by
  unfold IOTC_Session_Check
  exact status_state sid s

theorem on_count_state (sid : Int) (s : iotc_state) :
    (IOTC_Session_Get_Channel_ON_Count sid s).2 = s := by
  unfold IOTC_Session_Get_Channel_ON_Count
  repeat' split
  all_goals rfl

theorem on_bitmap_state (sid : Int) (s : iotc_state) :
    (IOTC_Session_Get_Channel_ON_Bitmap sid s).2 = s := by
  unfold IOTC_Session_Get_Channel_ON_Bitmap
  repeat' split
  all_goals rfl

/-- A call of `IOTC_Get_SessionID` by a caller that holds `global_mutex` does
not return. -/
theorem get_sessionid_from_held (s : iotc_state) : IOTC_Get_SessionID_from true s = none := rfl

theorem get_sessionid_from_free (s : iotc_state) :
    IOTC_Get_SessionID_from false s = some (IOTC_Get_SessionID s) := rfl

theorem connect_invalid (uid : Option (List Nat)) (sock now : Int) (s : iotc_state)
    (h : ∀ u, uid = some u → u.length ≠ 20) :
    IOTC_Connect_ByUID uid sock now s = some (IOTC_ER_INVALID_ARG, s) := by
  cases uid with
  | none => rfl
  | some u =>
    have := h u rfl
    simp only [IOTC_Connect_ByUID, this, ne_eq, not_false_eq_true, if_true]

theorem connect_uninit (u : List Nat) (sock now : Int) (s : iotc_state)
    (hlen : u.length = 20) (h : s.initialized = false) :
    IOTC_Connect_ByUID (some u) sock now s = some (IOTC_ER_NOT_INITIALIZED, s) := by
  simp only [IOTC_Connect_ByUID, hlen, h, ne_eq, not_true_eq_false, if_false, Bool.not_false,
    if_true]

/-- With a 20-byte id on an initialized table `IOTC_Connect_ByUID` reaches
the call of `IOTC_Get_SessionID` and does not return. -/
theorem connect_held (u : List Nat) (sock now : Int) (s : iotc_state)
    (hlen : u.length = 20) (h : s.initialized = true) :
    IOTC_Connect_ByUID (some u) sock now s = none := by
  simp only [IOTC_Connect_ByUID, hlen, h, ne_eq, not_true_eq_false, if_false, Bool.not_true,
    Bool.false_eq_true, get_sessionid_from_held]

/-- Whenever `IOTC_Connect_ByUID` returns, it returns `-27` or `-1` and the
state is unchanged. -/
theorem connect_returns (uid : Option (List Nat)) (sock now : Int) (s : iotc_state)
    (r : Int × iotc_state) (h : IOTC_Connect_ByUID uid sock now s = some r) :
    r.2 = s ∧
    ((r.1 = IOTC_ER_INVALID_ARG ∧ ∀ u, uid = some u → u.length ≠ 20) ∨
     (r.1 = IOTC_ER_NOT_INITIALIZED ∧ s.initialized = false ∧
       ∃ u, uid = some u ∧ u.length = 20)) := by
  by_cases hv : ∃ u, uid = some u ∧ u.length = 20
  · obtain ⟨u, rfl, hlen⟩ := hv
    rcases Bool.eq_false_or_eq_true s.initialized with hi | hi
    · rw [connect_held u sock now s hlen hi] at h
      cases h
    · rw [connect_uninit u sock now s hlen hi] at h
      cases h
      exact ⟨rfl, Or.inr ⟨rfl, hi, u, rfl, hlen⟩⟩
  · have hinv : ∀ u, uid = some u → u.length ≠ 20 := fun u hu hl => hv ⟨u, hu, hl⟩
    rw [connect_invalid uid sock now s hinv] at h
    cases h
    exact ⟨rfl, Or.inl ⟨rfl, hinv⟩⟩

theorem initialize_of_initialized (alloc_ok : Bool) (now : Int) (s : iotc_state)
    (h : s.initialized = true) :
    IOTC_Initialize alloc_ok now s = (IOTC_ER_ALREADY_INITIALIZED, s) := by
  simp [IOTC_Initialize, h]

theorem set_max_of_initialized (n : Nat) (s : iotc_state) (h : s.initialized = true) :
    IOTC_Set_Max_Session_Number n s = (IOTC_ER_ALREADY_INITIALIZED, s) := by
  simp [IOTC_Set_Max_Session_Number, h]

theorem step_none_allocation (op : Op) (s : iotc_state) (h : step op s = none) :
    allocation op s = none := by
  cases op <;> first | rfl | simp [step] at h

/-- What one call other than `IOTC_DeInitialize` does to the allocator of an
initialized table whose counter `c` is in the positive `int` range. -/
theorem step_alloc (op : Op) (s : iotc_state) (c : Int) (hinit : s.initialized = true)
    (hnext : s.next_session_id = c) (h1 : 1 ≤ c) (h2 : c ≤ 2147483647) (hids : ids_below s c)
    (hop : op ≠ .DeInitialize) (r : Int × iotc_state) (hstep : step op s = some r) :
    r.2.initialized = true ∧ r.2.max_sessions = s.max_sessions ∧
    ((allocation op s = none ∧ r.2.next_session_id = c ∧ ids_below r.2 c) ∨
     (allocation op s = some c ∧ r.2.next_session_id = toInt32 (c + 1) ∧
       ids_below r.2 (c + 1))) := by
  have of_frame : ∀ t : iotc_state, frame s t → allocation op s = none →
      t.initialized = true ∧ t.max_sessions = s.max_sessions ∧
      ((allocation op s = none ∧ t.next_session_id = c ∧ ids_below t c) ∨
       (allocation op s = some c ∧ t.next_session_id = toInt32 (c + 1) ∧
         ids_below t (c + 1))) := by
    intro t ht ha
    exact ⟨ht.1.trans hinit, ht.2.1, Or.inl ⟨ha, ht.2.2.1.trans hnext, ht.2.2.2 c hids⟩⟩
  cases op with
  | Initialize alloc_ok now =>
    simp only [step, Option.some.injEq] at hstep
    subst hstep
    rw [initialize_of_initialized alloc_ok now s hinit]
    exact of_frame s (frame_refl s) rfl
  | DeInitialize => exact absurd rfl hop
  | Get_SessionID =>
    simp only [step, Option.some.injEq] at hstep
    subst hstep
    rcases get_sessionid_alloc s c hinit hnext h1 h2 hids with hfull | ⟨hr, hi, hm, hn, hb⟩
    · rw [hfull]
      refine of_frame s (frame_refl s) ?_
      simp only [allocation, hfull]
      rfl
    · refine ⟨hi, hm, Or.inr ⟨?_, hn, hb⟩⟩
      simp only [allocation, hr]
      rw [if_pos (by omega)]
  | Set_Max_Session_Number n =>
    simp only [step, Option.some.injEq] at hstep
    subst hstep
    rw [set_max_of_initialized n s hinit]
    exact of_frame s (frame_refl s) rfl
  | Connect_ByUID uid sock now =>
    simp only [step] at hstep
    rw [(connect_returns uid sock now s r hstep).1]
    exact of_frame s (frame_refl s) rfl
  | Session_Close sid =>
    simp only [step, Option.some.injEq] at hstep
    subst hstep
    exact of_frame _ (frame_close sid s) rfl
  | Session_Channel_ON sid ch =>
    simp only [step, Option.some.injEq] at hstep
    subst hstep
    exact of_frame _ (frame_channel_on sid ch s) rfl
  | Session_Channel_OFF sid ch =>
    simp only [step, Option.some.injEq] at hstep
    subst hstep
    exact of_frame _ (frame_channel_off sid ch s) rfl
  | Session_Channel_Check_ON_OFF sid ch =>
    simp only [step, Option.some.injEq] at hstep
    subst hstep
    rw [channel_check_state]
    exact of_frame s (frame_refl s) rfl
  | Session_Get_Free_Channel sid =>
    simp only [step, Option.some.injEq] at hstep
    subst hstep
    rw [free_channel_state]
    exact of_frame s (frame_refl s) rfl
  | Session_Write sid data size ch now =>
    simp only [step, Option.some.injEq] at hstep
    subst hstep
    exact of_frame _ (frame_write sid data size ch now s) rfl
  | Session_Read_Check_Lost_Data_And_Datatype sid buf size timeout lost datatype flags unused now =>
    simp only [step, Option.some.injEq] at hstep
    subst hstep
    exact of_frame _ (frame_read_check sid buf size timeout lost datatype flags unused now s) rfl
  | Session_Read sid buf size timeout flags g0 g1 now =>
    simp only [step, IOTC_Session_Read] at hstep
    split at hstep
    · simp only [Option.some.injEq] at hstep
      subst hstep
      exact of_frame _ (frame_read_check sid buf size timeout (some 0) (some 0) flags 0 now s) rfl
    · cases hstep
  | Get_Session_Status sid =>
    simp only [step, Option.some.injEq] at hstep
    subst hstep
    rw [status_state]
    exact of_frame s (frame_refl s) rfl
  | Session_Check sid =>
    simp only [step, Option.some.injEq] at hstep
    subst hstep
    rw [session_check_state]
    exact of_frame s (frame_refl s) rfl
  | Session_Get_Channel_ON_Count sid =>
    simp only [step, Option.some.injEq] at hstep
    subst hstep
    rw [on_count_state]
    exact of_frame s (frame_refl s) rfl
  | Session_Get_Channel_ON_Bitmap sid =>
    simp only [step, Option.some.injEq] at hstep
    subst hstep
    rw [on_bitmap_state]
    exact of_frame s (frame_refl s) rfl

/-- The allocator along a sequence of calls without `IOTC_DeInitialize`: the
handles handed out are `c`, `c + 1`, ... as long as they fit an `int`, and the
final state keeps the invariant. -/
theorem handles_run (ops : List Op) :
    ∀ (s : iotc_state) (c : Int), s.initialized = true → s.next_session_id = c → 1 ≤ c →
      c ≤ 2147483647 → ids_below s c → Op.DeInitialize ∉ ops →
      c + (handles s ops).length ≤ 2147483648 →
      (∀ (k : Nat) (h : Int), (handles s ops)[k]? = some h → h = c + k) ∧
      (c + (handles s ops).length ≤ 2147483647 → ∀ s', run s ops = some s' →
        s'.initialized = true ∧ s'.max_sessions = s.max_sessions ∧
        s'.next_session_id = c + (handles s ops).length ∧
        ids_below s' (c + (handles s ops).length)) := by
  induction ops with
  | nil =>
    intro s c hinit hnext _ _ hids _ _
    refine ⟨by simp [handles], ?_⟩
    intro _ s' hs'
    simp only [run, Option.some.injEq] at hs'
    subst hs'
    simpa [handles] using ⟨hinit, hnext, hids⟩
  | cons op ops ih =>
    intro s c hinit hnext h1 h2 hids hno hlen
    have hop : op ≠ .DeInitialize := fun h => hno (by simp [h])
    have hno2 : Op.DeInitialize ∉ ops := fun h => hno (List.mem_cons_of_mem _ h)
    cases hstep : step op s with
    | none =>
      have ha := step_none_allocation op s hstep
      have hh : handles s (op :: ops) = [] := by simp [handles, ha, hstep]
      rw [hh]
      refine ⟨by simp, ?_⟩
      intro _ s' hs'
      simp [run, hstep] at hs'
    | some r =>
      obtain ⟨hi, hm, hcase⟩ := step_alloc op s c hinit hnext h1 h2 hids hop r hstep
      rcases hcase with ⟨ha, hn, hb⟩ | ⟨ha, hn, hb⟩
      · have hh : handles s (op :: ops) = handles r.2 ops := by simp [handles, ha, hstep]
        have hrun : ∀ s', run s (op :: ops) = some s' → run r.2 ops = some s' := by
          intro s' hs'
          simpa [run, hstep] using hs'
        rw [hh] at hlen ⊢
        obtain ⟨ih1, ih2⟩ := ih r.2 c hi hn h1 h2 hb hno2 hlen
        refine ⟨ih1, ?_⟩
        intro hlen2 s' hs'
        obtain ⟨a, b, c', d⟩ := ih2 hlen2 s' (hrun s' hs')
        exact ⟨a, b.trans hm, c', d⟩
      · have hh : handles s (op :: ops) = c :: handles r.2 ops := by simp [handles, ha, hstep]
        have hrun : ∀ s', run s (op :: ops) = some s' → run r.2 ops = some s' := by
          intro s' hs'
          simpa [run, hstep] using hs'
        rw [hh] at hlen ⊢
        simp only [List.length_cons, Nat.cast_add, Nat.cast_one] at hlen ⊢
        by_cases hc : c + 1 ≤ 2147483647
        · have hn2 : r.2.next_session_id = c + 1 := by
            rw [hn]
            exact toInt32_of_range (c + 1) (by omega) hc
          obtain ⟨ih1, ih2⟩ := ih r.2 (c + 1) hi hn2 (by omega) hc hb hno2 (by omega)
          refine ⟨?_, ?_⟩
          · intro k h hk
            cases k with
            | zero =>
              simp only [List.getElem?_cons_zero, Option.some.injEq] at hk
              simp [← hk]
            | succ k =>
              simp only [List.getElem?_cons_succ] at hk
              have := ih1 k h hk
              push_cast
              omega
          · intro hlen2 s' hs'
            obtain ⟨a, b, c', d⟩ := ih2 (by omega) s' (hrun s' hs')
            refine ⟨a, b.trans hm, ?_, ?_⟩
            · rw [c']
              omega
            · have he : c + ((handles r.2 ops).length + 1) = c + 1 + (handles r.2 ops).length := by
                omega
              rw [he]
              exact d
        · have hz : (handles r.2 ops).length = 0 := by omega
          have hnil : handles r.2 ops = [] := List.length_eq_zero.1 hz
          rw [hnil]
          refine ⟨?_, ?_⟩
          · intro k h hk
            cases k with
            | zero =>
              simp only [List.getElem?_cons_zero, Option.some.injEq] at hk
              simp [← hk]
            | succ k => simp at hk
          · intro hlen2
            simp only [List.length_nil] at hlen2
            omega

/-! ## The state left by a successful initialisation -/

theorem initialize_success (now : Int) (s : iotc_state) (hs : s.initialized = false) :
    IOTC_Initialize true now s =
      (0, { initialized := true,
            sessions := some (List.replicate 16 (init_session now calloc_session)),
            max_sessions := 16, next_session_id := 1 }) := by
  simp [IOTC_Initialize, hs]
  rfl

theorem init_session_calloc (now : Int) :
    init_session now calloc_session =
      { state := .FREE, uid := List.replicate 21 0, socket_fd := -1, session_id := 0,
        channels := List.replicate 32 { state := .OFF, next_seq_id := 1, msg_queue := [] },
        last_activity := now } := by
  simp [init_session, calloc_session, init_channel]
  rfl

theorem initialize_ids_below (now : Int) (s : iotc_state) (hs : s.initialized = false) :
    ids_below (IOTC_Initialize true now s).2 1 := by
  rw [initialize_success now s hs]
  intro x hx hfree
  simp only [slots, Option.getD_some] at hx
  rw [List.eq_of_mem_replicate hx, init_session_calloc] at hfree
  exact absurd rfl hfree

/-- The handles allocated after a successful initialisation are `1, 2, 3, ...`. -/
theorem handles_after_init (now : Int) (s : iotc_state) (hs : s.initialized = false)
    (ops : List Op) (hno : Op.DeInitialize ∉ ops)
    (hlen : (handles (IOTC_Initialize true now s).2 ops).length < 2147483648) :
    ∀ (k : Nat) (h : Int), (handles (IOTC_Initialize true now s).2 ops)[k]? = some h →
      h = (k : Int) + 1 := by
  have hinit : (IOTC_Initialize true now s).2.initialized = true := by
    rw [initialize_success now s hs]
  have hnext : (IOTC_Initialize true now s).2.next_session_id = 1 := by
    rw [initialize_success now s hs]
  have h := (handles_run ops (IOTC_Initialize true now s).2 1 hinit hnext (by omega) (by omega)
    (initialize_ids_below now s hs) hno (by omega)).1
  intro k x hk
  rw [h k x hk]
  omega

/-! ## Capacity -/

theorem get_sessionid_full (s : iotc_state) (hinit : s.initialized = true)
    (hfull : free_slots s = 0) :
    IOTC_Get_SessionID s = (IOTC_ER_EXCEED_MAX_SESSION, s) := by
  rcases get_sessionid_cases s hinit with ⟨_, h⟩ | ⟨i, x, hf, _, _, _⟩
  · exact h
  · exfalso
    unfold find_free_session at hf
    obtain ⟨⟨y, hy, hys⟩, _⟩ := (find_free_session_loop_some _ i).1 hf
    unfold free_slots at hfull
    rw [List.countP_eq_zero] at hfull
    exact hfull y (List.getElem?_mem hy) (by simpa using hys)

theorem get_sessionid_free (s : iotc_state) (c : Int) (hinit : s.initialized = true)
    (hnext : s.next_session_id = c) (h1 : 1 ≤ c) (h2 : c ≤ 2147483647)
    (hfree : 0 < free_slots s) :
    (IOTC_Get_SessionID s).1 = c ∧ (IOTC_Get_SessionID s).2.initialized = true ∧
    (IOTC_Get_SessionID s).2.next_session_id = toInt32 (c + 1) ∧
    free_slots (IOTC_Get_SessionID s).2 + 1 = free_slots s := by
  rcases get_sessionid_cases s hinit with ⟨hnone, _⟩ | ⟨i, x, hf, hx, hxs, h⟩
  · exfalso
    unfold find_free_session at hnone
    rw [find_free_session_loop_none] at hnone
    unfold free_slots at hfree
    rw [List.countP_pos_iff] at hfree
    obtain ⟨y, hy, hys⟩ := hfree
    exact hnone y hy (by simpa using hys)
  · rw [h, hnext]
    refine ⟨toInt32_toUInt32_of_range c (by omega) h2, hinit, rfl, ?_⟩
    unfold find_free_session at hf
    obtain ⟨⟨y, hy, _⟩, _⟩ := (find_free_session_loop_some _ i).1 hf
    have hi : i < ((slots s).take s.max_sessions.toNat).length := (List.getElem?_eq_some.1 hy).1
    have hyx : ((slots s).take s.max_sessions.toNat)[i] = x := by
      have e1 := (List.getElem?_eq_some.1 hy).2
      have e2 := (getElem?_take_some _ _ _ _ hy).2
      rw [hx] at e2
      cases e2
      exact e1
    have hslots : slots ({ modify_slot s i
        (fun x => { x with state := .USED, session_id := toUInt32 c }) with
          next_session_id := toInt32 (c + 1) } : iotc_state) =
        (slots s).set i { x with state := .USED, session_id := toUInt32 c } :=
      slots_modify_slot_of_some s i _ x hx
    unfold free_slots
    rw [hslots]
    show List.countP _ (List.take s.max_sessions.toNat _) + 1 = _
    rw [List.set_take, List.countP_set _ _ _ _ hi, hyx]
    simp only [hxs, decide_True, if_true, reduceCtorEq, decide_False]
    have hp : 0 < List.countP (fun x => decide (x.state = session_state_t.FREE))
        (List.take s.max_sessions.toNat (slots s)) := hfree
    simp only [Bool.false_eq_true, if_false]
    omega

/-- Repeated allocation on a table with `n` free slots and counter `c`: the
first `n` calls return `c, c + 1, ...`, every later one `-16`. -/
theorem results_replicate_get (k : Nat) :
    ∀ (s : iotc_state) (c : Int) (n : Nat), s.initialized = true → s.next_session_id = c →
      1 ≤ c → c + k ≤ 2147483647 → free_slots s = n →
      results s (List.replicate k .Get_SessionID) =
        (List.range k).map (fun j => if j < n then c + (j : Int) else IOTC_ER_EXCEED_MAX_SESSION) ∧
      ∃ s', run s (List.replicate k .Get_SessionID) = some s' ∧ s'.initialized = true ∧
        free_slots s' = n - k := by
  induction k with
  | zero =>
    intro s c n hinit _ _ _ hn
    exact ⟨rfl, s, rfl, hinit, by simpa using hn⟩
  | succ k ih =>
    intro s c n hinit hnext h1 h2 hn
    rw [List.replicate_succ, List.range_succ_eq_map, List.map_cons, List.map_map]
    simp only [results, run, step]
    rcases Nat.eq_zero_or_pos n with hz | hpos
    · subst hz
      rw [get_sessionid_full s hinit hn]
      obtain ⟨ih1, s', hs', hi', hf'⟩ := ih s c 0 hinit hnext h1 (by push_cast at h2; omega) hn
      refine ⟨?_, s', hs', hi', by simpa using hf'⟩
      rw [ih1]
      simp [Function.comp_def]
    · obtain ⟨hr, hi, hnx, hfr⟩ := get_sessionid_free s c hinit hnext h1
        (by push_cast at h2; omega) (by omega)
      have hnx2 : (IOTC_Get_SessionID s).2.next_session_id = c + 1 := by
        rw [hnx]
        exact toInt32_of_range (c + 1) (by omega) (by push_cast at h2; omega)
      obtain ⟨ih1, s', hs', hi', hf'⟩ := ih (IOTC_Get_SessionID s).2 (c + 1) (n - 1) hi hnx2
        (by omega) (by push_cast at h2; omega) (by omega)
      refine ⟨?_, s', hs', hi', by omega⟩
      rw [ih1, hr]
      simp only [Nat.cast_zero, add_zero, hpos, if_true, List.cons.injEq, true_and]
      apply List.map_congr_left
      intro j _
      simp only [Function.comp, Nat.succ_eq_add_one, Nat.cast_add, Nat.cast_one]
      by_cases hj : j < n - 1
      · rw [if_pos hj, if_pos (by omega)]
        omega
      · rw [if_neg hj, if_neg (by omega)]

theorem free_slots_after_init (now : Int) (s : iotc_state) (hs : s.initialized = false) :
    free_slots (IOTC_Initialize true now s).2 = 16 := by
  rw [initialize_success now s hs]
  simp [free_slots, slots, init_session_calloc, List.countP_replicate]

/-! ## Slot choice -/

theorem find_free_session_lowest (s : iotc_state) (i : Nat) (x : session_info_t)
    (hi : i < s.max_sessions.toNat) (hx : (slots s)[i]? = some x) (hxs : x.state = .FREE)
    (hlow : ∀ j, j < i → ∀ y, (slots s)[j]? = some y → y.state ≠ .FREE) :
    find_free_session s = some i := by
  unfold find_free_session
  rw [find_free_session_loop_some]
  refine ⟨⟨x, ?_, hxs⟩, ?_⟩
  · rw [List.getElem?_take, if_pos hi]
    exact hx
  · intro j hj y hy
    exact hlow j hj y (getElem?_take_some _ _ _ _ hy).2

theorem get_sessionid_lowest (s : iotc_state) (i : Nat) (x : session_info_t)
    (hinit : s.initialized = true)
    (hi : i < s.max_sessions.toNat) (hx : (slots s)[i]? = some x) (hxs : x.state = .FREE)
    (hlow : ∀ j, j < i → ∀ y, (slots s)[j]? = some y → y.state ≠ .FREE) :
    (IOTC_Get_SessionID s).1 = toInt32 (toUInt32 s.next_session_id) ∧
    slots (IOTC_Get_SessionID s).2 =
      (slots s).set i { x with state := .USED, session_id := toUInt32 s.next_session_id } ∧
    (IOTC_Get_SessionID s).2.next_session_id = toInt32 (s.next_session_id + 1) := by
  have hf := find_free_session_lowest s i x hi hx hxs hlow
  rcases get_sessionid_cases s hinit with ⟨hnone, _⟩ | ⟨k, z, hk, _, _, h⟩
  · rw [hf] at hnone
    cases hnone
  · rw [hf] at hk
    cases hk
    rw [h]
    exact ⟨rfl, slots_modify_slot_of_some s i _ x hx, rfl⟩

theorem close_cases (h : Int) (s : iotc_state) (hinit : s.initialized = true) :
    (find_session_by_id s h = none ∧ IOTC_Session_Close h s = (IOTC_ER_INVALID_SID, s)) ∨
    (∃ i, find_session_by_id s h = some i ∧
      IOTC_Session_Close h s = (IOTC_ER_NoERROR, modify_slot s i cleanup_session)) := by
  unfold IOTC_Session_Close
  cases hf : find_session_by_id s h with
  | none => simp [hinit]
  | some i => simp [hinit]

/-! ## Capacity setter, initialisation and teardown -/

/-- C5: `IOTC_Set_Max_Session_Number n` returns `n` exactly when the table is
not initialized; on an initialized table it returns `-2`
(`IOTC_ER_ALREADY_INITIALIZED`) and leaves the whole state, capacity and
slots included, as it was. -/
theorem set_max_session_number_spec (n : Nat) (s : iotc_state) :
    ((IOTC_Set_Max_Session_Number n s).1 = (n : Int) ↔ s.initialized = false) ∧
    (s.initialized = true → IOTC_Set_Max_Session_Number n s = (-2, s)) := by
  unfold IOTC_Set_Max_Session_Number
  cases h : s.initialized
  · simp
  · simp
    intro h2
    have h3 : (0 : Int) ≤ (n : Int) := Int.ofNat_nonneg n
    rw [← h2] at h3
    exact absurd h3 (by decide)

/-- Witness for C5: the setter on the all-zero state and on an initialized state. -/
theorem set_max_session_number_spec_witness :
    ((IOTC_Set_Max_Session_Number 5 g_iotc_state_zero).1 = (5 : Int) ↔
        g_iotc_state_zero.initialized = false) ∧
    IOTC_Set_Max_Session_Number 5 (IOTC_Initialize true 0 g_iotc_state_zero).2 =
      (-2, (IOTC_Initialize true 0 g_iotc_state_zero).2) :=
  ⟨(set_max_session_number_spec 5 g_iotc_state_zero).1,
   (set_max_session_number_spec 5 (IOTC_Initialize true 0 g_iotc_state_zero).2).2 (by decide)⟩

/-- C6: `IOTC_Initialize` on an initialized table returns `-2`
(`IOTC_ER_ALREADY_INITIALIZED`) and leaves the state exactly as it was:
slots, capacity and the allocator's next value. -/
theorem init_when_initialized (alloc_ok : Bool) (now : Int) (s : iotc_state)
    (h : s.initialized = true) :
    IOTC_Initialize alloc_ok now s = (IOTC_ER_ALREADY_INITIALIZED, s) := by
  simp [IOTC_Initialize, h]

/-- Witness for C6: a second initialisation after one allocation. -/
theorem init_when_initialized_witness :
    (IOTC_Get_SessionID (IOTC_Initialize true 0 g_iotc_state_zero).2).2.initialized = true ∧
    IOTC_Initialize true 9 (IOTC_Get_SessionID (IOTC_Initialize true 0 g_iotc_state_zero).2).2 =
      (-2, (IOTC_Get_SessionID (IOTC_Initialize true 0 g_iotc_state_zero).2).2) :=
  ⟨by decide, init_when_initialized true 9 _ (by decide)⟩

/-- C7 (as stated, refuted): two calls of `IOTC_Initialize` in a row from the
all-zero state do not both return `0`; the second one returns `-2`. -/
theorem repeated_init_not_both_zero :
    ¬ ((IOTC_Initialize true 0 g_iotc_state_zero).1 = 0 ∧
       (IOTC_Initialize true 0 (IOTC_Initialize true 0 g_iotc_state_zero).2).1 = 0) := by
  decide

/-- C7 (amended): when `IOTC_Initialize` is called twice in a row on a table
that was not initialized (and the table allocation succeeds), the first call
returns `0` and the second returns `-2` (`IOTC_ER_ALREADY_INITIALIZED`)
without changing the state. -/
theorem second_init_rejected (now now2 : Int) (alloc_ok2 : Bool) (s : iotc_state)
    (h : s.initialized = false) :
    (IOTC_Initialize true now s).1 = 0 ∧
    IOTC_Initialize alloc_ok2 now2 (IOTC_Initialize true now s).2 =
      (-2, (IOTC_Initialize true now s).2) := by
  simp [IOTC_Initialize, h]

/-- Witness for C7 (amended), from the all-zero state. -/
theorem second_init_rejected_witness :
    g_iotc_state_zero.initialized = false ∧
    (IOTC_Initialize true 3 g_iotc_state_zero).1 = 0 ∧
    IOTC_Initialize true 4 (IOTC_Initialize true 3 g_iotc_state_zero).2 =
      (-2, (IOTC_Initialize true 3 g_iotc_state_zero).2) :=
  ⟨rfl, second_init_rejected 3 4 true g_iotc_state_zero rfl⟩

/-- C1: within one initialized lifetime (a successful `IOTC_Initialize`
followed by any calls other than `IOTC_DeInitialize`, closes included) and
with fewer than `2^31` allocations, every handle obtained from
`IOTC_Get_SessionID` is positive and strictly greater than every handle
obtained earlier; in particular the handles are pairwise distinct. -/
theorem handles_positive_increasing (now : Int) (s : iotc_state) (hs : s.initialized = false)
    (ops : List Op) (hno : Op.DeInitialize ∉ ops)
    (hlen : (handles (IOTC_Initialize true now s).2 ops).length < 2147483648) :
    (∀ h ∈ handles (IOTC_Initialize true now s).2 ops, 0 < h) ∧
    (handles (IOTC_Initialize true now s).2 ops).Pairwise (· < ·) ∧
    (handles (IOTC_Initialize true now s).2 ops).Nodup := by
  have key := handles_after_init now s hs ops hno hlen
  have hpair : (handles (IOTC_Initialize true now s).2 ops).Pairwise (· < ·) := by
    rw [List.pairwise_iff_getElem]
    intro i j hi hj hij
    have e1 := key i _ (List.getElem?_eq_getElem hi)
    have e2 := key j _ (List.getElem?_eq_getElem hj)
    rw [e1, e2]
    omega
  refine ⟨?_, hpair, ?_⟩
  · intro h hh
    obtain ⟨k, hk⟩ := List.mem_iff_getElem?.1 hh
    rw [key k h hk]
    omega
  · exact hpair.imp (fun hab => ne_of_lt hab)

/-- Witness for C1: two allocations, a close, a status query and three more
allocations after initialising the all-zero state. -/
theorem handles_positive_increasing_witness :
    handles (IOTC_Initialize true 0 g_iotc_state_zero).2
      [.Get_SessionID, .Get_SessionID, .Session_Close 1,
       .Get_Session_Status 2, .Get_SessionID, .Get_SessionID, .Get_SessionID]
      = [1, 2, 3, 4, 5] ∧
    (handles (IOTC_Initialize true 0 g_iotc_state_zero).2
      [.Get_SessionID, .Get_SessionID, .Session_Close 1,
       .Get_Session_Status 2, .Get_SessionID, .Get_SessionID,
       .Get_SessionID]).Pairwise (· < ·) :=
  ⟨by decide,
   (handles_positive_increasing 0 g_iotc_state_zero rfl _ (by decide) (by decide)).2.1⟩

/-- C8: `IOTC_Initialize` on a table that is not initialized (whatever was
done to it before, an earlier `IOTC_DeInitialize` included) returns `0` when
the table can be allocated, leaves 16 slots that are all `FREE` with 32
channels that are all `OFF`, and resets the allocator to 1; from then on
(until `IOTC_DeInitialize`, fewer than `2^31` allocations) the `k`-th handle
allocated is exactly `k`. -/
theorem initialize_resets (now : Int) (s : iotc_state) (hs : s.initialized = false) :
    (IOTC_Initialize true now s).1 = 0 ∧
    (IOTC_Initialize true now s).2.initialized = true ∧
    (slots (IOTC_Initialize true now s).2).length = 16 ∧
    (∀ x ∈ slots (IOTC_Initialize true now s).2,
      x.state = .FREE ∧ x.channels.length = 32 ∧ ∀ c ∈ x.channels, c.state = .OFF) ∧
    (IOTC_Initialize true now s).2.next_session_id = 1 ∧
    ∀ ops : List Op, Op.DeInitialize ∉ ops →
      (handles (IOTC_Initialize true now s).2 ops).length < 2147483648 →
      ∀ (k : Nat) (h : Int), (handles (IOTC_Initialize true now s).2 ops)[k]? = some h →
        h = (k : Int) + 1 := by
  refine ⟨?_, ?_, ?_, ?_, ?_, fun ops hno hlen => handles_after_init now s hs ops hno hlen⟩
  · rw [initialize_success now s hs]
  · rw [initialize_success now s hs]
  · rw [initialize_success now s hs]
    simp [slots]
  · rw [initialize_success now s hs]
    intro x hx
    simp only [slots, Option.getD_some] at hx
    rw [List.eq_of_mem_replicate hx, init_session_calloc]
    refine ⟨rfl, by simp, ?_⟩
    intro c hc
    rw [List.eq_of_mem_replicate hc]
  · rw [initialize_success now s hs]

/-- Witness for C8: a table that was used, torn down and initialised again
hands out `1, 2, 3` once more. -/
theorem initialize_resets_witness :
    (IOTC_DeInitialize (IOTC_Get_SessionID (IOTC_Initialize true 0 g_iotc_state_zero).2).2).2.initialized
      = false ∧
    ∀ (k : Nat) (h : Int),
      (handles (IOTC_Initialize true 5
        (IOTC_DeInitialize (IOTC_Get_SessionID (IOTC_Initialize true 0 g_iotc_state_zero).2).2).2).2
        [.Get_SessionID, .Connect_ByUID (some (List.replicate 20 65)) 3 0, .Get_SessionID])[k]?
        = some h → h = (k : Int) + 1 :=
  ⟨by decide,
   (initialize_resets 5
      (IOTC_DeInitialize (IOTC_Get_SessionID (IOTC_Initialize true 0 g_iotc_state_zero).2).2).2
      (by decide)).2.2.2.2.2 _ (by decide) (by decide)⟩

/-- C2: after a successful `IOTC_Initialize` (default capacity 16), sixteen
consecutive calls of `IOTC_Get_SessionID` succeed (they return 1 to 16) and
the seventeenth returns `-16` (`IOTC_ER_EXCEED_MAX_SESSION`); that failed call
leaves the whole state, every slot and the allocator included, unchanged. -/
theorem default_capacity (now : Int) (s : iotc_state) (hs : s.initialized = false) :
    results (IOTC_Initialize true now s).2 (List.replicate 17 .Get_SessionID) =
      [1, 2, 3, 4, 5, 6, 7, 8, 9, 10, 11, 12, 13, 14, 15, 16, -16] ∧
    ∃ s16, run (IOTC_Initialize true now s).2 (List.replicate 16 .Get_SessionID) = some s16 ∧
      IOTC_Get_SessionID s16 = (IOTC_ER_EXCEED_MAX_SESSION, s16) := by
  have hinit : (IOTC_Initialize true now s).2.initialized = true := by
    rw [initialize_success now s hs]
  have hnext : (IOTC_Initialize true now s).2.next_session_id = 1 := by
    rw [initialize_success now s hs]
  have hfree := free_slots_after_init now s hs
  refine ⟨?_, ?_⟩
  · rw [(results_replicate_get 17 _ 1 16 hinit hnext (by omega) (by norm_num) hfree).1]
    decide
  · obtain ⟨_, s16, hrun, hi, hf⟩ :=
      results_replicate_get 16 _ 1 16 hinit hnext (by omega) (by norm_num) hfree
    exact ⟨s16, hrun, get_sessionid_full s16 hi (by omega)⟩

/-- Witness for C2, from the all-zero state. -/
theorem default_capacity_witness :
    g_iotc_state_zero.initialized = false ∧
    results (IOTC_Initialize true 0 g_iotc_state_zero).2 (List.replicate 17 .Get_SessionID) =
      [1, 2, 3, 4, 5, 6, 7, 8, 9, 10, 11, 12, 13, 14, 15, 16, -16] :=
  ⟨rfl, (default_capacity 0 g_iotc_state_zero rfl).1⟩

/-- C3: `IOTC_Get_SessionID` occupies the lowest-indexed `FREE` slot and no
other.  In particular, in a state reached from a successful initialisation
(no `IOTC_DeInitialize`, fewer than `2^31` allocations counting the next one)
whose table is full, after `IOTC_Session_Close h` has returned `0` the next
allocation succeeds, occupies exactly the slot that held `h`, leaves every
other slot as it was, and returns a handle different from `h` and from the
handle of every live session. -/
theorem allocation_takes_lowest_free_slot :
    (∀ (s : iotc_state) (i : Nat) (x : session_info_t),
      s.initialized = true → i < s.max_sessions.toNat → (slots s)[i]? = some x →
      x.state = .FREE → (∀ j, j < i → ∀ y, (slots s)[j]? = some y → y.state ≠ .FREE) →
      slots (IOTC_Get_SessionID s).2 =
        (slots s).set i { x with state := .USED, session_id := toUInt32 s.next_session_id }) ∧
    (∀ (now : Int) (s0 : iotc_state) (ops : List Op) (s : iotc_state) (h : Int),
      s0.initialized = false → Op.DeInitialize ∉ ops →
      (handles (IOTC_Initialize true now s0).2 ops).length + 1 < 2147483648 →
      run (IOTC_Initialize true now s0).2 ops = some s →
      (∀ y ∈ (slots s).take s.max_sessions.toNat, y.state ≠ .FREE) →
      (IOTC_Session_Close h s).1 = 0 →
      ∃ (i : Nat) (x : session_info_t),
        (slots s)[i]? = some x ∧ x.state ≠ .FREE ∧ x.session_id = toUInt32 h ∧
        0 < (IOTC_Get_SessionID (IOTC_Session_Close h s).2).1 ∧
        (∃ y, (slots (IOTC_Get_SessionID (IOTC_Session_Close h s).2).2)[i]? = some y ∧
          y.state = .USED ∧
          (y.session_id : Int) = (IOTC_Get_SessionID (IOTC_Session_Close h s).2).1) ∧
        (∀ j, j ≠ i →
          (slots (IOTC_Get_SessionID (IOTC_Session_Close h s).2).2)[j]? = (slots s)[j]?) ∧
        (IOTC_Get_SessionID (IOTC_Session_Close h s).2).1 ≠ h ∧
        (∀ j y, j ≠ i → (slots s)[j]? = some y → y.state ≠ .FREE →
          (y.session_id : Int) ≠ (IOTC_Get_SessionID (IOTC_Session_Close h s).2).1)) := by
  refine ⟨fun s i x hinit hi hx hxs hlow =>
    (get_sessionid_lowest s i x hinit hi hx hxs hlow).2.1, ?_⟩
  intro now s0 ops s h hs0 hno hlen hrun hfull hclose
  have hinit0 : (IOTC_Initialize true now s0).2.initialized = true := by
    rw [initialize_success now s0 hs0]
  have hnext0 : (IOTC_Initialize true now s0).2.next_session_id = 1 := by
    rw [initialize_success now s0 hs0]
  obtain ⟨hinit, -, hnext, hids⟩ :=
    (handles_run ops _ 1 hinit0 hnext0 (by omega) (by omega)
      (initialize_ids_below now s0 hs0) hno (by omega)).2 (by omega) s hrun
  generalize hc : (1 : Int) + ((handles (IOTC_Initialize true now s0).2 ops).length : Int) = c
    at hnext hids
  have hc1 : 1 ≤ c := by omega
  have hc2 : c ≤ 2147483647 := by omega
  rcases close_cases h s hinit with ⟨_, hcl⟩ | ⟨i, hfind, hcl⟩
  · rw [hcl] at hclose
    have hne : ¬ (IOTC_ER_INVALID_SID = (0 : Int)) := by decide
    exact absurd hclose hne
  · unfold find_session_by_id at hfind
    obtain ⟨⟨x, hxt, hxs, hxid⟩, _⟩ := (find_session_by_id_loop_some h _ i).1 hfind
    obtain ⟨hi, hx⟩ := getElem?_take_some _ _ _ _ hxt
    have hilen : i < (slots s).length := (List.getElem?_eq_some.1 hx).1
    rw [hcl]
    have hslots1 : slots (modify_slot s i cleanup_session) = (slots s).set i (cleanup_session x) :=
      slots_modify_slot_of_some s i _ x hx
    have hx1 : (slots (modify_slot s i cleanup_session))[i]? = some (cleanup_session x) := by
      rw [hslots1]
      exact List.getElem?_set_self hilen
    have hlow : ∀ j, j < i → ∀ y, (slots (modify_slot s i cleanup_session))[j]? = some y →
        y.state ≠ .FREE := by
      intro j hj y hy
      rw [hslots1, List.getElem?_set_ne (by omega)] at hy
      apply hfull y
      apply List.getElem?_mem (n := j)
      rw [List.getElem?_take, if_pos (by omega)]
      exact hy
    obtain ⟨hr, hsl, -⟩ := get_sessionid_lowest (modify_slot s i cleanup_session) i
      (cleanup_session x) hinit hi hx1 rfl hlow
    have hnext1 : (modify_slot s i cleanup_session).next_session_id = c := hnext
    rw [hnext1] at hr hsl
    rw [toInt32_toUInt32_of_range c (by omega) hc2] at hr
    have hxlt : (x.session_id : Int) < c := hids x (List.getElem?_mem hx) hxs
    refine ⟨i, x, hx, hxs, hxid, ?_, ?_, ?_, ?_, ?_⟩
    · rw [hr]
      omega
    · refine ⟨{ cleanup_session x with state := .USED, session_id := toUInt32 c }, ?_, rfl, ?_⟩
      · rw [hsl, hslots1]
        exact List.getElem?_set_self (by simpa using hilen)
      · rw [hr]
        exact toUInt32_of_range c (by omega) hc2
    · intro j hj
      rw [hsl, hslots1, List.getElem?_set_ne (Ne.symm hj), List.getElem?_set_ne (Ne.symm hj)]
    · rw [hr]
      intro hch
      rw [hxid, ← hch, toUInt32_of_range c (by omega) hc2] at hxlt
      omega
    · intro j y _ hy hys
      rw [hr]
      have := hids y (List.getElem?_mem hy) hys
      omega

/-- Witness for C3: the first allocation on a fresh table takes slot 0, and on
the full table closing handle 3 makes the next allocation reuse its slot. -/
theorem allocation_takes_lowest_free_slot_witness :
    slots (IOTC_Get_SessionID (IOTC_Initialize true 0 g_iotc_state_zero).2).2 =
      (slots (IOTC_Initialize true 0 g_iotc_state_zero).2).set 0
        { init_session 0 calloc_session with
          state := .USED,
          session_id := toUInt32 (IOTC_Initialize true 0 g_iotc_state_zero).2.next_session_id } ∧
    ∃ (i : Nat) (x : session_info_t),
      (slots full_table)[i]? = some x ∧ x.state ≠ .FREE ∧ x.session_id = toUInt32 3 ∧
      0 < (IOTC_Get_SessionID (IOTC_Session_Close 3 full_table).2).1 ∧
      (∃ y, (slots (IOTC_Get_SessionID (IOTC_Session_Close 3 full_table).2).2)[i]? = some y ∧
        y.state = .USED ∧
        (y.session_id : Int) = (IOTC_Get_SessionID (IOTC_Session_Close 3 full_table).2).1) ∧
      (∀ j, j ≠ i →
        (slots (IOTC_Get_SessionID (IOTC_Session_Close 3 full_table).2).2)[j]? =
          (slots full_table)[j]?) ∧
      (IOTC_Get_SessionID (IOTC_Session_Close 3 full_table).2).1 ≠ 3 ∧
      (∀ j y, j ≠ i → (slots full_table)[j]? = some y → y.state ≠ .FREE →
        (y.session_id : Int) ≠ (IOTC_Get_SessionID (IOTC_Session_Close 3 full_table).2).1) :=
  ⟨allocation_takes_lowest_free_slot.1 (IOTC_Initialize true 0 g_iotc_state_zero).2 0
      (init_session 0 calloc_session) (by decide) (by decide) (by decide) (by decide)
      (fun j hj => absurd hj (Nat.not_lt_zero j)),
   allocation_takes_lowest_free_slot.2 0 g_iotc_state_zero (List.replicate 16 .Get_SessionID)
      full_table 3 rfl (by decide) (by decide) (by decide) (by decide) (by decide)⟩

/-- C4 (the code at the failing input): after `IOTC_Set_Max_Session_Number 5`
on the all-zero state and `IOTC_Initialize`, the capacity is 16 again and the
sixth `IOTC_Get_SessionID` returns the handle 6, not `-16`. -/
theorem set_capacity_overwritten :
    results g_iotc_state_zero
      ([.Set_Max_Session_Number 5, .Initialize true 0] ++ List.replicate 6 .Get_SessionID) =
      [5, 0, 1, 2, 3, 4, 5, 6] ∧
    (IOTC_Set_Max_Session_Number 5 g_iotc_state_zero).2.max_sessions = 5 ∧
    (IOTC_Initialize true 0 (IOTC_Set_Max_Session_Number 5 g_iotc_state_zero).2).2.max_sessions
      = 16 := by
  decide

/-! ## Calls on a table that is not initialized -/

/-- C10: in the state left by `IOTC_DeInitialize`, every code-returning call
with otherwise valid arguments returns `-1` (`IOTC_ER_NOT_INITIALIZED`),
whatever the handle: allocation, connect with a 20-byte id, close, status,
channel on / off / check with a channel below 32, free channel, channel-on
count, and write of 1 to 1400 bytes from a non-null buffer. -/
theorem calls_after_teardown (s : iotc_state) (sid : Int) (u data : List Nat)
    (sock now : Int) (ch size : Nat) (hu : u.length = 20) (hch : ch < 32) (hs1 : 1 ≤ size)
    (hs2 : size ≤ 1400) :
    (IOTC_DeInitialize s).2.initialized = false ∧
    (IOTC_Get_SessionID (IOTC_DeInitialize s).2).1 = IOTC_ER_NOT_INITIALIZED ∧
    IOTC_Connect_ByUID (some u) sock now (IOTC_DeInitialize s).2 =
      some (IOTC_ER_NOT_INITIALIZED, (IOTC_DeInitialize s).2) ∧
    (IOTC_Session_Close sid (IOTC_DeInitialize s).2).1 = IOTC_ER_NOT_INITIALIZED ∧
    (IOTC_Get_Session_Status sid (IOTC_DeInitialize s).2).1 = IOTC_ER_NOT_INITIALIZED ∧
    (IOTC_Session_Channel_ON sid ch (IOTC_DeInitialize s).2).1 = IOTC_ER_NOT_INITIALIZED ∧
    (IOTC_Session_Channel_OFF sid ch (IOTC_DeInitialize s).2).1 = IOTC_ER_NOT_INITIALIZED ∧
    (IOTC_Session_Channel_Check_ON_OFF sid ch (IOTC_DeInitialize s).2).1
      = IOTC_ER_NOT_INITIALIZED ∧
    (IOTC_Session_Get_Free_Channel sid (IOTC_DeInitialize s).2).1 = IOTC_ER_NOT_INITIALIZED ∧
    (IOTC_Session_Get_Channel_ON_Count sid (IOTC_DeInitialize s).2).1
      = IOTC_ER_NOT_INITIALIZED ∧
    (IOTC_Session_Write sid (some data) size ch now (IOTC_DeInitialize s).2).1
      = IOTC_ER_NOT_INITIALIZED := by
  have hd : (IOTC_DeInitialize s).2.initialized = false := by
    unfold IOTC_DeInitialize
    cases h : s.initialized <;> simp [h]
  have hch2 : ¬ (ch ≥ MAX_CHANNEL_NUMBER) := by
    simp only [MAX_CHANNEL_NUMBER]
    omega
  have hw : ¬ ((some data).isNone = true ∨ size = 0 ∨ size > MAX_PACKET_SIZE ∨
      ch ≥ MAX_CHANNEL_NUMBER) := by
    simp only [MAX_PACKET_SIZE, MAX_CHANNEL_NUMBER, Option.isNone_some, Bool.false_eq_true,
      false_or]
    omega
  refine ⟨hd, ?_, ?_, ?_, ?_, ?_, ?_, ?_, ?_, ?_, ?_⟩
  · simp [IOTC_Get_SessionID, hd]
  · exact connect_uninit u sock now _ hu hd
  · simp [IOTC_Session_Close, hd]
  · simp [IOTC_Get_Session_Status, hd]
  · simp only [IOTC_Session_Channel_ON, hd, if_neg hch2]
    simp
  · simp only [IOTC_Session_Channel_OFF, hd, if_neg hch2]
    simp
  · simp only [IOTC_Session_Channel_Check_ON_OFF, hd, if_neg hch2]
    simp
  · simp [IOTC_Session_Get_Free_Channel, hd]
  · simp [IOTC_Session_Get_Channel_ON_Count, hd]
  · simp only [IOTC_Session_Write, hd, if_neg hw]
    simp

/-- Witness for C10: handle 1 is issued by an allocation, the table is torn down,
and the calls are made on handle 1. -/
theorem calls_after_teardown_witness :
    (IOTC_Get_SessionID
      (IOTC_Initialize true 0 g_iotc_state_zero).2).1 = 1 ∧
    (IOTC_Get_Session_Status 1
      (IOTC_DeInitialize (IOTC_Get_SessionID
        (IOTC_Initialize true 0 g_iotc_state_zero).2).2).2).1 = -1 ∧
    (IOTC_Session_Write 1 (some [7]) 1 0 0
      (IOTC_DeInitialize (IOTC_Get_SessionID
        (IOTC_Initialize true 0 g_iotc_state_zero).2).2).2).1 = -1 :=
  ⟨by decide,
   (calls_after_teardown
      (IOTC_Get_SessionID
        (IOTC_Initialize true 0 g_iotc_state_zero).2).2
      1 (List.replicate 20 65) [7] 3 0 0 1 (by decide) (by decide) (by decide)
      (by decide)).2.2.2.2.1,
   (calls_after_teardown
      (IOTC_Get_SessionID
        (IOTC_Initialize true 0 g_iotc_state_zero).2).2
      1 (List.replicate 20 65) [7] 3 0 0 1 (by decide) (by decide) (by decide)
      (by decide)).2.2.2.2.2.2.2.2.2.2⟩

/-! ## Helper lemmas: lookup by handle -/

theorem find_session_by_id_lowest (s : iotc_state) (sid : Int) (i : Nat) (x : session_info_t)
    (hi : i < s.max_sessions.toNat) (hx : (slots s)[i]? = some x)
    (hxs : x.state ≠ .FREE ∧ x.session_id = toUInt32 sid)
    (hlow : ∀ j, j < i → ∀ y, (slots s)[j]? = some y →
      ¬ (y.state ≠ .FREE ∧ y.session_id = toUInt32 sid)) :
    find_session_by_id s sid = some i := by
  unfold find_session_by_id
  rw [find_session_by_id_loop_some]
  refine ⟨⟨x, ?_, hxs⟩, ?_⟩
  · rw [List.getElem?_take, if_pos hi]
    exact hx
  · intro j hj y hy
    exact hlow j hj y (getElem?_take_some _ _ _ _ hy).2

theorem find_session_by_id_spec (s : iotc_state) (sid : Int) (i : Nat)
    (h : find_session_by_id s sid = some i) :
    i < s.max_sessions.toNat ∧
    (∃ x, (slots s)[i]? = some x ∧ x.state ≠ .FREE ∧ x.session_id = toUInt32 sid) ∧
    ∀ j, j < i → ∀ y, (slots s)[j]? = some y →
      ¬ (y.state ≠ .FREE ∧ y.session_id = toUInt32 sid) := by
  unfold find_session_by_id at h
  obtain ⟨⟨x, hx, hxs⟩, hlow⟩ := (find_session_by_id_loop_some sid _ i).1 h
  obtain ⟨hi, hx2⟩ := getElem?_take_some _ _ _ _ hx
  refine ⟨hi, ⟨x, hx2, hxs⟩, ?_⟩
  intro j hj y hy
  apply hlow j hj y
  rw [List.getElem?_take, if_pos (by omega)]
  exact hy

theorem find_session_by_id_none (s : iotc_state) (sid : Int) :
    find_session_by_id s sid = none ↔
      ∀ x ∈ (slots s).take s.max_sessions.toNat,
        ¬ (x.state ≠ .FREE ∧ x.session_id = toUInt32 sid) := by
  unfold find_session_by_id
  exact find_session_by_id_loop_none sid _

theorem find_session_by_id_isSome (s : iotc_state) (sid : Int) :
    (∃ i, find_session_by_id s sid = some i) ↔
      ∃ x ∈ (slots s).take s.max_sessions.toNat,
        x.state ≠ .FREE ∧ x.session_id = toUInt32 sid := by
  constructor
  · rintro ⟨i, hi⟩
    by_contra hne
    have hnone : find_session_by_id s sid = none := by
      rw [find_session_by_id_none]
      intro x hx hxs
      exact hne ⟨x, hx, hxs⟩
    rw [hnone] at hi
    cases hi
  · rintro ⟨x, hx, hxs⟩
    cases hf : find_session_by_id s sid with
    | some i => exact ⟨i, rfl⟩
    | none =>
      rw [find_session_by_id_none] at hf
      exact absurd hxs (hf x hx)

theorem take_slots_of_wf (s : iotc_state) (hwf : table_wf s) :
    (slots s).take s.max_sessions.toNat = slots s := by
  obtain ⟨hm, hl, -⟩ := hwf
  rw [hm]
  exact List.take_of_length_le (by simp [hl])

theorem find_session_by_id_of_wf (s : iotc_state) (sid : Int) (i : Nat) (x : session_info_t)
    (hwf : table_wf s) (hx : (slots s)[i]? = some x) (hxs : x.state ≠ .FREE)
    (hid : x.session_id = toUInt32 sid) :
    find_session_by_id s sid = some i := by
  have hi : i < (slots s).length := (List.getElem?_eq_some.1 hx).1
  apply find_session_by_id_lowest s sid i x _ hx ⟨hxs, hid⟩
  · intro j hj y hy hys
    have := hwf.2.2.2.2.2.2.2 j i y x hy hx hys.1 hxs (hys.2.trans hid.symm)
    omega
  · rw [hwf.1]
    have := hwf.2.1
    have h16 : (16 : Int).toNat = 16 := rfl
    rw [h16]
    omega

theorem status_eq (sid : Int) (s : iotc_state) (hinit : s.initialized = true) :
    (find_session_by_id s sid = none ∧
      IOTC_Get_Session_Status sid s = (IOTC_ER_INVALID_SID, s)) ∨
    (∃ i x, find_session_by_id s sid = some i ∧ (slots s)[i]? = some x ∧ x.state ≠ .FREE ∧
      x.session_id = toUInt32 sid ∧ IOTC_Get_Session_Status sid s = (x.state.toInt, s)) := by
  unfold IOTC_Get_Session_Status
  cases hf : find_session_by_id s sid with
  | none => simp [hinit]
  | some i =>
    obtain ⟨x, hx, hxs, hid⟩ := find_session_by_id_some s sid i hf
    right
    exact ⟨i, x, rfl, hx, hxs, hid, by simp [hinit, hx]⟩

theorem state_toInt_nonneg (st : session_state_t) : 0 ≤ st.toInt := by
  cases st <;> decide

theorem state_toInt_eq_three (st : session_state_t) : st.toInt = 3 ↔ st = .CONNECTED := by
  cases st <;> decide

theorem state_toInt_eq_zero (st : session_state_t) : st.toInt = 0 ↔ st = .FREE := by
  cases st <;> decide

theorem find_connected_eq (sid : Int) (s : iotc_state) :
    (find_connected s sid = none ∧
      (find_session_by_id s sid = none ∨
        ∃ i x, find_session_by_id s sid = some i ∧ (slots s)[i]? = some x ∧
          x.session_id = toUInt32 sid ∧ x.state ≠ .FREE ∧ x.state ≠ .CONNECTED)) ∨
    (∃ i x, find_connected s sid = some (i, x) ∧ find_session_by_id s sid = some i ∧
      (slots s)[i]? = some x ∧ x.session_id = toUInt32 sid ∧ x.state = .CONNECTED) := by
  unfold find_connected
  cases hf : find_session_by_id s sid with
  | none => exact Or.inl ⟨rfl, Or.inl rfl⟩
  | some i =>
    obtain ⟨x, hx, hxs, hid⟩ := find_session_by_id_some s sid i hf
    by_cases hc : x.state = .CONNECTED
    · right
      exact ⟨i, x, by simp [hx, hc], rfl, hx, hid, hc⟩
    · left
      exact ⟨by simp [hx, hc], Or.inr ⟨i, x, rfl, hx, hid, hxs, hc⟩⟩

/-- On an initialized table the lookup of the channel and data calls fails
exactly when the status call does not answer `CONNECTED`. -/
theorem find_connected_none_iff (sid : Int) (s : iotc_state) (hinit : s.initialized = true) :
    find_connected s sid = none ↔ (IOTC_Get_Session_Status sid s).1 ≠ 3 := by
  rcases find_connected_eq sid s with ⟨hn, hcase⟩ | ⟨i, x, hsome, hf, hx, _, hc⟩
  · rw [hn]
    simp only [true_iff]
    rcases status_eq sid s hinit with ⟨_, hst⟩ | ⟨j, y, hfj, hy, _, _, hst⟩
    · rw [hst]
      show IOTC_ER_INVALID_SID ≠ 3
      decide
    · rw [hst]
      rcases hcase with hnone | ⟨i, x, hfi, hx, _, _, hxc⟩
      · rw [hnone] at hfj
        cases hfj
      · rw [hfi] at hfj
        cases hfj
        rw [hx] at hy
        cases hy
        simp only [ne_eq, state_toInt_eq_three]
        exact hxc
  · rw [hsome]
    simp only [reduceCtorEq, false_iff, ne_eq, not_not]
    rcases status_eq sid s hinit with ⟨hnone, _⟩ | ⟨j, y, hfj, hy, _, _, hst⟩
    · rw [hnone] at hf
      cases hf
    · rw [hf] at hfj
      cases hfj
      rw [hx] at hy
      cases hy
      rw [hst]
      exact (state_toInt_eq_three _).2 hc

/-! ## Helper lemmas: calls that occupy no slot -/

theorem chan_on_iff (x : session_info_t) (c : Nat) :
    chan_on x c ↔ (x.channels.map (·.state))[c]? = some .ON := by
  unfold chan_on
  rw [List.getElem?_map]

theorem chan_on_of_states_eq (x y : session_info_t) (c : Nat)
    (h : y.channels.map (·.state) = x.channels.map (·.state)) (hy : chan_on y c) :
    chan_on x c := by
  rw [chan_on_iff] at hy ⊢
  rw [← h]
  exact hy

theorem cleanup_session_channel_states (x : session_info_t) :
    (cleanup_session x).channels.map (·.state) = x.channels.map (·.state) := by
  unfold cleanup_session
  simp only [List.map_append, List.map_map]
  have hf : ((fun c : channel_info_t => c.state) ∘ cleanup_channel) =
      (fun c : channel_info_t => c.state) := by
    funext c
    rfl
  rw [hf, ← List.map_append, List.take_append_drop]

theorem cleanup_session_channels_length (x : session_info_t) :
    (cleanup_session x).channels.length = x.channels.length := by
  have h := congrArg List.length (cleanup_session_channel_states x)
  simpa using h

theorem modify_channel_channels_length (x : session_info_t) (c : Nat)
    (f : channel_info_t → channel_info_t) :
    (modify_channel x c f).channels.length = x.channels.length := by
  unfold modify_channel
  cases h : x.channels[c]? with
  | none => rfl
  | some ch => simp

theorem slot_rel_refl (x : session_info_t) : slot_rel x x :=
  ⟨rfl, rfl, Or.inl rfl, fun _ h => Or.inl h⟩

theorem slot_rel_cleanup (x : session_info_t) : slot_rel x (cleanup_session x) :=
  ⟨rfl, cleanup_session_channels_length x, Or.inr (Or.inl rfl),
    fun c h => Or.inl (chan_on_of_states_eq x _ c (cleanup_session_channel_states x) h)⟩

theorem slot_rel_of_connected (x y : session_info_t) (hx : x.state = .CONNECTED)
    (hid : y.session_id = x.session_id) (hlen : y.channels.length = x.channels.length)
    (hst : y.state = x.state) : slot_rel x y :=
  ⟨hid, hlen, Or.inl hst, fun _ _ => Or.inr ⟨hx, hst.trans hx⟩⟩

theorem evolves_refl (s : iotc_state) : evolves s s :=
  ⟨rfl, rfl, rfl, rfl, fun _ y hy => ⟨y, hy, slot_rel_refl y⟩⟩

theorem slots_modify_slot_length (s : iotc_state) (i : Nat)
    (f : session_info_t → session_info_t) :
    (slots (modify_slot s i f)).length = (slots s).length := by
  rw [slots_modify_slot]
  cases h : (slots s)[i]? with
  | none => rfl
  | some x => simp

theorem evolves_modify_slot (s : iotc_state) (i : Nat) (f : session_info_t → session_info_t)
    (h : ∀ x, (slots s)[i]? = some x → slot_rel x (f x)) :
    evolves s (modify_slot s i f) := by
  refine ⟨rfl, rfl, rfl, slots_modify_slot_length s i f, ?_⟩
  intro j y hy
  rw [slots_modify_slot] at hy
  cases hx : (slots s)[i]? with
  | none =>
    rw [hx] at hy
    exact ⟨y, hy, slot_rel_refl y⟩
  | some x =>
    rw [hx] at hy
    simp only at hy
    by_cases hij : i = j
    · subst hij
      have hi : i < (slots s).length := (List.getElem?_eq_some.1 hx).1
      rw [List.getElem?_set_self hi] at hy
      cases hy
      exact ⟨x, hx, h x hx⟩
    · rw [List.getElem?_set_ne hij] at hy
      exact ⟨y, hy, slot_rel_refl y⟩

theorem table_wf_of_evolves (s s' : iotc_state) (hwf : table_wf s) (hev : evolves s s') :
    table_wf s' := by
  obtain ⟨hm, hl, hch, hst, hn1, hn2, hids, hdist⟩ := hwf
  obtain ⟨-, em, en, el, erel⟩ := hev
  have hrel : ∀ y ∈ slots s', ∃ x ∈ slots s, slot_rel x y := by
    intro y hy
    obtain ⟨i, hi⟩ := List.mem_iff_getElem?.1 hy
    obtain ⟨x, hx, hr⟩ := erel i y hi
    exact ⟨x, List.getElem?_mem hx, hr⟩
  have hfree : ∀ x y, slot_rel x y → y.state ≠ .FREE → x.state ≠ .FREE := by
    intro x y hr hy
    rcases hr.2.2.1 with h | h | h
    · rw [h] at hy
      exact hy
    · exact absurd h hy
    · exact h.1
  refine ⟨em.trans hm, el.trans hl, ?_, ?_, en ▸ hn1, en ▸ hn2, ?_, ?_⟩
  · intro y hy
    obtain ⟨x, hx, hr⟩ := hrel y hy
    rw [hr.2.1]
    exact hch x hx
  · intro y hy
    obtain ⟨x, hx, hr⟩ := hrel y hy
    rcases hr.2.2.1 with h | h | h
    · rw [h]
      exact hst x hx
    · exact Or.inl h
    · exact Or.inr (Or.inr h.2)
  · intro y hy hyf
    obtain ⟨x, hx, hr⟩ := hrel y hy
    rw [hr.1, en]
    exact hids x hx (hfree x y hr hyf)
  · intro i j y1 y2 h1 h2 hf1 hf2 heq
    obtain ⟨x1, hx1, hr1⟩ := erel i y1 h1
    obtain ⟨x2, hx2, hr2⟩ := erel j y2 h2
    apply hdist i j x1 x2 hx1 hx2 (hfree x1 y1 hr1 hf1) (hfree x2 y2 hr2 hf2)
    rw [← hr1.1, ← hr2.1]
    exact heq

theorem evolves_close (sid : Int) (s : iotc_state) : evolves s (IOTC_Session_Close sid s).2 := by
  unfold IOTC_Session_Close
  split
  · exact evolves_refl s
  · split
    · exact evolves_refl s
    · exact evolves_modify_slot s _ _ (fun x _ => slot_rel_cleanup x)

theorem evolves_modify_connected (s : iotc_state) (sid : Int) (i : Nat) (x0 : session_info_t)
    (f : session_info_t → session_info_t) (hfind : find_connected s sid = some (i, x0))
    (hid : ∀ x, (f x).session_id = x.session_id)
    (hlen : ∀ x, (f x).channels.length = x.channels.length)
    (hst : ∀ x, (f x).state = x.state) :
    evolves s (modify_slot s i f) := by
  apply evolves_modify_slot
  intro x hx
  obtain ⟨hx0, hc, -⟩ := find_connected_some s sid i x0 hfind
  have hxe : x = x0 := Option.some.inj (hx.symm.trans hx0)
  rw [hxe]
  exact slot_rel_of_connected x0 (f x0) hc (hid x0) (hlen x0) (hst x0)

theorem evolves_channel_on (sid : Int) (ch : Nat) (s : iotc_state) :
    evolves s (IOTC_Session_Channel_ON sid ch s).2 := by
  unfold IOTC_Session_Channel_ON
  split
  · exact evolves_refl s
  · split
    · exact evolves_refl s
    · split
      · exact evolves_refl s
      · rename_i i x0 hfind
        exact evolves_modify_connected s sid i x0 _ hfind (fun _ => rfl)
          (fun x => modify_channel_channels_length x ch _) (fun _ => rfl)

theorem evolves_channel_off (sid : Int) (ch : Nat) (s : iotc_state) :
    evolves s (IOTC_Session_Channel_OFF sid ch s).2 := by
  unfold IOTC_Session_Channel_OFF
  split
  · exact evolves_refl s
  · split
    · exact evolves_refl s
    · split
      · exact evolves_refl s
      · rename_i i x0 hfind
        exact evolves_modify_connected s sid i x0 _ hfind (fun _ => rfl)
          (fun x => modify_channel_channels_length x ch _) (fun _ => rfl)

theorem evolves_write (sid : Int) (data : Option (List Nat)) (size ch : Nat) (now : Int)
    (s : iotc_state) : evolves s (IOTC_Session_Write sid data size ch now s).2 := by
  unfold IOTC_Session_Write
  split
  · exact evolves_refl s
  · split
    · exact evolves_refl s
    · split
      · exact evolves_refl s
      · split
        · exact evolves_refl s
        · rename_i i x0 hfind _
          exact evolves_modify_connected s sid i x0 _ hfind (fun _ => rfl) (fun _ => rfl)
            (fun _ => rfl)

theorem evolves_read_check (sid : Int) (buf : Bool) (size timeout : Int)
    (lost datatype : Option Nat) (flags unused now : Int) (s : iotc_state) :
    evolves s (IOTC_Session_Read_Check_Lost_Data_And_Datatype sid buf size timeout lost datatype
      flags unused now s).2 := by
  unfold IOTC_Session_Read_Check_Lost_Data_And_Datatype
  split
  · exact evolves_refl s
  · split
    · exact evolves_refl s
    · split
      · exact evolves_refl s
      · rename_i i x0 hfind
        exact evolves_modify_connected s sid i x0 _ hfind (fun _ => rfl) (fun _ => rfl)
          (fun _ => rfl)

/-! ## Helper lemmas: allocation on a well-formed table -/

theorem get_sessionid_wf (s : iotc_state) (hinit : s.initialized = true) (hwf : table_wf s) :
    (find_free_session s = none ∧ IOTC_Get_SessionID s = (IOTC_ER_EXCEED_MAX_SESSION, s)) ∨
    (∃ j x, j < 16 ∧ (slots s)[j]? = some x ∧ x.state = .FREE ∧
      (∀ k, k < j → ∀ y, (slots s)[k]? = some y → y.state ≠ .FREE) ∧
      (toUInt32 s.next_session_id : Int) = s.next_session_id ∧
      (IOTC_Get_SessionID s).1 = s.next_session_id ∧
      (IOTC_Get_SessionID s).2.initialized = true ∧
      (IOTC_Get_SessionID s).2.max_sessions = 16 ∧
      (IOTC_Get_SessionID s).2.next_session_id = toInt32 (s.next_session_id + 1) ∧
      slots (IOTC_Get_SessionID s).2 =
        (slots s).set j { x with state := .USED, session_id := toUInt32 s.next_session_id } ∧
      (s.next_session_id + 1 ≤ 2147483647 → table_wf (IOTC_Get_SessionID s).2)) := by
  rcases get_sessionid_cases s hinit with h | ⟨j, x, hf, hx, hxs, h⟩
  · exact Or.inl h
  · right
    obtain ⟨hm, hl, hch, hst, hn1, hn2, hids, hdist⟩ := hwf
    unfold find_free_session at hf
    obtain ⟨⟨_, hxt, _⟩, hlow⟩ := (find_free_session_loop_some _ j).1 hf
    have hj : j < (slots s).length := (List.getElem?_eq_some.1 hx).1
    have hu : (toUInt32 s.next_session_id : Int) = s.next_session_id :=
      toUInt32_of_range _ (by omega) hn2
    have hslots : slots (IOTC_Get_SessionID s).2 =
        (slots s).set j { x with state := .USED, session_id := toUInt32 s.next_session_id } := by
      rw [h]
      exact slots_modify_slot_of_some s j _ x hx
    refine ⟨j, x, by omega, hx, hxs, ?_, hu, ?_, ?_, ?_, ?_, hslots, ?_⟩
    · intro k hk y hy
      apply hlow k hk y
      rw [List.getElem?_take, if_pos (by rw [hm]; have h16 : (16 : Int).toNat = 16 := rfl; omega)]
      exact hy
    · rw [h]
      exact toInt32_toUInt32_of_range _ (by omega) hn2
    · rw [h]
      exact hinit
    · rw [h]
      exact hm
    · rw [h]
    · intro hno
      have hnext : (IOTC_Get_SessionID s).2.next_session_id = s.next_session_id + 1 := by
        rw [h]
        exact toInt32_of_range _ (by omega) hno
      have hmem : ∀ y ∈ slots (IOTC_Get_SessionID s).2, y ∈ slots s ∨
          y = { x with state := .USED, session_id := toUInt32 s.next_session_id } := by
        intro y hy
        rw [hslots] at hy
        exact List.mem_or_eq_of_mem_set hy
      refine ⟨by rw [h]; exact hm, by rw [hslots]; simpa using hl, ?_, ?_, by omega, by omega,
        ?_, ?_⟩
      · intro y hy
        rcases hmem y hy with hy | rfl
        · exact hch y hy
        · exact hch x (List.getElem?_mem hx)
      · intro y hy
        rcases hmem y hy with hy | rfl
        · exact hst y hy
        · exact Or.inr (Or.inl rfl)
      · intro y hy hyf
        rw [hnext]
        rcases hmem y hy with hy | rfl
        · have := hids y hy hyf
          omega
        · simp only
          omega
      · intro i1 i2 y1 y2 h1 h2 hf1 hf2 heq
        rw [hslots] at h1 h2
        by_cases e1 : j = i1
        · by_cases e2 : j = i2
          · omega
          · exfalso
            subst e1
            rw [List.getElem?_set_self hj] at h1
            rw [List.getElem?_set_ne e2] at h2
            cases h1
            have := (hids y2 (List.getElem?_mem h2) hf2).2
            simp only at heq
            rw [← heq, hu] at this
            omega
        · by_cases e2 : j = i2
          · exfalso
            subst e2
            rw [List.getElem?_set_self hj] at h2
            rw [List.getElem?_set_ne e1] at h1
            cases h2
            have := (hids y1 (List.getElem?_mem h1) hf1).2
            simp only at heq
            rw [heq, hu] at this
            omega
          · rw [List.getElem?_set_ne e1] at h1
            rw [List.getElem?_set_ne e2] at h2
            exact hdist i1 i2 y1 y2 h1 h2 hf1 hf2 heq

/-- On a table whose occupied slots all carry handles below `c`, a slot that
has just been given the handle `c` is the one the lookup of `c` finds. -/
theorem find_session_by_id_fresh (s s' : iotc_state) (c : Int) (j : Nat) (y : session_info_t)
    (hwf : table_wf s) (hc : s.next_session_id = c) (hmax : s'.max_sessions = 16)
    (hslots : slots s' = (slots s).set j y) (hj : j < 16) (hy : y.state ≠ .FREE)
    (hyid : y.session_id = toUInt32 c) :
    find_session_by_id s' c = some j := by
  obtain ⟨hm, hl, hch, hst, hn1, hn2, hids, hdist⟩ := hwf
  have hu : (toUInt32 c : Int) = c := toUInt32_of_range _ (by omega) (by omega)
  apply find_session_by_id_lowest s' c j y
  · rw [hmax]
    have h16 : (16 : Int).toNat = 16 := rfl
    omega
  · rw [hslots]
    exact List.getElem?_set_self (by omega)
  · exact ⟨hy, hyid⟩
  · intro k hk z hz hzs
    rw [hslots, List.getElem?_set_ne (by omega)] at hz
    have := (hids z (List.getElem?_mem hz) hzs.1).2
    rw [hzs.2, hu] at this
    omega

theorem initialize_wf (now : Int) (s : iotc_state) (hs : s.initialized = false) :
    table_wf (IOTC_Initialize true now s).2 := by
  rw [initialize_success now s hs]
  refine ⟨rfl, by simp [slots], ?_, ?_, by show (1 : Int) ≤ 1; decide,
    by show (1 : Int) ≤ 2147483647; decide, ?_, ?_⟩
  · intro x hx
    simp only [slots, Option.getD_some] at hx
    rw [List.eq_of_mem_replicate hx, init_session_calloc]
    simp
  · intro x hx
    simp only [slots, Option.getD_some] at hx
    rw [List.eq_of_mem_replicate hx, init_session_calloc]
    exact Or.inl rfl
  · intro x hx hxf
    simp only [slots, Option.getD_some] at hx
    rw [List.eq_of_mem_replicate hx, init_session_calloc] at hxf
    exact absurd rfl hxf
  · intro i j x y hx _ hxf
    have hx := List.getElem?_mem hx
    simp only [slots, Option.getD_some] at hx
    rw [List.eq_of_mem_replicate hx, init_session_calloc] at hxf
    exact absurd rfl hxf

theorem initialize_cases (alloc_ok : Bool) (now : Int) (s : iotc_state)
    (hs : s.initialized = false) :
    (IOTC_Initialize alloc_ok now s).2.initialized = false ∨
    (alloc_ok = true ∧ (IOTC_Initialize alloc_ok now s).2.next_session_id = 1) := by
  cases alloc_ok with
  | false =>
    left
    simp [IOTC_Initialize, hs]
  | true =>
    right
    refine ⟨rfl, ?_⟩
    rw [initialize_success now s hs]

/-! ## Helper lemmas: the invariant along a sequence of calls -/

/-- One call and the table invariant: either nothing is allocated and the
invariant is kept (the allocator is unchanged, or reset to 1 by an
initialisation), or the allocator's value is handed out and the invariant is
kept as long as the incremented counter fits an `int`. -/
theorem step_wf (op : Op) (s : iotc_state) (r : Int × iotc_state) (hstep : step op s = some r)
    (hwf : s.initialized = true → table_wf s) :
    (allocation op s = none ∧
      (r.2.initialized = true → table_wf r.2 ∧
        ((s.initialized = true ∧ r.2.next_session_id = s.next_session_id) ∨
          r.2.next_session_id = 1))) ∨
    (allocation op s = some s.next_session_id ∧ s.initialized = true ∧
      r.2.initialized = true ∧ r.2.next_session_id = toInt32 (s.next_session_id + 1) ∧
      (s.next_session_id + 1 ≤ 2147483647 → table_wf r.2)) := by
  have of_evolves : ∀ t : iotc_state, evolves s t → allocation op s = none →
      (allocation op s = none ∧
        (t.initialized = true → table_wf t ∧
          ((s.initialized = true ∧ t.next_session_id = s.next_session_id) ∨
            t.next_session_id = 1))) := by
    intro t ht ha
    refine ⟨ha, fun hti => ?_⟩
    have hsi : s.initialized = true := ht.1 ▸ hti
    exact ⟨table_wf_of_evolves s t (hwf hsi) ht, Or.inl ⟨hsi, ht.2.2.1⟩⟩
  cases op with
  | Initialize alloc_ok now =>
    simp only [step, Option.some.injEq] at hstep
    subst hstep
    left
    rcases Bool.eq_false_or_eq_true s.initialized with hs | hs
    · rw [initialize_of_initialized alloc_ok now s hs]
      exact of_evolves s (evolves_refl s) rfl
    · refine ⟨rfl, fun hi => ?_⟩
      rcases initialize_cases alloc_ok now s hs with h | ⟨rfl, h⟩
      · rw [h] at hi
        cases hi
      · exact ⟨initialize_wf now s hs, Or.inr h⟩
  | DeInitialize =>
    simp only [step, Option.some.injEq] at hstep
    subst hstep
    left
    refine ⟨rfl, fun hi => ?_⟩
    exfalso
    unfold IOTC_DeInitialize at hi
    cases hs : s.initialized <;> simp [hs] at hi
  | Get_SessionID =>
    simp only [step, Option.some.injEq] at hstep
    subst hstep
    rcases Bool.eq_false_or_eq_true s.initialized with hs | hs
    · rcases get_sessionid_wf s hs (hwf hs) with ⟨_, hfull⟩ |
        ⟨j, x, _, _, _, _, _, hr, hi1, _, hn1, _, hwf1⟩
      · left
        rw [hfull]
        exact of_evolves s (evolves_refl s) (by simp only [allocation, hfull]; rfl)
      · right
        have hn0 := (hwf hs).2.2.2.2.1
        refine ⟨?_, hs, hi1, hn1, hwf1⟩
        simp only [allocation, hr]
        rw [if_pos (by omega)]
    · left
      have hg : IOTC_Get_SessionID s = (IOTC_ER_NOT_INITIALIZED, s) := by
        simp [IOTC_Get_SessionID, hs]
      rw [hg]
      refine ⟨?_, fun hi => ?_⟩
      · simp only [allocation, hg]
        rfl
      · have hi2 : s.initialized = true := hi
        rw [hs] at hi2
        cases hi2
  | Set_Max_Session_Number n =>
    simp only [step, Option.some.injEq] at hstep
    subst hstep
    left
    rcases Bool.eq_false_or_eq_true s.initialized with hs | hs
    · rw [set_max_of_initialized n s hs]
      exact of_evolves s (evolves_refl s) rfl
    · refine ⟨rfl, fun hi => ?_⟩
      simp [IOTC_Set_Max_Session_Number, hs] at hi
  | Connect_ByUID uid sock now =>
    simp only [step] at hstep
    rw [(connect_returns uid sock now s r hstep).1]
    exact Or.inl (of_evolves s (evolves_refl s) rfl)
  | Session_Close sid =>
    simp only [step, Option.some.injEq] at hstep
    subst hstep
    exact Or.inl (of_evolves _ (evolves_close sid s) rfl)
  | Session_Channel_ON sid ch =>
    simp only [step, Option.some.injEq] at hstep
    subst hstep
    exact Or.inl (of_evolves _ (evolves_channel_on sid ch s) rfl)
  | Session_Channel_OFF sid ch =>
    simp only [step, Option.some.injEq] at hstep
    subst hstep
    exact Or.inl (of_evolves _ (evolves_channel_off sid ch s) rfl)
  | Session_Channel_Check_ON_OFF sid ch =>
    simp only [step, Option.some.injEq] at hstep
    subst hstep
    rw [channel_check_state]
    exact Or.inl (of_evolves s (evolves_refl s) rfl)
  | Session_Get_Free_Channel sid =>
    simp only [step, Option.some.injEq] at hstep
    subst hstep
    rw [free_channel_state]
    exact Or.inl (of_evolves s (evolves_refl s) rfl)
  | Session_Write sid data size ch now =>
    simp only [step, Option.some.injEq] at hstep
    subst hstep
    exact Or.inl (of_evolves _ (evolves_write sid data size ch now s) rfl)
  | Session_Read_Check_Lost_Data_And_Datatype sid buf size timeout lost datatype flags unused now =>
    simp only [step, Option.some.injEq] at hstep
    subst hstep
    exact Or.inl (of_evolves _
      (evolves_read_check sid buf size timeout lost datatype flags unused now s) rfl)
  | Session_Read sid buf size timeout flags g0 g1 now =>
    simp only [step, IOTC_Session_Read] at hstep
    split at hstep
    · simp only [Option.some.injEq] at hstep
      subst hstep
      exact Or.inl (of_evolves _
        (evolves_read_check sid buf size timeout (some 0) (some 0) flags 0 now s) rfl)
    · cases hstep
  | Get_Session_Status sid =>
    simp only [step, Option.some.injEq] at hstep
    subst hstep
    rw [status_state]
    exact Or.inl (of_evolves s (evolves_refl s) rfl)
  | Session_Check sid =>
    simp only [step, Option.some.injEq] at hstep
    subst hstep
    rw [session_check_state]
    exact Or.inl (of_evolves s (evolves_refl s) rfl)
  | Session_Get_Channel_ON_Count sid =>
    simp only [step, Option.some.injEq] at hstep
    subst hstep
    rw [on_count_state]
    exact Or.inl (of_evolves s (evolves_refl s) rfl)
  | Session_Get_Channel_ON_Bitmap sid =>
    simp only [step, Option.some.injEq] at hstep
    subst hstep
    rw [on_bitmap_state]
    exact Or.inl (of_evolves s (evolves_refl s) rfl)

/-- The table invariant along any sequence of public calls, teardown and
re-initialisation included, while the allocator stays within `int`. -/
theorem run_wf (ops : List Op) :
    ∀ (s : iotc_state) (B : Int), 1 ≤ B →
      (s.initialized = true → table_wf s ∧ s.next_session_id ≤ B) →
      B + (handles s ops).length ≤ 2147483647 →
      ∀ s', run s ops = some s' →
        (s'.initialized = true →
          table_wf s' ∧ s'.next_session_id ≤ B + (handles s ops).length) := by
  induction ops with
  | nil =>
    intro s B _ hs _ s' hrun hi
    simp only [run, Option.some.injEq] at hrun
    subst hrun
    simpa [handles] using hs hi
  | cons op ops ih =>
    intro s B hB hs hlen s' hrun hi
    cases hstep : step op s with
    | none => simp [run, hstep] at hrun
    | some r =>
      have hrun2 : run r.2 ops = some s' := by simpa [run, hstep] using hrun
      rcases step_wf op s r hstep (fun h => (hs h).1) with ⟨ha, hr⟩ | ⟨ha, hsi, hri, hn, hw⟩
      · have hh : handles s (op :: ops) = handles r.2 ops := by simp [handles, ha, hstep]
        rw [hh] at hlen ⊢
        apply ih r.2 B hB _ hlen s' hrun2 hi
        intro hri
        obtain ⟨hw, hcase⟩ := hr hri
        refine ⟨hw, ?_⟩
        rcases hcase with ⟨hsi, he⟩ | he
        · rw [he]
          exact (hs hsi).2
        · rw [he]
          exact hB
      · have hh : handles s (op :: ops) = s.next_session_id :: handles r.2 ops := by
          simp [handles, ha, hstep]
        rw [hh] at hlen ⊢
        simp only [List.length_cons, Nat.cast_add, Nat.cast_one] at hlen ⊢
        have hle := (hs hsi).2
        have hn1 := (hs hsi).1.2.2.2.2.1
        have hn2 : r.2.next_session_id = s.next_session_id + 1 := by
          rw [hn]
          exact toInt32_of_range _ (by omega) (by omega)
        have := ih r.2 (B + 1) (by omega) (fun _ => ⟨hw (by omega), by omega⟩) (by omega)
          s' hrun2 hi
        refine ⟨this.1, ?_⟩
        have h2 := this.2
        omega

/-! ## Status and check -/

/-- C11: on an initialized table `IOTC_Get_Session_Status h` changes nothing;
when some non-`FREE` slot (among those the table holds) carries the handle
`h` it returns the state of the first such slot, and that happens exactly
when its result is not `-15`; when no non-`FREE` slot carries `h` (a `FREE`
slot with a stale equal id does not count) it returns `-15`
(`IOTC_ER_INVALID_SID`).  `IOTC_Session_Check h` changes nothing either and
returns 1 when the status is 3 (`CONNECTED`) and 0 in every other case. -/
theorem status_pure_read (h : Int) (s : iotc_state) (hinit : s.initialized = true) :
    (IOTC_Get_Session_Status h s).2 = s ∧
    ((∃ x ∈ (slots s).take s.max_sessions.toNat, x.state ≠ .FREE ∧ x.session_id = toUInt32 h) →
      ∃ i x, i < s.max_sessions.toNat ∧ (slots s)[i]? = some x ∧ x.state ≠ .FREE ∧
        x.session_id = toUInt32 h ∧
        (∀ j, j < i → ∀ y, (slots s)[j]? = some y →
          ¬ (y.state ≠ .FREE ∧ y.session_id = toUInt32 h)) ∧
        (IOTC_Get_Session_Status h s).1 = x.state.toInt) ∧
    ((∀ x ∈ (slots s).take s.max_sessions.toNat,
        ¬ (x.state ≠ .FREE ∧ x.session_id = toUInt32 h)) →
      (IOTC_Get_Session_Status h s).1 = IOTC_ER_INVALID_SID) ∧
    ((IOTC_Get_Session_Status h s).1 ≠ IOTC_ER_INVALID_SID ↔
      ∃ x ∈ (slots s).take s.max_sessions.toNat,
        x.state ≠ .FREE ∧ x.session_id = toUInt32 h) ∧
    (IOTC_Session_Check h s).2 = s ∧
    ((IOTC_Session_Check h s).1 = 1 ↔ (IOTC_Get_Session_Status h s).1 = 3) ∧
    ((IOTC_Session_Check h s).1 = 0 ↔ (IOTC_Get_Session_Status h s).1 ≠ 3) := by
  have hfound : (∃ x ∈ (slots s).take s.max_sessions.toNat,
      x.state ≠ .FREE ∧ x.session_id = toUInt32 h) →
      ∃ i x, i < s.max_sessions.toNat ∧ (slots s)[i]? = some x ∧ x.state ≠ .FREE ∧
        x.session_id = toUInt32 h ∧
        (∀ j, j < i → ∀ y, (slots s)[j]? = some y →
          ¬ (y.state ≠ .FREE ∧ y.session_id = toUInt32 h)) ∧
        (IOTC_Get_Session_Status h s).1 = x.state.toInt := by
    intro hex
    rcases status_eq h s hinit with ⟨hnone, _⟩ | ⟨i, x, hf, hx, hxs, hid, hst⟩
    · obtain ⟨y, hy, hys⟩ := hex
      exact absurd hys ((find_session_by_id_none s h).1 hnone y hy)
    · obtain ⟨hi, _, hlow⟩ := find_session_by_id_spec s h i hf
      exact ⟨i, x, hi, hx, hxs, hid, hlow, by rw [hst]⟩
  have hnot : (∀ x ∈ (slots s).take s.max_sessions.toNat,
      ¬ (x.state ≠ .FREE ∧ x.session_id = toUInt32 h)) →
      (IOTC_Get_Session_Status h s).1 = IOTC_ER_INVALID_SID := by
    intro hall
    rcases status_eq h s hinit with ⟨_, hst⟩ | ⟨i, x, hf, _, _, _, _⟩
    · rw [hst]
    · have := (find_session_by_id_none s h).2 hall
      rw [this] at hf
      cases hf
  refine ⟨status_state h s, hfound, hnot, ?_, session_check_state h s, ?_, ?_⟩
  · constructor
    · intro hne
      by_contra hex
      apply hne
      apply hnot
      intro x hx hxs
      exact hex ⟨x, hx, hxs⟩
    · intro hex
      obtain ⟨i, x, _, _, _, _, _, hst⟩ := hfound hex
      rw [hst]
      have := state_toInt_nonneg x.state
      intro hc
      rw [hc] at this
      exact absurd this (by decide)
  · unfold IOTC_Session_Check
    simp only [session_state_t.toInt]
    by_cases h3 : (IOTC_Get_Session_Status h s).1 = 3
    · simp [h3]
    · simp [h3]
  · unfold IOTC_Session_Check
    simp only [session_state_t.toInt]
    by_cases h3 : (IOTC_Get_Session_Status h s).1 = 3
    · simp [h3]
    · simp [h3]

/-- Witness for C11: in `connected_table` after one more allocation (handle
2) the status of handle 1 is 3 and it is found. -/
theorem status_pure_read_witness :
    (IOTC_Get_Session_Status 1 (IOTC_Get_SessionID connected_table).2).1 = 3 ∧
    ((IOTC_Session_Check 1 (IOTC_Get_SessionID connected_table).2).1 = 1 ↔
      (IOTC_Get_Session_Status 1 (IOTC_Get_SessionID connected_table).2).1 = 3) :=
  ⟨by decide,
   (status_pure_read 1 (IOTC_Get_SessionID connected_table).2 (by decide)).2.2.2.2.2.1⟩

/-! ## Close -/

theorem mem_take_slots_iff_of_wf (s : iotc_state) (hwf : table_wf s) (x : session_info_t) :
    x ∈ (slots s).take s.max_sessions.toNat ↔ x ∈ slots s := by
  rw [take_slots_of_wf s hwf]

/-- C12: on an initialized, well-formed table (the shape every reachable
table has), `IOTC_Session_Close h` for a handle carried by a non-`FREE` slot
returns 0 and rewrites that slot with `cleanup_session`, which leaves it
`FREE`; afterwards the status of `h` is `-15` and a second close of `h`
returns `-15` and changes nothing.  For a handle that no non-`FREE` slot
carries it returns `-15` (`IOTC_ER_INVALID_SID`) and changes nothing. -/
theorem close_spec (h : Int) (s : iotc_state) (hinit : s.initialized = true)
    (hwf : table_wf s) :
    ((∃ x ∈ slots s, x.state ≠ .FREE ∧ x.session_id = toUInt32 h) →
      (IOTC_Session_Close h s).1 = 0 ∧
      (∃ i x, (slots s)[i]? = some x ∧ x.state ≠ .FREE ∧ x.session_id = toUInt32 h ∧
        slots (IOTC_Session_Close h s).2 = (slots s).set i (cleanup_session x) ∧
        (cleanup_session x).state = .FREE) ∧
      (IOTC_Get_Session_Status h (IOTC_Session_Close h s).2).1 = IOTC_ER_INVALID_SID ∧
      IOTC_Session_Close h (IOTC_Session_Close h s).2 =
        (IOTC_ER_INVALID_SID, (IOTC_Session_Close h s).2)) ∧
    ((∀ x ∈ slots s, ¬ (x.state ≠ .FREE ∧ x.session_id = toUInt32 h)) →
      IOTC_Session_Close h s = (IOTC_ER_INVALID_SID, s)) := by
  constructor
  · intro hex
    have hex2 : ∃ x ∈ (slots s).take s.max_sessions.toNat,
        x.state ≠ .FREE ∧ x.session_id = toUInt32 h := by
      obtain ⟨x, hx, hxs⟩ := hex
      exact ⟨x, (mem_take_slots_iff_of_wf s hwf x).2 hx, hxs⟩
    obtain ⟨i, hf⟩ := (find_session_by_id_isSome s h).2 hex2
    obtain ⟨x, hx, hxs, hid⟩ := find_session_by_id_some s h i hf
    rcases close_cases h s hinit with ⟨hnone, _⟩ | ⟨k, hk, hcl⟩
    · rw [hnone] at hf
      cases hf
    · rw [hf] at hk
      cases hk
      have hslots : slots (IOTC_Session_Close h s).2 = (slots s).set i (cleanup_session x) := by
        rw [hcl]
        exact slots_modify_slot_of_some s i _ x hx
      have hinit2 : (IOTC_Session_Close h s).2.initialized = true := by
        rw [hcl]
        exact hinit
      have hnone2 : find_session_by_id (IOTC_Session_Close h s).2 h = none := by
        rw [find_session_by_id_none]
        intro y hy hys
        have hy2 := List.mem_of_mem_take hy
        rw [hslots] at hy2
        obtain ⟨k, hk⟩ := List.mem_iff_getElem?.1 hy2
        by_cases hik : i = k
        · subst hik
          rw [List.getElem?_set_self (List.getElem?_eq_some.1 hx).1] at hk
          cases hk
          exact hys.1 rfl
        · rw [List.getElem?_set_ne hik] at hk
          exact hik (hwf.2.2.2.2.2.2.2 i k x y hx hk hxs hys.1 (hid.trans hys.2.symm))
      refine ⟨by rw [hcl], ⟨i, x, hx, hxs, hid, hslots, rfl⟩, ?_, ?_⟩
      · rcases status_eq h _ hinit2 with ⟨_, hst⟩ | ⟨k, _, hk, _⟩
        · rw [hst]
        · rw [hnone2] at hk
          cases hk
      · rcases close_cases h _ hinit2 with ⟨_, hc2⟩ | ⟨k, hk, _⟩
        · exact hc2
        · rw [hnone2] at hk
          cases hk
  · intro hall
    rcases close_cases h s hinit with ⟨_, hcl⟩ | ⟨k, hk, _⟩
    · exact hcl
    · obtain ⟨x, hx, hxs, hid⟩ := find_session_by_id_some s h k hk
      exact absurd ⟨hxs, hid⟩ (hall x (List.getElem?_mem hx))

/-- C13: `IOTC_Session_Close h` either changes nothing, or rewrites only
the slot that the lookup of `h` finds: every other slot is exactly as before
(its state, its handle and all its channels), and so are the flags, the
capacity and the allocator. -/
theorem close_frame (h : Int) (s : iotc_state) :
    (IOTC_Session_Close h s).2 = s ∨
    (∃ i x, find_session_by_id s h = some i ∧ (slots s)[i]? = some x ∧ x.state ≠ .FREE ∧
      x.session_id = toUInt32 h ∧
      (∀ j y, j ≠ i → (slots s)[j]? = some y →
        (slots (IOTC_Session_Close h s).2)[j]? = some y) ∧
      (IOTC_Session_Close h s).2.initialized = s.initialized ∧
      (IOTC_Session_Close h s).2.max_sessions = s.max_sessions ∧
      (IOTC_Session_Close h s).2.next_session_id = s.next_session_id) := by
  rcases Bool.eq_false_or_eq_true s.initialized with hinit | hinit
  · rcases close_cases h s hinit with ⟨_, hcl⟩ | ⟨i, hf, hcl⟩
    · left
      rw [hcl]
    · right
      obtain ⟨x, hx, hxs, hid⟩ := find_session_by_id_some s h i hf
      refine ⟨i, x, hf, hx, hxs, hid, ?_, ?_, ?_, ?_⟩
      · intro j y hj hy
        rw [hcl]
        show (slots (modify_slot s i cleanup_session))[j]? = some y
        rw [slots_modify_slot_of_some s i _ x hx, List.getElem?_set_ne (Ne.symm hj)]
        exact hy
      · rw [hcl]
        rfl
      · rw [hcl]
        rfl
      · rw [hcl]
        rfl
  · left
    simp [IOTC_Session_Close, hinit]

/-- Witness for C13: in `two_connected_table` with channel 0 `ON` on both
sessions, closing handle 1 leaves channel 0 of handle 2 `ON`; and the close of
handle 3 on the full table. -/
theorem close_frame_witness :
    results two_connected_table
      [.Session_Channel_ON 1 0, .Session_Channel_ON 2 0, .Session_Close 1,
       .Session_Channel_Check_ON_OFF 2 0, .Get_Session_Status 1]
      = [0, 0, 0, 1, -15] ∧
    ((IOTC_Session_Close 3 full_table).2 = full_table ∨
      ∃ i x, find_session_by_id full_table 3 = some i ∧ (slots full_table)[i]? = some x ∧
        x.state ≠ .FREE ∧ x.session_id = toUInt32 3 ∧
        (∀ j y, j ≠ i → (slots full_table)[j]? = some y →
          (slots (IOTC_Session_Close 3 full_table).2)[j]? = some y) ∧
        (IOTC_Session_Close 3 full_table).2.initialized = full_table.initialized ∧
        (IOTC_Session_Close 3 full_table).2.max_sessions = full_table.max_sessions ∧
        (IOTC_Session_Close 3 full_table).2.next_session_id = full_table.next_session_id) :=
  ⟨by decide, close_frame 3 full_table⟩

/-! ## Connect -/

/-- C15: `IOTC_Connect_ByUID` with a null id, or with an id whose length is
not 20, returns (`some`) `-27` (`IOTC_ER_INVALID_ARG`) and leaves the whole
state as it was, initialized or not: no slot is taken and the allocator is
untouched. -/
theorem connect_rejects_bad_uid (uid : Option (List Nat)) (sock now : Int) (s : iotc_state)
    (h : uid = none ∨ ∃ u, uid = some u ∧ u.length ≠ 20) :
    IOTC_Connect_ByUID uid sock now s = some (IOTC_ER_INVALID_ARG, s) := by
  apply connect_invalid
  intro u hu
  rcases h with h | ⟨v, hv, hl⟩
  · rw [h] at hu
    cases hu
  · rw [hv] at hu
    cases hu
    exact hl

/-- Witness for C15: a 19-byte id on a table with one session. -/
theorem connect_rejects_bad_uid_witness :
    IOTC_Connect_ByUID (some (List.replicate 19 65)) 3 0
      (IOTC_Get_SessionID (IOTC_Initialize true 0 g_iotc_state_zero).2).2 =
      some (-27, (IOTC_Get_SessionID (IOTC_Initialize true 0 g_iotc_state_zero).2).2) :=
  connect_rejects_bad_uid (some (List.replicate 19 65)) 3 0 _
    (Or.inr ⟨List.replicate 19 65, rfl, by decide⟩)

theorem table_wf_of_run (s0 : iotc_state) (ops : List Op) (s : iotc_state)
    (h0 : s0.initialized = false) (hlen : (handles s0 ops).length + 1 < 2147483648)
    (hrun : run s0 ops = some s) (hi : s.initialized = true) : table_wf s := by
  refine (run_wf ops s0 1 (by decide) ?_ (by omega) s hrun hi).1
  intro h
  rw [h0] at h
  cases h

/-- C16: on an initialized table a call of `IOTC_Connect_ByUID` with a 20-byte
id does not return, whatever the table holds and whether the socket opens or
not: the 20-byte id passes the argument check, the caller locks
`global_mutex`, the table is initialized, and the call of
`IOTC_Get_SessionID` locks the same mutex again. So no handle is returned and
no slot becomes `CONNECTED`; the calls of connect that do return give `-27` or
`-1` and leave the state as it was. -/
theorem connect_success_never_returns (u : List Nat) (sock now : Int) (s : iotc_state)
    (hlen : u.length = 20) (hinit : s.initialized = true) :
    IOTC_Get_SessionID_from true s = none ∧
    IOTC_Connect_ByUID (some u) sock now s = none ∧
    step (.Connect_ByUID (some u) sock now) s = none ∧
    (∀ ops, run s (.Connect_ByUID (some u) sock now :: ops) = none) ∧
    ∀ (uid : Option (List Nat)) (t : iotc_state) (r : Int × iotc_state),
      IOTC_Connect_ByUID uid sock now t = some r →
        r.2 = t ∧ (r.1 = IOTC_ER_INVALID_ARG ∨ r.1 = IOTC_ER_NOT_INITIALIZED) ∧ ¬ 0 < r.1 := by
  have hc := connect_held u sock now s hlen hinit
  refine ⟨rfl, hc, hc, ?_, ?_⟩
  · intro ops
    simp only [run]
    rw [show step (.Connect_ByUID (some u) sock now) s = none from hc]
  · intro uid t r h
    obtain ⟨h2, h1⟩ := connect_returns uid sock now t r h
    refine ⟨h2, ?_, ?_⟩
    · rcases h1 with h1 | h1
      · exact Or.inl h1.1
      · exact Or.inr h1.1
    · rcases h1 with h1 | h1
      · rw [h1.1]
        decide
      · rw [h1.1]
        decide

/-- C17: a call of `IOTC_Connect_ByUID` never returns `-6`
(`IOTC_ER_FAIL_CREATE_SOCKET`): with an id that is null or not 20 bytes long
it returns `-27`, on a table that is not initialized `-1`, and with a 20-byte
id on an initialized table it does not return, because the call of
`IOTC_Get_SessionID` locks `global_mutex` a second time before the socket is
created. In particular the call does not return when the socket cannot be
created, and the slots are as they were. -/
theorem connect_socket_failure_unreachable (uid : Option (List Nat)) (sock now : Int)
    (s : iotc_state) :
    (∀ r, IOTC_Connect_ByUID uid sock now s = some r → r.1 ≠ IOTC_ER_FAIL_CREATE_SOCKET) ∧
    (∀ u, uid = some u → u.length = 20 → s.initialized = true → sock < 0 →
      IOTC_Connect_ByUID uid sock now s = none) ∧
    (∀ r, IOTC_Connect_ByUID uid sock now s = some r → slots r.2 = slots s) := by
  refine ⟨?_, ?_, ?_⟩
  · intro r h
    rcases (connect_returns uid sock now s r h).2 with h1 | h1
    · rw [h1.1]
      decide
    · rw [h1.1]
      decide
  · intro u hu hlen hinit _
    rw [hu]
    exact connect_held u sock now s hlen hinit
  · intro r h
    rw [(connect_returns uid sock now s r h).1]

/-! ## Helper lemmas: the channel calls -/

theorem find_connected_spec (s : iotc_state) (sid : Int) (i : Nat) (x : session_info_t)
    (h : find_connected s sid = some (i, x)) :
    find_session_by_id s sid = some i ∧ (slots s)[i]? = some x ∧ x.state = .CONNECTED := by
  rcases find_connected_eq sid s with ⟨hn, _⟩ | ⟨j, y, hsome, hf, hy, _, hc⟩
  · rw [hn] at h
    cases h
  · rw [hsome] at h
    cases h
    exact ⟨hf, hy, hc⟩

theorem find_connected_intro (s : iotc_state) (sid : Int) (i : Nat) (x : session_info_t)
    (hf : find_session_by_id s sid = some i) (hx : (slots s)[i]? = some x)
    (hc : x.state = .CONNECTED) : find_connected s sid = some (i, x) := by
  unfold find_connected
  simp [hf, hx, hc]

theorem find_session_by_id_modify_slot (s : iotc_state) (sid : Int) (i : Nat)
    (x : session_info_t) (f : session_info_t → session_info_t)
    (hf : find_session_by_id s sid = some i) (hx : (slots s)[i]? = some x)
    (hid : (f x).session_id = x.session_id) (hst : (f x).state ≠ .FREE) :
    find_session_by_id (modify_slot s i f) sid = some i := by
  obtain ⟨hi, ⟨x', hx', _, hxid⟩, hlow⟩ := find_session_by_id_spec s sid i hf
  rw [hx] at hx'
  cases hx'
  have hil : i < (slots s).length := (List.getElem?_eq_some.1 hx).1
  apply find_session_by_id_lowest (modify_slot s i f) sid i (f x) hi
  · rw [slots_modify_slot_of_some s i f x hx]
    exact List.getElem?_set_self hil
  · exact ⟨hst, hid.trans hxid⟩
  · intro j hj y hy
    rw [slots_modify_slot_of_some s i f x hx, List.getElem?_set_ne (by omega)] at hy
    exact hlow j hj y hy

theorem find_connected_modify_slot (s : iotc_state) (sid : Int) (i : Nat)
    (x : session_info_t) (f : session_info_t → session_info_t)
    (h : find_connected s sid = some (i, x))
    (hid : (f x).session_id = x.session_id) (hst : (f x).state = x.state) :
    find_connected (modify_slot s i f) sid = some (i, f x) := by
  obtain ⟨hf, hx, hc⟩ := find_connected_spec s sid i x h
  have hil : i < (slots s).length := (List.getElem?_eq_some.1 hx).1
  apply find_connected_intro
  · exact find_session_by_id_modify_slot s sid i x f hf hx hid (by rw [hst, hc]; decide)
  · rw [slots_modify_slot_of_some s i f x hx]
    exact List.getElem?_set_self hil
  · rw [hst, hc]

theorem channel_on_cases (sid : Int) (ch : Nat) (s : iotc_state) (hch : ch < 32)
    (hinit : s.initialized = true) :
    (find_connected s sid = none ∧
      IOTC_Session_Channel_ON sid ch s = (IOTC_ER_INVALID_SID, s)) ∨
    (∃ i x, find_connected s sid = some (i, x) ∧
      IOTC_Session_Channel_ON sid ch s =
        (IOTC_ER_NoERROR, modify_slot s i (fun x =>
          modify_channel x ch (fun c => { c with state := .ON })))) := by
  have hge : ¬ (ch ≥ MAX_CHANNEL_NUMBER) := by simp only [MAX_CHANNEL_NUMBER]; omega
  unfold IOTC_Session_Channel_ON
  cases hf : find_connected s sid with
  | none => simp [hinit, hge]
  | some p =>
    obtain ⟨i, x⟩ := p
    right
    exact ⟨i, x, rfl, by simp [hinit, hge]⟩

theorem channel_off_cases (sid : Int) (ch : Nat) (s : iotc_state) (hch : ch < 32)
    (hinit : s.initialized = true) :
    (find_connected s sid = none ∧
      IOTC_Session_Channel_OFF sid ch s = (IOTC_ER_INVALID_SID, s)) ∨
    (∃ i x, find_connected s sid = some (i, x) ∧
      IOTC_Session_Channel_OFF sid ch s =
        (IOTC_ER_NoERROR, modify_slot s i (fun x =>
          modify_channel x ch (fun c =>
            init_channel (cleanup_channel { c with state := .OFF }))))) := by
  have hge : ¬ (ch ≥ MAX_CHANNEL_NUMBER) := by simp only [MAX_CHANNEL_NUMBER]; omega
  unfold IOTC_Session_Channel_OFF
  cases hf : find_connected s sid with
  | none => simp [hinit, hge]
  | some p =>
    obtain ⟨i, x⟩ := p
    right
    exact ⟨i, x, rfl, by simp [hinit, hge]⟩

theorem channel_check_cases (sid : Int) (ch : Nat) (s : iotc_state) (hch : ch < 32)
    (hinit : s.initialized = true) :
    (find_connected s sid = none ∧
      IOTC_Session_Channel_Check_ON_OFF sid ch s = (IOTC_ER_INVALID_SID, s)) ∨
    (∃ i x, find_connected s sid = some (i, x) ∧
      IOTC_Session_Channel_Check_ON_OFF sid ch s =
        ((match x.channels[ch]? with
          | some c => c.state.toInt
          | none => 0), s)) := by
  have hge : ¬ (ch ≥ MAX_CHANNEL_NUMBER) := by simp only [MAX_CHANNEL_NUMBER]; omega
  unfold IOTC_Session_Channel_Check_ON_OFF
  cases hf : find_connected s sid with
  | none => simp [hinit, hge]
  | some p =>
    obtain ⟨i, x⟩ := p
    right
    refine ⟨i, x, rfl, ?_⟩
    simp only [hinit, hge, if_false, Bool.not_true, Bool.false_eq_true]
    cases x.channels[ch]? <;> rfl

theorem free_channel_cases (sid : Int) (s : iotc_state) (hinit : s.initialized = true) :
    (find_connected s sid = none ∧
      IOTC_Session_Get_Free_Channel sid s = (IOTC_ER_INVALID_SID, s)) ∨
    (∃ i x, find_connected s sid = some (i, x) ∧
      IOTC_Session_Get_Free_Channel sid s =
        ((match free_channel_loop (x.channels.take MAX_CHANNEL_NUMBER) with
          | some k => Int.ofNat k
          | none => IOTC_ER_FAIL_SETUP_CHANNEL), s)) := by
  unfold IOTC_Session_Get_Free_Channel
  cases hf : find_connected s sid with
  | none => simp [hinit]
  | some p =>
    obtain ⟨i, x⟩ := p
    right
    refine ⟨i, x, rfl, ?_⟩
    simp only [hinit, if_false, Bool.not_true, Bool.false_eq_true]
    cases free_channel_loop (x.channels.take MAX_CHANNEL_NUMBER) <;> rfl

theorem on_count_cases (sid : Int) (s : iotc_state) (hinit : s.initialized = true) :
    (find_connected s sid = none ∧
      IOTC_Session_Get_Channel_ON_Count sid s = (IOTC_ER_INVALID_SID, s)) ∨
    (∃ i x, find_connected s sid = some (i, x) ∧
      IOTC_Session_Get_Channel_ON_Count sid s =
        (Int.ofNat ((x.channels.take MAX_CHANNEL_NUMBER).countP (fun c => c.state = .ON)),
          s)) := by
  unfold IOTC_Session_Get_Channel_ON_Count
  cases hf : find_connected s sid with
  | none => simp [hinit]
  | some p =>
    obtain ⟨i, x⟩ := p
    right
    exact ⟨i, x, rfl, by simp [hinit]⟩

/-- The channel calls on a handle whose lookup fails (not found, or found in
a state other than `CONNECTED`). -/
theorem channel_ops_not_connected (sid : Int) (ch : Nat) (s : iotc_state) (hch : ch < 32)
    (hinit : s.initialized = true) (hnone : find_connected s sid = none) :
    IOTC_Session_Channel_ON sid ch s = (IOTC_ER_INVALID_SID, s) ∧
    IOTC_Session_Channel_OFF sid ch s = (IOTC_ER_INVALID_SID, s) ∧
    IOTC_Session_Channel_Check_ON_OFF sid ch s = (IOTC_ER_INVALID_SID, s) ∧
    IOTC_Session_Get_Free_Channel sid s = (IOTC_ER_INVALID_SID, s) ∧
    IOTC_Session_Get_Channel_ON_Count sid s = (IOTC_ER_INVALID_SID, s) := by
  refine ⟨?_, ?_, ?_, ?_, ?_⟩
  · rcases channel_on_cases sid ch s hch hinit with ⟨_, h⟩ | ⟨i, x, hs, _⟩
    · exact h
    · rw [hnone] at hs
      cases hs
  · rcases channel_off_cases sid ch s hch hinit with ⟨_, h⟩ | ⟨i, x, hs, _⟩
    · exact h
    · rw [hnone] at hs
      cases hs
  · rcases channel_check_cases sid ch s hch hinit with ⟨_, h⟩ | ⟨i, x, hs, _⟩
    · exact h
    · rw [hnone] at hs
      cases hs
  · rcases free_channel_cases sid s hinit with ⟨_, h⟩ | ⟨i, x, hs, _⟩
    · exact h
    · rw [hnone] at hs
      cases hs
  · rcases on_count_cases sid s hinit with ⟨_, h⟩ | ⟨i, x, hs, _⟩
    · exact h
    · rw [hnone] at hs
      cases hs

theorem keeps_channels_refl (s : iotc_state) : keeps_channels s s :=
  fun _ y hy => ⟨y, hy, rfl⟩

theorem keeps_channels_trans (s t u : iotc_state) (h1 : keeps_channels s t)
    (h2 : keeps_channels t u) : keeps_channels s u := by
  intro i z hz
  obtain ⟨y, hy, e2⟩ := h2 i z hz
  obtain ⟨x, hx, e1⟩ := h1 i y hy
  exact ⟨x, hx, e2.trans e1⟩

theorem keeps_channels_modify_slot (s : iotc_state) (i : Nat)
    (f : session_info_t → session_info_t)
    (hf : ∀ x, (f x).channels.map (·.state) = x.channels.map (·.state)) :
    keeps_channels s (modify_slot s i f) := by
  intro j y hy
  rw [slots_modify_slot] at hy
  cases hx : (slots s)[i]? with
  | none =>
    rw [hx] at hy
    exact ⟨y, hy, rfl⟩
  | some x =>
    rw [hx] at hy
    simp only at hy
    by_cases hij : i = j
    · subst hij
      rw [List.getElem?_set_self (List.getElem?_eq_some.1 hx).1] at hy
      cases hy
      exact ⟨x, hx, hf x⟩
    · rw [List.getElem?_set_ne hij] at hy
      exact ⟨y, hy, rfl⟩

theorem keeps_channels_get (s : iotc_state) : keeps_channels s (IOTC_Get_SessionID s).2 := by
  rcases Bool.eq_false_or_eq_true s.initialized with hinit | hinit
  · rcases get_sessionid_cases s hinit with ⟨_, h⟩ | ⟨i, x, _, _, _, h⟩
    · rw [h]
      exact keeps_channels_refl s
    · rw [h]
      exact keeps_channels_modify_slot s i _ (fun _ => rfl)
  · have : IOTC_Get_SessionID s = (IOTC_ER_NOT_INITIALIZED, s) := by
      simp [IOTC_Get_SessionID, hinit]
    rw [this]
    exact keeps_channels_refl s

theorem not_chan_on_init_session (now : Int) (c : Nat) :
    ¬ chan_on (init_session now calloc_session) c := by
  rw [init_session_calloc]
  unfold chan_on
  simp only [List.getElem?_replicate]
  split <;> simp

theorem slots_after_deinit (s : iotc_state) (hinit : s.initialized = true) :
    slots (IOTC_DeInitialize s).2 = [] := by
  simp [IOTC_DeInitialize, hinit, slots]

theorem set_max_state (n : Nat) (s : iotc_state) :
    (IOTC_Set_Max_Session_Number n s).2 =
      if s.initialized = true then s else { s with max_sessions := toInt32 n } := by
  unfold IOTC_Set_Max_Session_Number
  by_cases h : s.initialized = true
  · rw [if_pos h, if_pos h]
  · rw [if_neg h, if_neg h]

theorem slots_set_max (n : Nat) (s : iotc_state) :
    slots (IOTC_Set_Max_Session_Number n s).2 = slots s := by
  rw [set_max_state]
  by_cases h : s.initialized = true
  · rw [if_pos h]
  · rw [if_neg h]
    simp only [slots]

/-- A channel that is not `ON` before a call and `ON` after it belongs to a
slot that is `CONNECTED` before and after the call. -/
theorem chan_on_step (op : Op) (s : iotc_state) (r : Int × iotc_state)
    (hstep : step op s = some r) (i c : Nat) (x y : session_info_t)
    (hx : (slots s)[i]? = some x) (hy : (slots r.2)[i]? = some y)
    (hoff : ¬ chan_on x c) (hon : chan_on y c) :
    x.state = .CONNECTED ∧ y.state = .CONNECTED := by
  have of_same : r.2 = s → x.state = .CONNECTED ∧ y.state = .CONNECTED := by
    intro h
    rw [h, hx] at hy
    cases hy
    exact absurd hon hoff
  have of_evolves : evolves s r.2 → x.state = .CONNECTED ∧ y.state = .CONNECTED := by
    intro h
    obtain ⟨x', hx', hrel⟩ := h.2.2.2.2 i y hy
    rw [hx] at hx'
    cases hx'
    rcases hrel.2.2.2 c hon with h1 | h1
    · exact absurd h1 hoff
    · exact h1
  have of_keeps : keeps_channels s r.2 → x.state = .CONNECTED ∧ y.state = .CONNECTED := by
    intro h
    obtain ⟨x', hx', he⟩ := h i y hy
    rw [hx] at hx'
    cases hx'
    exact absurd (chan_on_of_states_eq x y c he hon) hoff
  cases op with
  | Initialize alloc_ok now =>
    simp only [step, Option.some.injEq] at hstep
    subst hstep
    rcases Bool.eq_false_or_eq_true s.initialized with hs | hs
    · exact of_same (by rw [initialize_of_initialized alloc_ok now s hs])
    · exfalso
      cases alloc_ok with
      | false =>
        simp [IOTC_Initialize, hs, slots] at hy
      | true =>
        rw [initialize_success now s hs] at hy
        have hm := List.getElem?_mem hy
        simp only [slots, Option.getD_some] at hm
        rw [List.eq_of_mem_replicate hm] at hon
        exact not_chan_on_init_session now c hon
  | DeInitialize =>
    simp only [step, Option.some.injEq] at hstep
    subst hstep
    rcases Bool.eq_false_or_eq_true s.initialized with hs | hs
    · rw [slots_after_deinit s hs] at hy
      simp at hy
    · exact of_same (by simp [IOTC_DeInitialize, hs])
  | Get_SessionID =>
    simp only [step, Option.some.injEq] at hstep
    subst hstep
    exact of_keeps (keeps_channels_get s)
  | Set_Max_Session_Number n =>
    simp only [step, Option.some.injEq] at hstep
    subst hstep
    apply of_keeps
    intro j z hz
    rw [slots_set_max] at hz
    exact ⟨z, hz, rfl⟩
  | Connect_ByUID uid sock now =>
    simp only [step] at hstep
    exact of_same (connect_returns uid sock now s r hstep).1
  | Session_Close sid =>
    simp only [step, Option.some.injEq] at hstep
    subst hstep
    exact of_evolves (evolves_close sid s)
  | Session_Channel_ON sid ch =>
    simp only [step, Option.some.injEq] at hstep
    subst hstep
    exact of_evolves (evolves_channel_on sid ch s)
  | Session_Channel_OFF sid ch =>
    simp only [step, Option.some.injEq] at hstep
    subst hstep
    exact of_evolves (evolves_channel_off sid ch s)
  | Session_Channel_Check_ON_OFF sid ch =>
    simp only [step, Option.some.injEq] at hstep
    subst hstep
    exact of_same (channel_check_state sid ch s)
  | Session_Get_Free_Channel sid =>
    simp only [step, Option.some.injEq] at hstep
    subst hstep
    exact of_same (free_channel_state sid s)
  | Session_Write sid data size ch now =>
    simp only [step, Option.some.injEq] at hstep
    subst hstep
    exact of_evolves (evolves_write sid data size ch now s)
  | Session_Read_Check_Lost_Data_And_Datatype sid buf size timeout lost datatype flags unused now =>
    simp only [step, Option.some.injEq] at hstep
    subst hstep
    exact of_evolves (evolves_read_check sid buf size timeout lost datatype flags unused now s)
  | Session_Read sid buf size timeout flags g0 g1 now =>
    simp only [step, IOTC_Session_Read] at hstep
    split at hstep
    · simp only [Option.some.injEq] at hstep
      subst hstep
      exact of_evolves
        (evolves_read_check sid buf size timeout (some 0) (some 0) flags 0 now s)
    · cases hstep
  | Get_Session_Status sid =>
    simp only [step, Option.some.injEq] at hstep
    subst hstep
    exact of_same (status_state sid s)
  | Session_Check sid =>
    simp only [step, Option.some.injEq] at hstep
    subst hstep
    exact of_same (session_check_state sid s)
  | Session_Get_Channel_ON_Count sid =>
    simp only [step, Option.some.injEq] at hstep
    subst hstep
    exact of_same (on_count_state sid s)
  | Session_Get_Channel_ON_Bitmap sid =>
    simp only [step, Option.some.injEq] at hstep
    subst hstep
    exact of_same (on_bitmap_state sid s)

/-! ## Channel calls -/

theorem channel_bad_index (sid : Int) (ch : Nat) (s : iotc_state) (h : 32 ≤ ch) :
    IOTC_Session_Channel_ON sid ch s = (IOTC_ER_INVALID_ARG, s) ∧
    IOTC_Session_Channel_OFF sid ch s = (IOTC_ER_INVALID_ARG, s) ∧
    IOTC_Session_Channel_Check_ON_OFF sid ch s = (IOTC_ER_INVALID_ARG, s) := by
  have hge : ch ≥ MAX_CHANNEL_NUMBER := h
  refine ⟨?_, ?_, ?_⟩
  · simp only [IOTC_Session_Channel_ON, hge, if_true]
  · simp only [IOTC_Session_Channel_OFF, hge, if_true]
  · simp only [IOTC_Session_Channel_Check_ON_OFF, hge, if_true]

/-- C18: on an initialized table, whenever the status of the handle is not 3
(`CONNECTED`) -- the handle is not found, or its session is in another state
such as `USED` -- channel on, channel off, channel check, free channel and
channel-on count return `-15` (`IOTC_ER_INVALID_SID`) and leave the state
unchanged; channel on / off / check with a channel index of 32 or more return
`-27` (`IOTC_ER_INVALID_ARG`) and leave the state unchanged (on any table);
and across any public call, a channel that was not `ON` before and is `ON`
after belongs to a slot that is `CONNECTED` before and after the call. -/
theorem channel_ops_reject :
    (∀ (sid : Int) (ch : Nat) (s : iotc_state), s.initialized = true → ch < 32 →
      (IOTC_Get_Session_Status sid s).1 ≠ 3 →
      IOTC_Session_Channel_ON sid ch s = (IOTC_ER_INVALID_SID, s) ∧
      IOTC_Session_Channel_OFF sid ch s = (IOTC_ER_INVALID_SID, s) ∧
      IOTC_Session_Channel_Check_ON_OFF sid ch s = (IOTC_ER_INVALID_SID, s) ∧
      IOTC_Session_Get_Free_Channel sid s = (IOTC_ER_INVALID_SID, s) ∧
      IOTC_Session_Get_Channel_ON_Count sid s = (IOTC_ER_INVALID_SID, s)) ∧
    (∀ (sid : Int) (ch : Nat) (s : iotc_state), 32 ≤ ch →
      IOTC_Session_Channel_ON sid ch s = (IOTC_ER_INVALID_ARG, s) ∧
      IOTC_Session_Channel_OFF sid ch s = (IOTC_ER_INVALID_ARG, s) ∧
      IOTC_Session_Channel_Check_ON_OFF sid ch s = (IOTC_ER_INVALID_ARG, s)) ∧
    (∀ (op : Op) (s : iotc_state) (r : Int × iotc_state) (i c : Nat) (x y : session_info_t),
      step op s = some r → (slots s)[i]? = some x → (slots r.2)[i]? = some y →
      ¬ chan_on x c → chan_on y c → x.state = .CONNECTED ∧ y.state = .CONNECTED) := by
  refine ⟨?_, channel_bad_index, ?_⟩
  · intro sid ch s hinit hch hst
    exact channel_ops_not_connected sid ch s hch hinit
      ((find_connected_none_iff sid s hinit).2 hst)
  · intro op s r i c x y hstep hx hy hoff hon
    exact chan_on_step op s r hstep i c x y hx hy hoff hon

/-- Witness for C18: channel on for a handle that is only `USED`, for channel
index 32, and the transition to `ON` of channel 5 of a connected session. -/
theorem channel_ops_reject_witness :
    IOTC_Session_Channel_ON 1 0 (IOTC_Get_SessionID (IOTC_Initialize true 0 g_iotc_state_zero).2).2
      = (-15, (IOTC_Get_SessionID (IOTC_Initialize true 0 g_iotc_state_zero).2).2) ∧
    IOTC_Session_Channel_ON 1 32
      (IOTC_Get_SessionID (IOTC_Initialize true 0 g_iotc_state_zero).2).2
      = (-27, (IOTC_Get_SessionID (IOTC_Initialize true 0 g_iotc_state_zero).2).2) ∧
    (chan_on (((slots (IOTC_Session_Channel_ON 1 5 connected_table).2)[0]?).getD calloc_session) 5 ∧
      (((slots connected_table)[0]?).getD calloc_session).state = .CONNECTED ∧
      (((slots (IOTC_Session_Channel_ON 1 5 connected_table).2)[0]?).getD calloc_session).state
        = .CONNECTED) :=
  ⟨(channel_ops_reject.1 1 0 _ (by decide) (by decide) (by decide)).1,
   (channel_ops_reject.2.1 1 32 _ (by decide)).1,
   by decide,
   channel_ops_reject.2.2 (.Session_Channel_ON 1 5) connected_table
     (IOTC_Session_Channel_ON 1 5 connected_table) 0 5
     (((slots connected_table)[0]?).getD calloc_session)
     (((slots (IOTC_Session_Channel_ON 1 5 connected_table).2)[0]?).getD calloc_session)
     rfl (by decide) (by decide) (by decide) (by decide)⟩

/-- C19 (as stated, refuted): after initialising the all-zero state, the
handle 1 returned by `IOTC_Get_SessionID` is not accepted by the channel
calls: check, on, off and free channel all return `-15`. -/
theorem fresh_handle_channel_ops_refuted :
    (IOTC_Get_SessionID (IOTC_Initialize true 0 g_iotc_state_zero).2).1 = 1 ∧
    results (IOTC_Get_SessionID (IOTC_Initialize true 0 g_iotc_state_zero).2).2
      [.Session_Channel_Check_ON_OFF 1 0, .Session_Channel_ON 1 0,
       .Session_Channel_Check_ON_OFF 1 0, .Session_Channel_OFF 1 0,
       .Session_Get_Free_Channel 1] = [-15, -15, -15, -15, -15] ∧
    ¬ (results (IOTC_Get_SessionID (IOTC_Initialize true 0 g_iotc_state_zero).2).2
      [.Session_Channel_Check_ON_OFF 1 0, .Session_Channel_ON 1 0,
       .Session_Channel_Check_ON_OFF 1 0, .Session_Channel_OFF 1 0,
       .Session_Get_Free_Channel 1] = [0, 0, 1, 0, 0]) := by
  decide

/-- C19 (amended): on an initialized, well-formed table, a handle just
returned by a successful `IOTC_Get_SessionID` (no connect) has status 1
(`USED`), and channel check, channel on, channel off, free channel and
channel-on count on it all return `-15` (`IOTC_ER_INVALID_SID`) and change
nothing. -/
theorem channel_ops_on_fresh_handle (ch : Nat) (s : iotc_state) (hinit : s.initialized = true)
    (hwf : table_wf s) (hch : ch < 32) (hok : 0 ≤ (IOTC_Get_SessionID s).1) :
    (IOTC_Get_Session_Status (IOTC_Get_SessionID s).1 (IOTC_Get_SessionID s).2).1 = 1 ∧
    IOTC_Session_Channel_Check_ON_OFF (IOTC_Get_SessionID s).1 ch (IOTC_Get_SessionID s).2 =
      (IOTC_ER_INVALID_SID, (IOTC_Get_SessionID s).2) ∧
    IOTC_Session_Channel_ON (IOTC_Get_SessionID s).1 ch (IOTC_Get_SessionID s).2 =
      (IOTC_ER_INVALID_SID, (IOTC_Get_SessionID s).2) ∧
    IOTC_Session_Channel_OFF (IOTC_Get_SessionID s).1 ch (IOTC_Get_SessionID s).2 =
      (IOTC_ER_INVALID_SID, (IOTC_Get_SessionID s).2) ∧
    IOTC_Session_Get_Free_Channel (IOTC_Get_SessionID s).1 (IOTC_Get_SessionID s).2 =
      (IOTC_ER_INVALID_SID, (IOTC_Get_SessionID s).2) ∧
    IOTC_Session_Get_Channel_ON_Count (IOTC_Get_SessionID s).1 (IOTC_Get_SessionID s).2 =
      (IOTC_ER_INVALID_SID, (IOTC_Get_SessionID s).2) := by
  rcases get_sessionid_wf s hinit hwf with ⟨_, hfull⟩ |
    ⟨j, x, hj, hx, _, _, _, hr, hi1, hm1, _, hslots, _⟩
  · rw [hfull] at hok
    have hneg : ¬ (0 ≤ IOTC_ER_EXCEED_MAX_SESSION) := by decide
    exact absurd hok hneg
  · have hjl : j < (slots s).length := (List.getElem?_eq_some.1 hx).1
    have hfind := find_session_by_id_fresh s (IOTC_Get_SessionID s).2 s.next_session_id j _
      hwf rfl hm1 hslots hj (by simp) rfl
    have hstatus : (IOTC_Get_Session_Status s.next_session_id (IOTC_Get_SessionID s).2).1 = 1 := by
      rcases status_eq s.next_session_id _ hi1 with ⟨hnone, _⟩ | ⟨k, y, hk, hy, _, _, hst⟩
      · rw [hfind] at hnone
        cases hnone
      · rw [hfind] at hk
        cases hk
        rw [hslots, List.getElem?_set_self hjl] at hy
        cases hy
        rw [hst]
        rfl
    rw [hr]
    have hnone := (find_connected_none_iff s.next_session_id _ hi1).2
      (by rw [hstatus]; decide)
    obtain ⟨h1, h2, h3, h4, h5⟩ :=
      channel_ops_not_connected s.next_session_id ch _ hch hi1 hnone
    exact ⟨hstatus, h3, h1, h2, h4, h5⟩

theorem modify_channel_getElem (x : session_info_t) (c : Nat)
    (f : channel_info_t → channel_info_t) :
    (modify_channel x c f).channels[c]? = (x.channels[c]?).map f := by
  unfold modify_channel
  cases h : x.channels[c]? with
  | none => simp [h]
  | some ch =>
    simp only [Option.map_some']
    exact List.getElem?_set_self (List.getElem?_eq_some.1 h).1

theorem channel_of_wf (s : iotc_state) (hwf : table_wf s) (i c : Nat) (x : session_info_t)
    (hx : (slots s)[i]? = some x) (hc : c < 32) : ∃ ch, x.channels[c]? = some ch := by
  have hlen := hwf.2.2.1 x (List.getElem?_mem hx)
  exact ⟨x.channels[c], List.getElem?_eq_getElem (by omega)⟩

/-- C20: on an initialized, well-formed table and for a channel `c < 32`:
when the status of `h` is 3 (`CONNECTED`), channel on and channel off return
0; whenever channel on returns 0, the channel check made next returns 1 (and
changes nothing); whenever channel off returns 0, the channel check made next
returns 0. -/
theorem channel_on_off_then_check (h : Int) (c : Nat) (s : iotc_state)
    (hinit : s.initialized = true) (hwf : table_wf s) (hc : c < 32) :
    ((IOTC_Get_Session_Status h s).1 = 3 →
      (IOTC_Session_Channel_ON h c s).1 = 0 ∧ (IOTC_Session_Channel_OFF h c s).1 = 0) ∧
    ((IOTC_Session_Channel_ON h c s).1 = 0 →
      IOTC_Session_Channel_Check_ON_OFF h c (IOTC_Session_Channel_ON h c s).2 =
        (1, (IOTC_Session_Channel_ON h c s).2)) ∧
    ((IOTC_Session_Channel_OFF h c s).1 = 0 →
      IOTC_Session_Channel_Check_ON_OFF h c (IOTC_Session_Channel_OFF h c s).2 =
        (0, (IOTC_Session_Channel_OFF h c s).2)) := by
  have hne : ¬ (IOTC_ER_INVALID_SID = (0 : Int)) := by decide
  have key : ∀ (f : channel_info_t → channel_info_t) (i : Nat) (x : session_info_t),
      find_connected s h = some (i, x) →
      IOTC_Session_Channel_Check_ON_OFF h c
          (modify_slot s i (fun x => modify_channel x c f)) =
        ((match (x.channels[c]?).map f with
          | some ch => ch.state.toInt
          | none => 0), modify_slot s i (fun x => modify_channel x c f)) := by
    intro f i x hf
    have hf2 := find_connected_modify_slot s h i x (fun x => modify_channel x c f) hf rfl rfl
    rcases channel_check_cases h c (modify_slot s i (fun x => modify_channel x c f)) hc hinit
      with ⟨hnone, _⟩ | ⟨k, y, hk, hres⟩
    · rw [hf2] at hnone
      cases hnone
    · rw [hf2] at hk
      cases hk
      rw [hres, modify_channel_getElem]
  refine ⟨?_, ?_, ?_⟩
  · intro hst
    have hsome : find_connected s h ≠ none := by
      intro hn
      exact (find_connected_none_iff h s hinit).1 hn hst
    constructor
    · rcases channel_on_cases h c s hc hinit with ⟨hn, _⟩ | ⟨i, x, _, hres⟩
      · exact absurd hn hsome
      · rw [hres]
    · rcases channel_off_cases h c s hc hinit with ⟨hn, _⟩ | ⟨i, x, _, hres⟩
      · exact absurd hn hsome
      · rw [hres]
  · intro h0
    rcases channel_on_cases h c s hc hinit with ⟨_, hres⟩ | ⟨i, x, hf, hres⟩
    · rw [hres] at h0
      exact absurd h0 hne
    · obtain ⟨_, hx, _⟩ := find_connected_spec s h i x hf
      obtain ⟨ch, hch⟩ := channel_of_wf s hwf i c x hx hc
      rw [hres]
      simp only
      rw [key _ i x hf, hch]
      rfl
  · intro h0
    rcases channel_off_cases h c s hc hinit with ⟨_, hres⟩ | ⟨i, x, hf, hres⟩
    · rw [hres] at h0
      exact absurd h0 hne
    · obtain ⟨_, hx, _⟩ := find_connected_spec s h i x hf
      obtain ⟨ch, hch⟩ := channel_of_wf s hwf i c x hx hc
      rw [hres]
      simp only
      rw [key _ i x hf, hch]
      rfl

/-! ## Helper lemmas: the allocator at the end of the `int` range -/

theorem run_append (a b : List Op) :
    ∀ (s s' : iotc_state), run s a = some s' → run s (a ++ b) = run s' b := by
  induction a with
  | nil =>
    intro s s' h
    simp only [run, Option.some.injEq] at h
    subst h
    rfl
  | cons op a ih =>
    intro s s' h
    cases hstep : step op s with
    | none => simp [run, hstep] at h
    | some r =>
      simp only [run, hstep] at h
      simp only [List.cons_append, run, hstep]
      exact ih r.2 s' h

theorem handles_append (a b : List Op) :
    ∀ (s s' : iotc_state), run s a = some s' →
      handles s (a ++ b) = handles s a ++ handles s' b := by
  induction a with
  | nil =>
    intro s s' h
    simp only [run, Option.some.injEq] at h
    subst h
    rfl
  | cons op a ih =>
    intro s s' h
    cases hstep : step op s with
    | none => simp [run, hstep] at h
    | some r =>
      simp only [run, hstep] at h
      simp only [List.cons_append, handles, hstep, List.append_assoc]
      have := ih r.2 s' h
      simp only [List.append_eq] at this ⊢
      rw [this]

theorem cleanup_fresh_channels :
    (List.take MAX_CHANNEL_NUMBER (init_session 0 calloc_session).channels).map cleanup_channel ++
      List.drop MAX_CHANNEL_NUMBER (init_session 0 calloc_session).channels =
    (init_session 0 calloc_session).channels := by
  decide

theorem cleanup_used_fresh (n : Nat) :
    cleanup_session { init_session 0 calloc_session with state := .USED, session_id := n } =
      { init_session 0 calloc_session with session_id := n } := by
  unfold cleanup_session
  simp only [cleanup_fresh_channels]
  rfl

theorem get_sessionid_at (s : iotc_state) (i : Nat) (x : session_info_t)
    (hinit : s.initialized = true)
    (hi : i < s.max_sessions.toNat) (hx : (slots s)[i]? = some x) (hxs : x.state = .FREE)
    (hlow : ∀ j, j < i → ∀ y, (slots s)[j]? = some y → y.state ≠ .FREE) :
    (IOTC_Get_SessionID s).1 = toInt32 (toUInt32 s.next_session_id) ∧
    (IOTC_Get_SessionID s).2.initialized = true ∧
    (IOTC_Get_SessionID s).2.max_sessions = s.max_sessions ∧
    (IOTC_Get_SessionID s).2.next_session_id = toInt32 (s.next_session_id + 1) ∧
    slots (IOTC_Get_SessionID s).2 =
      (slots s).set i { x with state := .USED, session_id := toUInt32 s.next_session_id } := by
  have hf := find_free_session_lowest s i x hi hx hxs hlow
  rcases get_sessionid_cases s hinit with ⟨hnone, _⟩ | ⟨k, z, hk, _, _, h⟩
  · rw [hf] at hnone
    cases hnone
  · rw [hf] at hk
    cases hk
    rw [h]
    exact ⟨rfl, hinit, rfl, rfl, slots_modify_slot_of_some s i _ x hx⟩

theorem toNat_sixteen : (16 : Int).toNat = 16 := rfl

/-- One round of `churn`. -/
theorem churn_round (k : Nat) (s : iotc_state) (hs : churned k s) (hk : k + 2 ≤ 2147483647) :
    ∃ s', run s [.Get_SessionID, .Session_Close (Int.ofNat (k + 1))] = some s' ∧
      churned (k + 1) s' ∧
      handles s [.Get_SessionID, .Session_Close (Int.ofNat (k + 1))] = [Int.ofNat (k + 1)] := by
  obtain ⟨hinit, hmax, hnext, hslots⟩ := hs
  have hx0 : (slots s)[0]? = some { init_session 0 calloc_session with session_id := k } := by
    rw [hslots]
    rfl
  obtain ⟨hr, hi1, hm1, hn1, hsl1⟩ := get_sessionid_at s 0 _ hinit
    (by rw [hmax, toNat_sixteen]; decide) hx0 rfl (fun j hj => absurd hj (Nat.not_lt_zero j))
  have hcast : (Int.ofNat k + 1 : Int) = Int.ofNat (k + 1) := by
    simp only [Int.ofNat_eq_coe]
    push_cast
    rfl
  rw [hnext, hcast] at hr hn1 hsl1
  have hu : toUInt32 (Int.ofNat (k + 1)) = k + 1 := by
    unfold toUInt32
    simp only [Int.ofNat_eq_coe]
    omega
  have hr2 : (IOTC_Get_SessionID s).1 = Int.ofNat (k + 1) := by
    rw [hr, hu]
    exact toInt32_of_range _ (by omega) (by omega)
  have hn2 : (IOTC_Get_SessionID s).2.next_session_id = Int.ofNat (k + 1) + 1 := by
    rw [hn1]
    exact toInt32_of_range _ (by simp only [Int.ofNat_eq_coe]; omega)
      (by simp only [Int.ofNat_eq_coe]; omega)
  rw [hu, hslots] at hsl1
  simp only [List.set_cons_zero] at hsl1
  have hx1 : (slots (IOTC_Get_SessionID s).2)[0]? =
      some { init_session 0 calloc_session with state := .USED, session_id := k + 1 } := by
    rw [hsl1]
    rfl
  have hfind : find_session_by_id (IOTC_Get_SessionID s).2 (Int.ofNat (k + 1)) = some 0 := by
    apply find_session_by_id_lowest _ _ 0 _ _ hx1
    · exact ⟨by simp, by rw [hu]⟩
    · intro j hj
      exact absurd hj (Nat.not_lt_zero j)
    · rw [hm1, hmax, toNat_sixteen]
      decide
  have hclose : IOTC_Session_Close (Int.ofNat (k + 1)) (IOTC_Get_SessionID s).2 =
      (IOTC_ER_NoERROR, modify_slot (IOTC_Get_SessionID s).2 0 cleanup_session) := by
    rcases close_cases (Int.ofNat (k + 1)) _ hi1 with ⟨hnone, _⟩ | ⟨i, hf, hcl⟩
    · rw [hfind] at hnone
      cases hnone
    · rw [hfind] at hf
      cases hf
      exact hcl
  refine ⟨modify_slot (IOTC_Get_SessionID s).2 0 cleanup_session, ?_, ?_, ?_⟩
  · simp only [run, step, hclose]
  · refine ⟨hi1, hm1.trans hmax, hn2, ?_⟩
    rw [slots_modify_slot_of_some _ 0 _ _ hx1, hsl1]
    simp only [List.set_cons_zero]
    rw [cleanup_used_fresh]
  · have hpos : (0 : Int) ≤ Int.ofNat (k + 1) := Int.ofNat_nonneg _
    simp only [handles, allocation, step, hr2, hpos, if_true, Option.toList, List.append_nil,
      List.singleton_append]

theorem fresh_churned (s : iotc_state) (hs : s.initialized = false) :
    churned 0 (IOTC_Initialize true 0 s).2 := by
  rw [initialize_success 0 s hs]
  exact ⟨rfl, rfl, rfl, rfl⟩

theorem churn_run (k : Nat) :
    ∀ s : iotc_state, churned 0 s → k + 1 ≤ 2147483647 →
      ∃ s', run s (churn k) = some s' ∧ churned k s' ∧ (handles s (churn k)).length = k := by
  induction k with
  | zero =>
    intro s hs _
    exact ⟨s, rfl, hs, rfl⟩
  | succ k ih =>
    intro s hs hk
    obtain ⟨s1, hrun1, hc1, hlen1⟩ := ih s hs (by omega)
    obtain ⟨s2, hrun2, hc2, hh2⟩ := churn_round k s1 hc1 (by omega)
    refine ⟨s2, ?_, hc2, ?_⟩
    · simp only [churn]
      rw [run_append _ _ s s1 hrun1]
      exact hrun2
    · simp only [churn]
      rw [handles_append _ _ s s1 hrun1, List.length_append, hlen1, hh2]
      rfl

/-! ## The handle invariant -/

/-- C14 (as stated, refuted): 2147483646 rounds of allocate-and-close followed
by one more allocation are 2147483647 (fewer than `2^31`) allocations after a
successful initialisation; in the state they reach, an occupied slot carries
a handle that is not smaller than the allocator's next value (the `int`
counter has wrapped). -/
theorem allocator_wraps_at_int_max :
    ∃ s, run (IOTC_Initialize true 0 g_iotc_state_zero).2
        (churn 2147483646 ++ [.Get_SessionID]) = some s ∧
      (handles (IOTC_Initialize true 0 g_iotc_state_zero).2
        (churn 2147483646 ++ [.Get_SessionID])).length = 2147483647 ∧
      s.initialized = true ∧
      ∃ x ∈ slots s, x.state ≠ .FREE ∧ ¬ ((x.session_id : Int) < s.next_session_id) := by
  obtain ⟨s1, hrun, ⟨hinit, hmax, hnext, hslots⟩, hlen⟩ :=
    churn_run 2147483646 (IOTC_Initialize true 0 g_iotc_state_zero).2
      (fresh_churned g_iotc_state_zero rfl) (by norm_num)
  have hx0 : (slots s1)[0]? =
      some { init_session 0 calloc_session with session_id := 2147483646 } := by
    rw [hslots]
    rfl
  obtain ⟨hr, hi1, _, hn1, hsl1⟩ := get_sessionid_at s1 0 _ hinit
    (by rw [hmax, toNat_sixteen]; decide) hx0 rfl (fun j hj => absurd hj (Nat.not_lt_zero j))
  have hnext2 : s1.next_session_id = 2147483647 := by
    rw [hnext]
    norm_num
  rw [hnext2] at hr hn1 hsl1
  have hu : toUInt32 2147483647 = 2147483647 := by decide
  have hw : toInt32 (2147483647 + 1) = -2147483648 := by decide
  have hv : toInt32 (2147483647 : Nat) = 2147483647 := by decide
  rw [hu] at hr hsl1
  rw [hw] at hn1
  rw [hv] at hr
  refine ⟨(IOTC_Get_SessionID s1).2, ?_, ?_, hi1, ?_⟩
  · rw [run_append _ _ _ s1 hrun]
    rfl
  · rw [handles_append _ _ _ s1 hrun, List.length_append, hlen]
    have hpos : (0 : Int) ≤ 2147483647 := by decide
    simp only [handles, allocation, step, hr, hpos, if_true, Option.toList, List.append_nil,
      List.length_singleton]
  · refine ⟨{ init_session 0 calloc_session with
      state := .USED, session_id := 2147483647 }, ?_, by simp, ?_⟩
    · rw [hsl1, hslots]
      simp
    · rw [hn1]
      simp only
      norm_num

/-- C14 (amended): in every state reached from a table that is not
initialized by public calls (initialisation, teardown and re-initialisation
included) that allocate fewer than `2^31 - 1` handles in total, if the table
is initialized then every non-`FREE` slot carries a handle that is at least 1
and smaller than the allocator's next value, two different non-`FREE` slots
never carry the same handle, and the lookup of a handle carried by a
non-`FREE` slot finds exactly that slot. -/
theorem reachable_handles_distinct (s0 : iotc_state) (ops : List Op) (s : iotc_state)
    (h0 : s0.initialized = false) (hlen : (handles s0 ops).length + 1 < 2147483648)
    (hrun : run s0 ops = some s) (hi : s.initialized = true) :
    (∀ x ∈ slots s, x.state ≠ .FREE →
      1 ≤ x.session_id ∧ (x.session_id : Int) < s.next_session_id) ∧
    (∀ (i j : Nat) (x y : session_info_t), (slots s)[i]? = some x → (slots s)[j]? = some y →
      x.state ≠ .FREE → y.state ≠ .FREE → x.session_id = y.session_id → i = j) ∧
    (∀ (h : Int) (i : Nat) (x : session_info_t), (slots s)[i]? = some x → x.state ≠ .FREE →
      x.session_id = toUInt32 h → find_session_by_id s h = some i) := by
  have hwf := table_wf_of_run s0 ops s h0 hlen hrun hi
  exact ⟨hwf.2.2.2.2.2.2.1, hwf.2.2.2.2.2.2.2,
    fun h i x hx hxs hid => find_session_by_id_of_wf s h i x hwf hx hxs hid⟩

/-- Witness for C14 (amended): the full table of 16 sessions. -/
theorem reachable_handles_distinct_witness :
    find_session_by_id full_table 3 = some 2 :=
  (reachable_handles_distinct g_iotc_state_zero
    (.Initialize true 0 :: List.replicate 16 .Get_SessionID) full_table rfl (by decide)
    (by decide) (by decide)).2.2 3 2
    (((slots full_table)[2]?).getD calloc_session) (by decide) (by decide) (by decide)

/-! ## Sample states are well-formed -/

theorem fresh_table_wf : table_wf (IOTC_Initialize true 0 g_iotc_state_zero).2 :=
  initialize_wf 0 g_iotc_state_zero rfl

theorem connected_table_wf : table_wf connected_table := by
  have h1 : table_wf (IOTC_Get_SessionID (IOTC_Initialize true 0 g_iotc_state_zero).2).2 :=
    table_wf_of_run g_iotc_state_zero [.Initialize true 0, .Get_SessionID] _ rfl (by decide)
      (by decide) (by decide)
  refine table_wf_of_evolves _ _ h1 (evolves_modify_slot _ 0 _ ?_)
  intro x hx
  have hs : ((slots (IOTC_Get_SessionID (IOTC_Initialize true 0 g_iotc_state_zero).2).2)[0]?).map
      (fun y => y.state) = some .USED := by decide
  rw [hx] at hs
  simp only [Option.map_some', Option.some.injEq] at hs
  refine ⟨rfl, rfl, Or.inr (Or.inr ⟨?_, rfl⟩), fun c h => Or.inl h⟩
  rw [hs]
  decide

/-- Witness for C12: closing the connected handle 1, and closing the unknown
handle 7. -/
theorem close_spec_witness :
    ((IOTC_Session_Close 1 connected_table).1 = 0 ∧
      (IOTC_Get_Session_Status 1 (IOTC_Session_Close 1 connected_table).2).1 = -15) ∧
    IOTC_Session_Close 7 connected_table = (-15, connected_table) :=
  ⟨⟨((close_spec 1 connected_table (by decide) connected_table_wf).1 (by decide)).1,
    ((close_spec 1 connected_table (by decide) connected_table_wf).1 (by decide)).2.2.1⟩,
   (close_spec 7 connected_table (by decide) connected_table_wf).2 (by decide)⟩

/-- Witness for C16: the first connect on a fresh table, which is well-formed
and has a `FREE` slot, with a socket that opens. -/
theorem connect_success_never_returns_witness :
    table_wf (IOTC_Initialize true 0 g_iotc_state_zero).2 ∧
    (∃ x ∈ slots (IOTC_Initialize true 0 g_iotc_state_zero).2, x.state = .FREE) ∧
    IOTC_Connect_ByUID (some (List.replicate 20 65)) 3 0
      (IOTC_Initialize true 0 g_iotc_state_zero).2 = none ∧
    run g_iotc_state_zero
      [.Initialize true 0, .Connect_ByUID (some (List.replicate 20 65)) 3 0] = none :=
  ⟨fresh_table_wf, by decide,
   (connect_success_never_returns (List.replicate 20 65) 3 0
      (IOTC_Initialize true 0 g_iotc_state_zero).2 (by decide) (by decide)).2.1,
   by decide⟩

/-- Witness for C17: a connect whose socket cannot be created, on a table
with one connected session and fifteen `FREE` slots. -/
theorem connect_socket_failure_unreachable_witness :
    table_wf connected_table ∧ (∃ x ∈ slots connected_table, x.state = .FREE) ∧
    IOTC_Connect_ByUID (some (List.replicate 20 66)) (-1) 0 connected_table = none :=
  ⟨connected_table_wf, by decide,
   (connect_socket_failure_unreachable (some (List.replicate 20 66)) (-1) 0 connected_table).2.1
      (List.replicate 20 66) rfl (by decide) (by decide) (by decide)⟩

/-- Witness for C19 (amended): the first handle of a fresh table. -/
theorem channel_ops_on_fresh_handle_witness :
    (IOTC_Get_SessionID (IOTC_Initialize true 0 g_iotc_state_zero).2).1 = 1 ∧
    IOTC_Session_Channel_ON (IOTC_Get_SessionID (IOTC_Initialize true 0 g_iotc_state_zero).2).1 0
      (IOTC_Get_SessionID (IOTC_Initialize true 0 g_iotc_state_zero).2).2 =
      (-15, (IOTC_Get_SessionID (IOTC_Initialize true 0 g_iotc_state_zero).2).2) :=
  ⟨by decide,
   (channel_ops_on_fresh_handle 0 (IOTC_Initialize true 0 g_iotc_state_zero).2 (by decide)
      fresh_table_wf (by decide) (by decide)).2.2.1⟩

/-- Witness for C20: channel 0 of the connected handle 1. -/
theorem channel_on_off_then_check_witness :
    (IOTC_Session_Channel_ON 1 0 connected_table).1 = 0 ∧
    IOTC_Session_Channel_Check_ON_OFF 1 0 (IOTC_Session_Channel_ON 1 0 connected_table).2 =
      (1, (IOTC_Session_Channel_ON 1 0 connected_table).2) ∧
    IOTC_Session_Channel_Check_ON_OFF 1 0 (IOTC_Session_Channel_OFF 1 0 connected_table).2 =
      (0, (IOTC_Session_Channel_OFF 1 0 connected_table).2) :=
  ⟨((channel_on_off_then_check 1 0 connected_table (by decide) connected_table_wf
      (by decide)).1 (by decide)).1,
   (channel_on_off_then_check 1 0 connected_table (by decide) connected_table_wf
      (by decide)).2.1 (by decide),
   (channel_on_off_then_check 1 0 connected_table (by decide) connected_table_wf
      (by decide)).2.2 (by decide)⟩

/-! ## Helper lemmas: rewriting a slot or a channel -/

theorem list_set_of_getElem? {α : Type} (l : List α) (i : Nat) (x : α) (h : l[i]? = some x) :
    l.set i x = l := by
  apply List.ext_getElem?
  intro n
  by_cases hn : i = n
  · subst hn
    rw [List.getElem?_set_self (List.getElem?_eq_some.1 h).1, h]
  · rw [List.getElem?_set_ne hn]

theorem modify_slot_self (s : iotc_state) (i : Nat) (f : session_info_t → session_info_t)
    (x : session_info_t) (hx : (slots s)[i]? = some x) (hf : f x = x) :
    modify_slot s i f = s := by
  obtain ⟨a, ss, m, n⟩ := s
  cases ss with
  | none => simp [slots] at hx
  | some l =>
    simp only [slots, Option.getD_some] at hx
    simp only [modify_slot, Option.map_some', hx, hf, list_set_of_getElem? l i x hx]

theorem modify_channel_getElem_ne (x : session_info_t) (c c' : Nat)
    (f : channel_info_t → channel_info_t) (h : c ≠ c') :
    (modify_channel x c f).channels[c']? = x.channels[c']? := by
  unfold modify_channel
  cases hch : x.channels[c]? with
  | none => rfl
  | some ch =>
    simp only
    exact List.getElem?_set_ne h

theorem modify_channel_self (x : session_info_t) (c : Nat)
    (f : channel_info_t → channel_info_t) (ch : channel_info_t)
    (hch : x.channels[c]? = some ch) (hf : f ch = ch) : modify_channel x c f = x := by
  obtain ⟨st, uid, fd, sid, chs, la⟩ := x
  simp only at hch
  simp only [modify_channel, hch, hf, list_set_of_getElem? chs c ch hch]

theorem channel_of_some (s : iotc_state) (h : Int) (c : Nat) (ch : channel_info_t)
    (hch : channel_of s h c = some ch) :
    ∃ i x, find_connected s h = some (i, x) ∧ x.channels[c]? = some ch := by
  unfold channel_of at hch
  cases hf : find_connected s h with
  | none => simp [hf] at hch
  | some p =>
    obtain ⟨i, x⟩ := p
    rw [hf] at hch
    exact ⟨i, x, rfl, hch⟩

theorem channel_of_intro (s : iotc_state) (h : Int) (c i : Nat) (x : session_info_t)
    (hf : find_connected s h = some (i, x)) : channel_of s h c = x.channels[c]? := by
  unfold channel_of
  rw [hf]

theorem channel_of_modify (s : iotc_state) (h : Int) (c i : Nat) (x : session_info_t)
    (f : channel_info_t → channel_info_t) (hf : find_connected s h = some (i, x)) :
    channel_of (modify_slot s i (fun x => modify_channel x c f)) h c =
      (x.channels[c]?).map f := by
  rw [channel_of_intro _ h c i _
    (find_connected_modify_slot s h i x (fun x => modify_channel x c f) hf rfl rfl)]
  exact modify_channel_getElem x c f

theorem channel_call_lt (c : Nat) (hc : ¬ (c ≥ MAX_CHANNEL_NUMBER)) : c < 32 := by
  simp only [MAX_CHANNEL_NUMBER] at hc
  omega

theorem channel_on_ok (h : Int) (c : Nat) (s : iotc_state)
    (hok : (IOTC_Session_Channel_ON h c s).1 = 0) :
    s.initialized = true ∧ c < 32 ∧ ∃ i x, find_connected s h = some (i, x) ∧
      IOTC_Session_Channel_ON h c s =
        (0, modify_slot s i (fun x => modify_channel x c (fun ch => { ch with state := .ON }))) := by
  unfold IOTC_Session_Channel_ON at hok ⊢
  by_cases hc : c ≥ MAX_CHANNEL_NUMBER
  · rw [if_pos hc] at hok
    exact absurd hok (show ¬ (IOTC_ER_INVALID_ARG = (0 : Int)) by decide)
  · rw [if_neg hc] at hok ⊢
    rcases Bool.eq_false_or_eq_true s.initialized with hi | hi
    · simp only [hi, Bool.not_true, Bool.false_eq_true, if_false] at hok ⊢
      cases hf : find_connected s h with
      | none =>
        rw [hf] at hok
        exact absurd hok (show ¬ (IOTC_ER_INVALID_SID = (0 : Int)) by decide)
      | some p =>
        obtain ⟨i, x⟩ := p
        exact ⟨trivial, channel_call_lt c hc, i, x, rfl, rfl⟩
    · simp only [hi, Bool.not_false, if_true] at hok
      exact absurd hok (show ¬ (IOTC_ER_NOT_INITIALIZED = (0 : Int)) by decide)

theorem channel_off_ok (h : Int) (c : Nat) (s : iotc_state)
    (hok : (IOTC_Session_Channel_OFF h c s).1 = 0) :
    s.initialized = true ∧ c < 32 ∧ ∃ i x, find_connected s h = some (i, x) ∧
      IOTC_Session_Channel_OFF h c s =
        (0, modify_slot s i (fun x => modify_channel x c (fun ch =>
          init_channel (cleanup_channel { ch with state := .OFF })))) := by
  unfold IOTC_Session_Channel_OFF at hok ⊢
  by_cases hc : c ≥ MAX_CHANNEL_NUMBER
  · rw [if_pos hc] at hok
    exact absurd hok (show ¬ (IOTC_ER_INVALID_ARG = (0 : Int)) by decide)
  · rw [if_neg hc] at hok ⊢
    rcases Bool.eq_false_or_eq_true s.initialized with hi | hi
    · simp only [hi, Bool.not_true, Bool.false_eq_true, if_false] at hok ⊢
      cases hf : find_connected s h with
      | none =>
        rw [hf] at hok
        exact absurd hok (show ¬ (IOTC_ER_INVALID_SID = (0 : Int)) by decide)
      | some p =>
        obtain ⟨i, x⟩ := p
        exact ⟨trivial, channel_call_lt c hc, i, x, rfl, rfl⟩
    · simp only [hi, Bool.not_false, if_true] at hok
      exact absurd hok (show ¬ (IOTC_ER_NOT_INITIALIZED = (0 : Int)) by decide)

/-! ## Helper lemmas: lookups after a channel update -/

theorem find_session_by_id_loop_congr (sid : Int) (l l' : List session_info_t)
    (h : l.map (fun x => (x.state, x.session_id)) = l'.map (fun x => (x.state, x.session_id))) :
    find_session_by_id_loop sid l = find_session_by_id_loop sid l' := by
  induction l generalizing l' with
  | nil =>
    cases l' with
    | nil => rfl
    | cons b l' => simp at h
  | cons a l ih =>
    cases l' with
    | nil => simp at h
    | cons b l' =>
      simp only [List.map_cons, List.cons.injEq, Prod.mk.injEq] at h
      obtain ⟨⟨hst, hid⟩, htl⟩ := h
      unfold find_session_by_id_loop
      rw [hst, hid, ih l' htl]

theorem find_session_by_id_modify_keys (s : iotc_state) (sid : Int) (i : Nat)
    (f : session_info_t → session_info_t)
    (hf : ∀ x, (f x).state = x.state ∧ (f x).session_id = x.session_id) :
    find_session_by_id (modify_slot s i f) sid = find_session_by_id s sid := by
  unfold find_session_by_id
  rw [modify_slot_max]
  apply find_session_by_id_loop_congr
  rw [slots_modify_slot]
  cases hx : (slots s)[i]? with
  | none => rfl
  | some x =>
    simp only
    rw [List.map_take, List.map_take, List.map_set, (hf x).1, (hf x).2]
    congr 1
    apply list_set_of_getElem?
    rw [List.getElem?_map, hx]
    rfl

theorem find_connected_modify_channel (s : iotc_state) (sid : Int) (i c : Nat)
    (g : channel_info_t → channel_info_t) :
    find_connected (modify_slot s i (fun x => modify_channel x c g)) sid =
      (find_connected s sid).map
        (fun p => (p.1, if p.1 = i then modify_channel p.2 c g else p.2)) := by
  unfold find_connected
  rw [find_session_by_id_modify_keys s sid i (fun x => modify_channel x c g) (fun x => ⟨rfl, rfl⟩)]
  cases hk : find_session_by_id s sid with
  | none => rfl
  | some k =>
    simp only
    rw [slots_modify_slot]
    cases hx : (slots s)[i]? with
    | none =>
      simp only
      cases hy : (slots s)[k]? with
      | none => rfl
      | some y =>
        have hki : k ≠ i := by
          rintro rfl
          rw [hx] at hy
          cases hy
        by_cases hc : y.state = .CONNECTED
        · simp [hc, hki]
        · simp [hc]
    | some x =>
      simp only
      by_cases hki : k = i
      · subst hki
        rw [List.getElem?_set_self (List.getElem?_eq_some.1 hx).1, hx]
        by_cases hc : x.state = .CONNECTED
        · have hc' : (modify_channel x c g).state = .CONNECTED := hc
          simp [hc, hc']
        · have hc' : ¬ (modify_channel x c g).state = .CONNECTED := hc
          simp [hc, hc']
      · rw [List.getElem?_set_ne (Ne.symm hki)]
        cases hy : (slots s)[k]? with
        | none => rfl
        | some y =>
          by_cases hc : y.state = .CONNECTED
          · simp [hc, hki]
          · simp [hc]

theorem find_session_by_id_handle (s : iotc_state) (h h' : Int) (i : Nat)
    (hf : find_session_by_id s h = some i) (hf' : find_session_by_id s h' = some i) :
    toUInt32 h' = toUInt32 h := by
  obtain ⟨x, hx, _, hid⟩ := find_session_by_id_some s h i hf
  obtain ⟨y, hy, _, hid'⟩ := find_session_by_id_some s h' i hf'
  rw [hx] at hy
  cases hy
  rw [← hid, ← hid']

/-- Channel `c'` of the session found for `h'` is untouched by an update of
channel `c` of the session in slot `i` when `h'` is not found in slot `i` or
`c'` is another channel. -/
theorem find_connected_modify_channel_other (s : iotc_state) (h' : Int) (i c c' : Nat)
    (g : channel_info_t → channel_info_t)
    (hne : find_session_by_id s h' ≠ some i ∨ c' ≠ c) :
    (find_connected (modify_slot s i (fun x => modify_channel x c g)) h').map
        (fun p => p.2.channels[c']?) =
      (find_connected s h').map (fun p => p.2.channels[c']?) := by
  rw [find_connected_modify_channel]
  cases hf : find_connected s h' with
  | none => rfl
  | some p =>
    obtain ⟨k, y⟩ := p
    simp only [Option.map_some', Option.some.injEq]
    by_cases hki : k = i
    · subst hki
      rw [if_pos rfl]
      rcases hne with hne | hne
      · exact absurd (find_connected_spec s h' k y hf).1 hne
      · exact modify_channel_getElem_ne y c c' g (Ne.symm hne)
    · rw [if_neg hki]

theorem channel_of_eq_map (s : iotc_state) (h : Int) (c : Nat) :
    channel_of s h c = ((find_connected s h).map (fun p => p.2.channels[c]?)).join := by
  unfold channel_of
  cases find_connected s h <;> rfl

theorem channel_check_eq_map (h : Int) (c : Nat) (s : iotc_state) :
    (IOTC_Session_Channel_Check_ON_OFF h c s).1 =
      if c ≥ MAX_CHANNEL_NUMBER then IOTC_ER_INVALID_ARG
      else if !s.initialized then IOTC_ER_NOT_INITIALIZED
      else match (find_connected s h).map (fun p => p.2.channels[c]?) with
        | none => IOTC_ER_INVALID_SID
        | some (some ch) => ch.state.toInt
        | some none => 0 := by
  unfold IOTC_Session_Channel_Check_ON_OFF
  by_cases hc : c ≥ MAX_CHANNEL_NUMBER
  · rw [if_pos hc, if_pos hc]
  · rw [if_neg hc, if_neg hc]
    rcases Bool.eq_false_or_eq_true s.initialized with hi | hi
    · simp only [hi, Bool.not_true, Bool.false_eq_true, if_false]
      cases hf : find_connected s h with
      | none => rfl
      | some p =>
        obtain ⟨i, x⟩ := p
        simp only [Option.map_some']
        cases x.channels[c]? <;> rfl
    · simp only [hi, Bool.not_false, if_true]

theorem channel_on_of_on (h : Int) (c : Nat) (s : iotc_state)
    (hinit : s.initialized = true) (hc : c < 32) (ch : channel_info_t)
    (hch : channel_of s h c = some ch) (hon : ch.state = .ON) :
    IOTC_Session_Channel_ON h c s = (0, s) := by
  obtain ⟨i, x, hf, hx⟩ := channel_of_some s h c ch hch
  rcases channel_on_cases h c s hc hinit with ⟨hn, _⟩ | ⟨i', x', hf', hr⟩
  · rw [hn] at hf
    cases hf
  · rw [hf] at hf'
    cases hf'
    rw [hr, modify_slot_self s i _ x (find_connected_spec s h i x hf).2.1
      (modify_channel_self x c _ ch hx (by
        obtain ⟨st, n, q⟩ := ch
        simp only at hon
        rw [hon]))]

theorem channel_off_of_reset (h : Int) (c : Nat) (s : iotc_state)
    (hinit : s.initialized = true) (hc : c < 32)
    (hch : channel_of s h c = some { state := .OFF, next_seq_id := 1, msg_queue := [] }) :
    IOTC_Session_Channel_OFF h c s = (0, s) := by
  obtain ⟨i, x, hf, hx⟩ := channel_of_some s h c _ hch
  rcases channel_off_cases h c s hc hinit with ⟨hn, _⟩ | ⟨i', x', hf', hr⟩
  · rw [hn] at hf
    cases hf
  · rw [hf] at hf'
    cases hf'
    rw [hr, modify_slot_self s i _ x (find_connected_spec s h i x hf).2.1
      (modify_channel_self x c _ _ hx rfl)]

theorem channel_on_of_channel (h : Int) (c : Nat) (s : iotc_state)
    (hinit : s.initialized = true) (hc : c < 32) (ch : channel_info_t)
    (hch : channel_of s h c = some ch) :
    (IOTC_Session_Channel_ON h c s).1 = 0 ∧
    (IOTC_Session_Channel_ON h c s).2.initialized = true ∧
    channel_of (IOTC_Session_Channel_ON h c s).2 h c = some { ch with state := .ON } := by
  obtain ⟨i, x, hf, hx⟩ := channel_of_some s h c ch hch
  rcases channel_on_cases h c s hc hinit with ⟨hn, _⟩ | ⟨i', x', hf', hr⟩
  · rw [hn] at hf
    cases hf
  · rw [hf] at hf'
    cases hf'
    rw [hr]
    refine ⟨rfl, hinit, ?_⟩
    show channel_of (modify_slot s i _) h c = _
    rw [channel_of_modify s h c i x _ hf, hx]
    rfl

theorem channel_off_of_channel (h : Int) (c : Nat) (s : iotc_state)
    (hinit : s.initialized = true) (hc : c < 32) (ch : channel_info_t)
    (hch : channel_of s h c = some ch) :
    (IOTC_Session_Channel_OFF h c s).1 = 0 ∧
    (IOTC_Session_Channel_OFF h c s).2.initialized = true ∧
    channel_of (IOTC_Session_Channel_OFF h c s).2 h c =
      some { state := .OFF, next_seq_id := 1, msg_queue := [] } := by
  obtain ⟨i, x, hf, hx⟩ := channel_of_some s h c ch hch
  rcases channel_off_cases h c s hc hinit with ⟨hn, _⟩ | ⟨i', x', hf', hr⟩
  · rw [hn] at hf
    cases hf
  · rw [hf] at hf'
    cases hf'
    rw [hr]
    refine ⟨rfl, hinit, ?_⟩
    show channel_of (modify_slot s i _) h c = _
    rw [channel_of_modify s h c i x _ hf, hx]
    rfl

theorem channel_on_state (h : Int) (c : Nat) (s : iotc_state) :
    (IOTC_Session_Channel_ON h c s).2 = s ∨
    ∃ i x, find_connected s h = some (i, x) ∧ (IOTC_Session_Channel_ON h c s).2 =
      modify_slot s i (fun x => modify_channel x c (fun ch => { ch with state := .ON })) := by
  unfold IOTC_Session_Channel_ON
  by_cases hc : c ≥ MAX_CHANNEL_NUMBER
  · rw [if_pos hc]
    exact Or.inl rfl
  · rw [if_neg hc]
    rcases Bool.eq_false_or_eq_true s.initialized with hi | hi
    · simp only [hi, Bool.not_true, Bool.false_eq_true, if_false]
      cases hf : find_connected s h with
      | none => exact Or.inl rfl
      | some p =>
        obtain ⟨i, x⟩ := p
        exact Or.inr ⟨i, x, rfl, rfl⟩
    · simp only [hi, Bool.not_false, if_true]
      exact Or.inl trivial

theorem channel_off_state (h : Int) (c : Nat) (s : iotc_state) :
    (IOTC_Session_Channel_OFF h c s).2 = s ∨
    ∃ i x, find_connected s h = some (i, x) ∧ (IOTC_Session_Channel_OFF h c s).2 =
      modify_slot s i (fun x => modify_channel x c (fun ch =>
        init_channel (cleanup_channel { ch with state := .OFF }))) := by
  unfold IOTC_Session_Channel_OFF
  by_cases hc : c ≥ MAX_CHANNEL_NUMBER
  · rw [if_pos hc]
    exact Or.inl rfl
  · rw [if_neg hc]
    rcases Bool.eq_false_or_eq_true s.initialized with hi | hi
    · simp only [hi, Bool.not_true, Bool.false_eq_true, if_false]
      cases hf : find_connected s h with
      | none => exact Or.inl rfl
      | some p =>
        obtain ⟨i, x⟩ := p
        exact Or.inr ⟨i, x, rfl, rfl⟩
    · simp only [hi, Bool.not_false, if_true]
      exact Or.inl trivial

theorem channel_frame_refl (s : iotc_state) (h : Int) (c : Nat) : channel_frame s s h c :=
  ⟨rfl, rfl, rfl, rfl, fun _ y hy => ⟨y, hy, rfl, rfl, rfl, rfl, rfl, rfl, fun _ _ => rfl⟩⟩

theorem channel_frame_modify (s : iotc_state) (h : Int) (c i : Nat)
    (g : channel_info_t → channel_info_t) (hfi : find_session_by_id s h = some i) :
    channel_frame s (modify_slot s i (fun x => modify_channel x c g)) h c := by
  refine ⟨rfl, rfl, rfl, ?_, ?_⟩
  · rw [slots_modify_slot]
    cases (slots s)[i]? with
    | none => rfl
    | some x => exact List.length_set _ _ _
  · intro j y hy
    rw [slots_modify_slot]
    cases hx : (slots s)[i]? with
    | none => exact ⟨y, hy, rfl, rfl, rfl, rfl, rfl, rfl, fun _ _ => rfl⟩
    | some x =>
      simp only
      by_cases hji : i = j
      · subst hji
        rw [hx] at hy
        cases hy
        refine ⟨modify_channel y c g, List.getElem?_set_self (List.getElem?_eq_some.1 hx).1,
          rfl, rfl, rfl, rfl, rfl, modify_channel_channels_length y c g, ?_⟩
        intro c' hne
        rcases hne with hne | hne
        · exact absurd hfi hne
        · exact modify_channel_getElem_ne y c c' g (Ne.symm hne)
      · rw [List.getElem?_set_ne hji]
        exact ⟨y, hy, rfl, rfl, rfl, rfl, rfl, rfl, fun _ _ => rfl⟩

theorem channel_check_modify_other (s : iotc_state) (h h' : Int) (i c c' : Nat)
    (g : channel_info_t → channel_info_t) (hfi : find_session_by_id s h = some i)
    (hne : toUInt32 h' ≠ toUInt32 h ∨ c' ≠ c) :
    channel_of (modify_slot s i (fun x => modify_channel x c g)) h' c' = channel_of s h' c' ∧
    (IOTC_Session_Channel_Check_ON_OFF h' c'
        (modify_slot s i (fun x => modify_channel x c g))).1 =
      (IOTC_Session_Channel_Check_ON_OFF h' c' s).1 := by
  have hne' : find_session_by_id s h' ≠ some i ∨ c' ≠ c := by
    rcases hne with hne | hne
    · exact Or.inl (fun hf' => hne (find_session_by_id_handle s h h' i hfi hf'))
    · exact Or.inr hne
  have hmap := find_connected_modify_channel_other s h' i c c' g hne'
  constructor
  · rw [channel_of_eq_map, channel_of_eq_map, hmap]
  · rw [channel_check_eq_map, channel_check_eq_map, hmap, modify_slot_initialized]

/-! ## Channel calls: idempotence, reset and isolation -/

/-- C21: channel on and channel off are idempotent on a connected session.
On an initialized table, for a channel `c < 32` of the connected session `h`
whose record is `ch`: if `ch` is already `ON`, channel on returns 0 and leaves
the whole table (so the state, queue and sequence counter of the channel)
unchanged; if `ch` is already `OFF` with an empty queue and counter 1, channel
off returns 0 and leaves the whole table unchanged; in general channel on
returns 0 and changes only the state field of the record, and a second
channel on, or a second channel off, made right after the first returns 0 and
changes nothing. -/
theorem channel_toggle_idempotent (h : Int) (c : Nat) (s : iotc_state)
    (hinit : s.initialized = true) (hc : c < 32) (ch : channel_info_t)
    (hch : channel_of s h c = some ch) :
    (ch.state = .ON → IOTC_Session_Channel_ON h c s = (0, s)) ∧
    (ch = { state := .OFF, next_seq_id := 1, msg_queue := [] } →
      IOTC_Session_Channel_OFF h c s = (0, s)) ∧
    ((IOTC_Session_Channel_ON h c s).1 = 0 ∧
      channel_of (IOTC_Session_Channel_ON h c s).2 h c =
        some { state := .ON, next_seq_id := ch.next_seq_id, msg_queue := ch.msg_queue } ∧
      IOTC_Session_Channel_ON h c (IOTC_Session_Channel_ON h c s).2 =
        (0, (IOTC_Session_Channel_ON h c s).2)) ∧
    ((IOTC_Session_Channel_OFF h c s).1 = 0 ∧
      IOTC_Session_Channel_OFF h c (IOTC_Session_Channel_OFF h c s).2 =
        (0, (IOTC_Session_Channel_OFF h c s).2)) := by
  refine ⟨fun hon => channel_on_of_on h c s hinit hc ch hch hon, ?_, ?_, ?_⟩
  · intro hoff
    rw [hoff] at hch
    exact channel_off_of_reset h c s hinit hc hch
  · obtain ⟨h0, hi, hch'⟩ := channel_on_of_channel h c s hinit hc ch hch
    exact ⟨h0, hch', channel_on_of_on h c _ hi hc _ hch' rfl⟩
  · obtain ⟨h0, hi, hch'⟩ := channel_off_of_channel h c s hinit hc ch hch
    exact ⟨h0, channel_off_of_reset h c _ hi hc hch'⟩

/-- Witness for C21: channel 3 of handle 1 in `queued_table` is `ON` with two
queued messages and counter 7, and channel on leaves that table as it is. -/
theorem channel_toggle_idempotent_witness :
    IOTC_Session_Channel_ON 1 3 queued_table = (0, queued_table) :=
  (channel_toggle_idempotent 1 3 queued_table (by decide) (by decide) queued_channel rfl).1 rfl

/-- C22: a successful channel off leaves the channel `OFF` with an empty queue
and sequence counter 1. On a table whose slots have 32 channels each, whenever
channel off on handle `h` and channel `c` returns 0, channel `c` of the session
of `h` is afterwards the record `(OFF, 1, [])`, whatever the record held
before. -/
theorem channel_off_resets (h : Int) (c : Nat) (s : iotc_state)
    (hlen : ∀ x ∈ slots s, x.channels.length = 32)
    (hok : (IOTC_Session_Channel_OFF h c s).1 = 0) :
    channel_of (IOTC_Session_Channel_OFF h c s).2 h c =
      some { state := .OFF, next_seq_id := 1, msg_queue := [] } := by
  obtain ⟨hinit, hc, i, x, hf, _⟩ := channel_off_ok h c s hok
  have hx := (find_connected_spec s h i x hf).2.1
  have hl := hlen x (List.getElem?_mem hx)
  have hch : ∃ ch, channel_of s h c = some ch := by
    rw [channel_of_intro s h c i x hf]
    exact ⟨x.channels[c], List.getElem?_eq_getElem (by omega)⟩
  obtain ⟨ch, hch⟩ := hch
  exact (channel_off_of_channel h c s hinit hc ch hch).2.2

/-- Witness for C22: channel 3 of handle 1 in `queued_table` holds two queued
messages and counter 7; after channel off it is `(OFF, 1, [])`. -/
theorem channel_off_resets_witness :
    channel_of queued_table 1 3 = some queued_channel ∧
    channel_of (IOTC_Session_Channel_OFF 1 3 queued_table).2 1 3 =
      some { state := .OFF, next_seq_id := 1, msg_queue := [] } :=
  ⟨rfl, channel_off_resets 1 3 queued_table (by decide) (by decide)⟩

/-- C23: channel on and channel off on handle `h` and channel `c` change only
channel `c` of the session of `h`. For the state `s'` left by either call:
the flags, capacity, allocator and number of slots are those of `s`; every
slot keeps all its fields other than the channel records, and each channel
record other than channel `c` of the slot found for `h` is unchanged
(`channel_frame`); and for every handle `h'` and channel `c'` with `h'`
another handle or `c'` another channel, the record addressed by `(h', c')` and
the answer of the channel check on `(h', c')` are the same before and after. -/
theorem channel_toggle_frame (h : Int) (c : Nat) (s s' : iotc_state)
    (hs' : s' = (IOTC_Session_Channel_ON h c s).2 ∨ s' = (IOTC_Session_Channel_OFF h c s).2) :
    channel_frame s s' h c ∧
    ∀ (h' : Int) (c' : Nat), (toUInt32 h' ≠ toUInt32 h ∨ c' ≠ c) →
      channel_of s' h' c' = channel_of s h' c' ∧
      (IOTC_Session_Channel_Check_ON_OFF h' c' s').1 =
        (IOTC_Session_Channel_Check_ON_OFF h' c' s).1 := by
  have key : s' = s ∨ ∃ i g, find_session_by_id s h = some i ∧
      s' = modify_slot s i (fun x => modify_channel x c g) := by
    rcases hs' with hs' | hs'
    · rcases channel_on_state h c s with hst | ⟨i, x, hf, hst⟩
      · exact Or.inl (hs'.trans hst)
      · exact Or.inr ⟨i, _, (find_connected_spec s h i x hf).1, hs'.trans hst⟩
    · rcases channel_off_state h c s with hst | ⟨i, x, hf, hst⟩
      · exact Or.inl (hs'.trans hst)
      · exact Or.inr ⟨i, _, (find_connected_spec s h i x hf).1, hs'.trans hst⟩
  rcases key with rfl | ⟨i, g, hfi, rfl⟩
  · exact ⟨channel_frame_refl _ h c, fun _ _ _ => ⟨rfl, rfl⟩⟩
  · exact ⟨channel_frame_modify s h c i g hfi,
      fun h' c' hne => channel_check_modify_other s h h' i c c' g hfi hne⟩

/-- Witness for C23: with handles 1 and 2 both connected, turning channel 0
of handle 1 on leaves channel 0 of handle 2 (`OFF`, check returns 0) and
channel 1 of handle 1 as they were, while channel 0 of handle 1 is `ON`. -/
theorem channel_toggle_frame_witness :
    ((IOTC_Session_Channel_Check_ON_OFF 2 0
        (IOTC_Session_Channel_ON 1 0 two_connected_table).2).1 =
      (IOTC_Session_Channel_Check_ON_OFF 2 0 two_connected_table).1 ∧
     (IOTC_Session_Channel_Check_ON_OFF 1 1
        (IOTC_Session_Channel_ON 1 0 two_connected_table).2).1 =
      (IOTC_Session_Channel_Check_ON_OFF 1 1 two_connected_table).1) ∧
    (IOTC_Session_Channel_Check_ON_OFF 2 0 two_connected_table).1 = 0 ∧
    (IOTC_Session_Channel_Check_ON_OFF 1 0
      (IOTC_Session_Channel_ON 1 0 two_connected_table).2).1 = 1 :=
  ⟨⟨((channel_toggle_frame 1 0 two_connected_table
        (IOTC_Session_Channel_ON 1 0 two_connected_table).2 (Or.inl rfl)).2 2 0
        (Or.inl (by decide))).2,
     ((channel_toggle_frame 1 0 two_connected_table
        (IOTC_Session_Channel_ON 1 0 two_connected_table).2 (Or.inl rfl)).2 1 1
        (Or.inr (by decide))).2⟩,
    by decide, by decide⟩

/-! ## Helper lemmas: channel scans -/

theorem status_connected (h : Int) (s : iotc_state)
    (hst : (IOTC_Get_Session_Status h s).1 = 3) :
    s.initialized = true ∧ ∃ i x, find_connected s h = some (i, x) := by
  rcases Bool.eq_false_or_eq_true s.initialized with hi | hi
  · refine ⟨hi, ?_⟩
    cases hf : find_connected s h with
    | none => exact absurd hst ((find_connected_none_iff h s hi).1 hf)
    | some p => exact ⟨p.1, p.2, rfl⟩
  · unfold IOTC_Get_Session_Status at hst
    simp only [hi, Bool.not_false, if_true] at hst
    exact absurd hst (show ¬ (IOTC_ER_NOT_INITIALIZED = (3 : Int)) by decide)

theorem status_not_connected (h : Int) (s : iotc_state)
    (hst : (IOTC_Get_Session_Status h s).1 ≠ 3) :
    s.initialized = false ∨ find_connected s h = none := by
  rcases Bool.eq_false_or_eq_true s.initialized with hi | hi
  · exact Or.inr ((find_connected_none_iff h s hi).2 hst)
  · exact Or.inl hi

theorem channel_state_ne_off (st : channel_state_t) : st ≠ .OFF ↔ st = .ON := by
  cases st <;> decide

theorem free_channel_loop_some (l : List channel_info_t) (i : Nat) :
    free_channel_loop l = some i ↔
      (∃ x, l[i]? = some x ∧ x.state = .OFF) ∧
      ∀ j, j < i → ∀ y, l[j]? = some y → y.state = .ON := by
  induction l generalizing i with
  | nil => simp [free_channel_loop]
  | cons a l ih =>
    unfold free_channel_loop
    by_cases ha : a.state = .OFF
    · simp only [ha, if_true, Option.some.injEq]
      constructor
      · rintro rfl
        exact ⟨⟨a, by simp, ha⟩, fun j hj => absurd hj (Nat.not_lt_zero j)⟩
      · rintro ⟨_, hlow⟩
        cases i with
        | zero => rfl
        | succ k =>
          have := hlow 0 (Nat.succ_pos k) a (by simp)
          rw [ha] at this
          cases this
    · rw [if_neg ha]
      cases i with
      | zero =>
        simp only [Option.map_eq_some', List.getElem?_cons_zero, Option.some.injEq]
        constructor
        · rintro ⟨k, _, hk⟩
          omega
        · rintro ⟨⟨x, rfl, hx⟩, _⟩
          exact absurd hx ha
      | succ k =>
        simp only [Option.map_eq_some', Nat.add_right_cancel_iff, exists_eq_right,
          List.getElem?_cons_succ]
        rw [ih k]
        constructor
        · rintro ⟨hx, hlow⟩
          refine ⟨hx, ?_⟩
          intro j hj y hy
          cases j with
          | zero =>
            simp only [List.getElem?_cons_zero, Option.some.injEq] at hy
            subst hy
            exact (channel_state_ne_off _).1 ha
          | succ j => exact hlow j (by omega) y (by simpa using hy)
        · rintro ⟨hx, hlow⟩
          refine ⟨hx, ?_⟩
          intro j hj y hy
          exact hlow (j + 1) (by omega) y (by simpa using hy)

theorem free_channel_loop_none (l : List channel_info_t) :
    free_channel_loop l = none ↔ ∀ x ∈ l, x.state = .ON := by
  induction l with
  | nil => simp [free_channel_loop]
  | cons a l ih =>
    unfold free_channel_loop
    by_cases ha : a.state = .OFF
    · rw [if_pos ha]
      simp only [List.mem_cons, forall_eq_or_imp, false_iff, reduceCtorEq]
      intro hall
      rw [ha] at hall
      exact absurd hall.1 (by decide)
    · rw [if_neg ha]
      simp only [Option.map_eq_none', List.mem_cons, forall_eq_or_imp, ih]
      exact ⟨fun h => ⟨(channel_state_ne_off _).1 ha, h⟩, fun h => h.2⟩

theorem bitmap_loop_testBit (l : List channel_info_t) (i k : Nat) (hl : i + l.length ≤ 32) :
    (bitmap_loop l i).testBit k = true ↔
      ∃ j c, l[j]? = some c ∧ k = i + j ∧ c.state = .ON := by
  induction l generalizing i with
  | nil => simp [bitmap_loop]
  | cons a l ih =>
    simp only [List.length_cons] at hl
    have hi : i < 32 := by omega
    have hpow : 2 ^ i % 4294967296 = 2 ^ i := by
      apply Nat.mod_eq_of_lt
      calc 2 ^ i < 2 ^ 32 := Nat.pow_lt_pow_right (by decide) hi
        _ = 4294967296 := by norm_num
    unfold bitmap_loop
    rw [Nat.testBit_or, Bool.or_eq_true, ih (i + 1) (by omega), hpow]
    constructor
    · rintro (h1 | ⟨j, c, hj, hk, hc⟩)
      · by_cases ha : a.state = .ON
        · rw [if_pos ha, Nat.testBit_two_pow] at h1
          exact ⟨0, a, by simp, by simpa using (of_decide_eq_true h1).symm, ha⟩
        · rw [if_neg ha, Nat.zero_testBit] at h1
          cases h1
      · exact ⟨j + 1, c, by simpa using hj, by omega, hc⟩
    · rintro ⟨j, c, hj, hk, hc⟩
      cases j with
      | zero =>
        simp only [List.getElem?_cons_zero, Option.some.injEq] at hj
        subst hj
        left
        rw [if_pos hc, Nat.testBit_two_pow]
        simpa using hk.symm
      | succ j =>
        right
        exact ⟨j, c, by simpa using hj, by omega, hc⟩

theorem countP_range_getElem? {α : Type} (l : List α) (q : Option α → Bool) :
    (List.range l.length).countP (fun k => q (l[k]?)) = l.countP (fun c => q (some c)) := by
  induction l with
  | nil => simp
  | cons a l ih =>
    rw [List.length_cons, List.range_succ_eq_map, List.countP_cons, List.countP_cons,
      List.countP_map, ← ih]
    simp only [List.getElem?_cons_zero]
    congr 1
    apply List.countP_congr
    intro k _
    simp [Function.comp]

theorem take_channels_of_length (x : session_info_t) (hlen : x.channels.length = 32) :
    x.channels.take MAX_CHANNEL_NUMBER = x.channels := by
  apply List.take_of_length_le
  rw [hlen]

theorem channel_state_intro (s : iotc_state) (h : Int) (c i : Nat) (x : session_info_t)
    (hf : find_connected s h = some (i, x)) :
    channel_state s h c = (x.channels[c]?).map (fun ch => ch.state) := by
  unfold channel_state
  rw [channel_of_intro s h c i x hf]

theorem on_bitmap_cases (sid : Int) (s : iotc_state) (hinit : s.initialized = true) :
    (find_connected s sid = none ∧ IOTC_Session_Get_Channel_ON_Bitmap sid s = (0, s)) ∨
    (∃ i x, find_connected s sid = some (i, x) ∧
      IOTC_Session_Get_Channel_ON_Bitmap sid s =
        (bitmap_loop (x.channels.take MAX_CHANNEL_NUMBER) 0, s)) := by
  unfold IOTC_Session_Get_Channel_ON_Bitmap
  cases hf : find_connected s sid with
  | none => simp [hinit]
  | some p =>
    obtain ⟨i, x⟩ := p
    right
    exact ⟨i, x, rfl, by simp [hinit]⟩

theorem on_bitmap_testBit (h : Int) (s : iotc_state) (hinit : s.initialized = true)
    (i : Nat) (x : session_info_t) (hf : find_connected s h = some (i, x))
    (hlen : x.channels.length = 32) (k : Nat) :
    (IOTC_Session_Get_Channel_ON_Bitmap h s).1.testBit k = true ↔
      channel_state s h k = some .ON := by
  rcases on_bitmap_cases h s hinit with ⟨hn, _⟩ | ⟨i', x', hf', hr⟩
  · rw [hn] at hf
    cases hf
  · rw [hf] at hf'
    cases hf'
    rw [hr, take_channels_of_length x hlen, channel_state_intro s h k i x hf]
    show (bitmap_loop x.channels 0).testBit k = true ↔ _
    rw [bitmap_loop_testBit x.channels 0 k (by omega)]
    constructor
    · rintro ⟨j, c, hj, hk, hc⟩
      have hkj : k = j := by omega
      subst hkj
      rw [hj]
      simp [hc]
    · intro hk
      cases hc : x.channels[k]? with
      | none => simp [hc] at hk
      | some c =>
        rw [hc] at hk
        simp only [Option.map_some', Option.some.injEq] at hk
        exact ⟨k, c, hc, by omega, hk⟩

theorem channel_state_eq_some (s : iotc_state) (h : Int) (c i : Nat) (x : session_info_t)
    (hf : find_connected s h = some (i, x)) (st : channel_state_t) :
    channel_state s h c = some st ↔ ∃ ch, x.channels[c]? = some ch ∧ ch.state = st := by
  rw [channel_state_intro s h c i x hf]
  cases x.channels[c]? with
  | none => simp
  | some ch => simp

/-! ## Channel queries -/

/-- C24: the free-channel query on a connected session. On a table whose
slots have 32 channels each and for a handle `h` whose status is 3
(`CONNECTED`): the call returns `k` exactly when channel `k` is `OFF` and every
channel below `k` is `ON` (so `k` is the smallest index of an `OFF` channel);
it returns -29 exactly when all 32 channels are `ON`; and it leaves the table
unchanged. -/
theorem free_channel_spec (h : Int) (s : iotc_state)
    (hlen : ∀ x ∈ slots s, x.channels.length = 32)
    (hst : (IOTC_Get_Session_Status h s).1 = 3) :
    (∀ k : Nat, (IOTC_Session_Get_Free_Channel h s).1 = Int.ofNat k ↔
      (channel_state s h k = some .OFF ∧ ∀ j, j < k → channel_state s h j = some .ON)) ∧
    ((IOTC_Session_Get_Free_Channel h s).1 = -29 ↔
      ∀ j, j < 32 → channel_state s h j = some .ON) ∧
    (IOTC_Session_Get_Free_Channel h s).2 = s := by
  obtain ⟨hinit, i, x, hf⟩ := status_connected h s hst
  have hl : x.channels.length = 32 :=
    hlen x (List.getElem?_mem (find_connected_spec s h i x hf).2.1)
  have hcs := fun c st => channel_state_eq_some s h c i x hf st
  refine ⟨?_, ?_, free_channel_state h s⟩
  all_goals
    rcases free_channel_cases h s hinit with ⟨hn, _⟩ | ⟨i', x', hf', hr⟩
    · rw [hn] at hf
      cases hf
    rw [hf] at hf'
    cases hf'
    rw [hr, take_channels_of_length x hl]
    simp only
  · intro k
    cases hloop : free_channel_loop x.channels with
    | none =>
      simp only
      have hall := (free_channel_loop_none x.channels).1 hloop
      constructor
      · intro hk
        have h0 : (0 : Int) ≤ Int.ofNat k := Int.ofNat_nonneg k
        rw [← hk] at h0
        exact absurd h0 (show ¬ ((0 : Int) ≤ IOTC_ER_FAIL_SETUP_CHANNEL) by decide)
      · rintro ⟨hoff, _⟩
        obtain ⟨ch, hch, hs⟩ := (hcs k .OFF).1 hoff
        have := hall ch (List.getElem?_mem hch)
        rw [hs] at this
        cases this
    | some k0 =>
      simp only
      obtain ⟨⟨ch0, hch0, hs0⟩, hlow0⟩ := (free_channel_loop_some x.channels k0).1 hloop
      constructor
      · intro hk
        have hkk : k0 = k := Int.ofNat.inj hk
        subst hkk
        refine ⟨(hcs k0 .OFF).2 ⟨ch0, hch0, hs0⟩, ?_⟩
        intro j hj
        have hjl : j < x.channels.length := by
          have := (List.getElem?_eq_some.1 hch0).1
          omega
        exact (hcs j .ON).2 ⟨x.channels[j], List.getElem?_eq_getElem hjl,
          hlow0 j hj _ (List.getElem?_eq_getElem hjl)⟩
      · rintro ⟨hoff, hlow⟩
        have hk : free_channel_loop x.channels = some k := by
          rw [free_channel_loop_some]
          refine ⟨(hcs k .OFF).1 hoff, ?_⟩
          intro j hj y hy
          obtain ⟨ch, hch, hs⟩ := (hcs j .ON).1 (hlow j hj)
          rw [hy] at hch
          cases hch
          exact hs
        rw [hloop] at hk
        cases hk
        rfl
  · cases hloop : free_channel_loop x.channels with
    | none =>
      simp only
      have hall := (free_channel_loop_none x.channels).1 hloop
      refine ⟨fun _ j hj => ?_, fun _ => trivial⟩
      have hjl : j < x.channels.length := by omega
      exact (hcs j .ON).2 ⟨x.channels[j], List.getElem?_eq_getElem hjl,
        hall _ (List.getElem_mem hjl)⟩
    | some k0 =>
      simp only
      obtain ⟨⟨ch0, hch0, hs0⟩, _⟩ := (free_channel_loop_some x.channels k0).1 hloop
      have hk0 : k0 < 32 := by
        have := (List.getElem?_eq_some.1 hch0).1
        omega
      constructor
      · intro hk
        have h0 : (0 : Int) ≤ Int.ofNat k0 := Int.ofNat_nonneg k0
        rw [hk] at h0
        exact absurd h0 (by decide)
      · intro hall
        obtain ⟨ch, hch, hs⟩ := (hcs k0 .ON).1 (hall k0 hk0)
        rw [hch0] at hch
        cases hch
        rw [hs0] at hs
        cases hs

/-- Witness for C24: in `queued_table` the status of handle 1 is 3 and
channel 0 is `OFF`, and the free-channel query returns 0. -/
theorem free_channel_spec_witness :
    (IOTC_Session_Get_Free_Channel 1 queued_table).1 = 0 ∧
    channel_state queued_table 1 0 = some .OFF :=
  ⟨((free_channel_spec 1 queued_table (by decide) (by decide)).1 0).2
      ⟨by decide, fun j hj => absurd hj (Nat.not_lt_zero j)⟩,
    by decide⟩

/-- C25: the channel bitmap. On a table whose slots have 32 channels each:
when the status of `h` is 3 (`CONNECTED`), the value returned is below `2^32`
and its bit `k` is set exactly when channel `k` of the session is `ON`; when
the status of `h` is anything else (library not initialized, handle not found,
session not connected) the call returns 0, which is also what a connected
session with no channel `ON` gets; the table is never changed. -/
theorem on_bitmap_spec (h : Int) (s : iotc_state)
    (hlen : ∀ x ∈ slots s, x.channels.length = 32) :
    ((IOTC_Get_Session_Status h s).1 = 3 →
      (IOTC_Session_Get_Channel_ON_Bitmap h s).1 < 4294967296 ∧
      (∀ k : Nat, (IOTC_Session_Get_Channel_ON_Bitmap h s).1.testBit k = true ↔
        channel_state s h k = some .ON) ∧
      ((∀ k : Nat, channel_state s h k ≠ some .ON) →
        IOTC_Session_Get_Channel_ON_Bitmap h s = (0, s))) ∧
    ((IOTC_Get_Session_Status h s).1 ≠ 3 →
      IOTC_Session_Get_Channel_ON_Bitmap h s = (0, s)) ∧
    (IOTC_Session_Get_Channel_ON_Bitmap h s).2 = s := by
  refine ⟨?_, ?_, on_bitmap_state h s⟩
  · intro hst
    obtain ⟨hinit, i, x, hf⟩ := status_connected h s hst
    have hl : x.channels.length = 32 :=
      hlen x (List.getElem?_mem (find_connected_spec s h i x hf).2.1)
    have hbit := on_bitmap_testBit h s hinit i x hf hl
    refine ⟨?_, hbit, ?_⟩
    · apply Nat.lt_pow_two_of_testBit (n := 32)
      intro k hk
      cases hb : (IOTC_Session_Get_Channel_ON_Bitmap h s).1.testBit k with
      | false => rfl
      | true =>
        obtain ⟨ch, hch, _⟩ := (channel_state_eq_some s h k i x hf .ON).1 ((hbit k).1 hb)
        have := (List.getElem?_eq_some.1 hch).1
        omega
    · intro hoff
      have hz : (IOTC_Session_Get_Channel_ON_Bitmap h s).1 = 0 := by
        apply Nat.eq_of_testBit_eq
        intro k
        rw [Nat.zero_testBit]
        cases hb : (IOTC_Session_Get_Channel_ON_Bitmap h s).1.testBit k with
        | false => rfl
        | true => exact absurd ((hbit k).1 hb) (hoff k)
      exact Prod.ext hz (on_bitmap_state h s)
  · intro hst
    unfold IOTC_Session_Get_Channel_ON_Bitmap
    rcases status_not_connected h s hst with hi | hn
    · simp only [hi, Bool.not_false, if_true]
    · rw [hn]
      simp only [ite_self]

/-- Witness for C25: in `queued_table` channel 3 of handle 1 is `ON` and bit 3
of the bitmap is set, channel 4 is `OFF` and bit 4 is clear; the unknown handle
7 gets 0. -/
theorem on_bitmap_spec_witness :
    (IOTC_Session_Get_Channel_ON_Bitmap 1 queued_table).1.testBit 3 = true ∧
    ¬ ((IOTC_Session_Get_Channel_ON_Bitmap 1 queued_table).1.testBit 4 = true) ∧
    IOTC_Session_Get_Channel_ON_Bitmap 7 queued_table = (0, queued_table) :=
  ⟨(((on_bitmap_spec 1 queued_table (by decide)).1 (by decide)).2.1 3).2 (by decide),
    fun hb => absurd ((((on_bitmap_spec 1 queued_table (by decide)).1 (by decide)).2.1 4).1 hb)
      (by decide),
    (on_bitmap_spec 7 queued_table (by decide)).2.1 (by decide)⟩

/-- C26: the channel count. On a table whose slots have 32 channels each and
for a handle `h` whose status is 3 (`CONNECTED`): the count returned is the
number of indices `k < 32` whose channel is `ON`, it lies between 0 and 32,
and it equals the number of set bits of the bitmap returned for `h`. -/
theorem on_count_spec (h : Int) (s : iotc_state)
    (hlen : ∀ x ∈ slots s, x.channels.length = 32)
    (hst : (IOTC_Get_Session_Status h s).1 = 3) :
    (IOTC_Session_Get_Channel_ON_Count h s).1 =
      Int.ofNat ((List.range 32).countP (fun k => decide (channel_state s h k = some .ON))) ∧
    0 ≤ (IOTC_Session_Get_Channel_ON_Count h s).1 ∧
    (IOTC_Session_Get_Channel_ON_Count h s).1 ≤ 32 ∧
    (IOTC_Session_Get_Channel_ON_Count h s).1 =
      Int.ofNat (popcount32 (IOTC_Session_Get_Channel_ON_Bitmap h s).1) := by
  obtain ⟨hinit, i, x, hf⟩ := status_connected h s hst
  have hl : x.channels.length = 32 :=
    hlen x (List.getElem?_mem (find_connected_spec s h i x hf).2.1)
  have hcount : (IOTC_Session_Get_Channel_ON_Count h s).1 =
      Int.ofNat ((List.range 32).countP
        (fun k => decide (channel_state s h k = some .ON))) := by
    rcases on_count_cases h s hinit with ⟨hn, _⟩ | ⟨i', x', hf', hr⟩
    · rw [hn] at hf
      cases hf
    · rw [hf] at hf'
      cases hf'
      rw [hr, take_channels_of_length x hl]
      show Int.ofNat _ = Int.ofNat _
      congr 1
      have hq := countP_range_getElem? x.channels
        (fun o => decide (o.map (fun ch => ch.state) = some channel_state_t.ON))
      rw [hl] at hq
      simp only [Option.map_some', Option.some.injEq] at hq
      rw [← hq]
      apply List.countP_congr
      intro k _
      rw [channel_state_intro s h k i x hf]
  refine ⟨hcount, ?_, ?_, ?_⟩
  · rw [hcount]
    exact Int.ofNat_nonneg _
  · rw [hcount]
    have hle := List.countP_le_length
      (fun k => decide (channel_state s h k = some channel_state_t.ON)) (l := List.range 32)
    rw [List.length_range] at hle
    exact Int.ofNat_le.2 hle
  · rw [hcount]
    show Int.ofNat _ = Int.ofNat _
    congr 1
    unfold popcount32
    apply List.countP_congr
    intro k _
    rw [decide_eq_true_iff]
    exact (on_bitmap_testBit h s hinit i x hf hl k).symm

/-- Witness for C26: in `queued_table` handle 1 has one channel `ON`, and the
count is 1. -/
theorem on_count_spec_witness :
    (IOTC_Session_Get_Channel_ON_Count 1 queued_table).1 =
      Int.ofNat (popcount32 (IOTC_Session_Get_Channel_ON_Bitmap 1 queued_table).1) ∧
    (IOTC_Session_Get_Channel_ON_Count 1 queued_table).1 = 1 :=
  ⟨(on_count_spec 1 queued_table (by decide) (by decide)).2.2.2, by decide⟩

/-! ## Helper lemmas: the data calls -/

theorem stamped_modify (s : iotc_state) (h : Int) (i : Nat) (now : Int)
    (hfi : find_session_by_id s h = some i) :
    stamped s (modify_slot s i (fun y => { y with last_activity := now })) h now := by
  obtain ⟨x, hx, _⟩ := find_session_by_id_some s h i hfi
  refine ⟨rfl, rfl, rfl, ?_, ?_⟩
  · rw [slots_modify_slot_of_some s i _ x hx]
    exact List.length_set _ _ _
  · intro j y hy
    rw [slots_modify_slot_of_some s i _ x hx, hfi]
    by_cases hij : i = j
    · subst hij
      rw [hx] at hy
      cases hy
      rw [if_pos rfl]
      exact List.getElem?_set_self (List.getElem?_eq_some.1 hx).1
    · rw [List.getElem?_set_ne hij, if_neg (fun hh => hij (Option.some.inj hh))]
      exact hy

theorem write_cases (h : Int) (data : Option (List Nat)) (size channel : Nat) (now : Int)
    (s : iotc_state) (hinit : s.initialized = true) (hdata : data ≠ none) (h1 : 1 ≤ size)
    (h2 : size ≤ 1400) (hc : channel < 32) :
    (find_connected s h = none ∧
      IOTC_Session_Write h data size channel now s = (IOTC_ER_INVALID_SID, s)) ∨
    (∃ i x, find_connected s h = some (i, x) ∧
      ((x.channels[channel]?).map (fun ch => ch.state) ≠ some .ON ∧
        IOTC_Session_Write h data size channel now s = (IOTC_ER_CH_NOT_ON, s) ∨
       (x.channels[channel]?).map (fun ch => ch.state) = some .ON ∧
        IOTC_Session_Write h data size channel now s =
          (Int.ofNat size, modify_slot s i (fun y => { y with last_activity := now })))) := by
  have hargs : ¬ (data.isNone ∨ size = 0 ∨ size > MAX_PACKET_SIZE ∨
      channel ≥ MAX_CHANNEL_NUMBER) := by
    simp only [MAX_PACKET_SIZE, MAX_CHANNEL_NUMBER, Option.isNone_iff_eq_none]
    rintro (hd | h0 | hbig | hch)
    · exact hdata hd
    · omega
    · omega
    · omega
  unfold IOTC_Session_Write
  rw [if_neg hargs]
  simp only [hinit, Bool.not_true, Bool.false_eq_true, if_false]
  cases hf : find_connected s h with
  | none => exact Or.inl ⟨rfl, rfl⟩
  | some p =>
    obtain ⟨i, x⟩ := p
    right
    refine ⟨i, x, rfl, ?_⟩
    by_cases hon : (x.channels[channel]?).map (fun ch => ch.state) = some .ON
    · right
      refine ⟨hon, ?_⟩
      simp only
      rw [if_neg (not_not.2 hon)]
    · left
      refine ⟨hon, ?_⟩
      simp only
      rw [if_pos hon]

theorem write_state (h : Int) (data : Option (List Nat)) (size channel : Nat) (now : Int)
    (s : iotc_state) (hneg : (IOTC_Session_Write h data size channel now s).1 < 0) :
    (IOTC_Session_Write h data size channel now s).2 = s := by
  unfold IOTC_Session_Write at hneg ⊢
  by_cases hargs : data.isNone ∨ size = 0 ∨ size > MAX_PACKET_SIZE ∨
      channel ≥ MAX_CHANNEL_NUMBER
  · rw [if_pos hargs]
  · rw [if_neg hargs] at hneg ⊢
    rcases Bool.eq_false_or_eq_true s.initialized with hi | hi
    · simp only [hi, Bool.not_true, Bool.false_eq_true, if_false] at hneg ⊢
      cases hf : find_connected s h with
      | none => rfl
      | some p =>
        obtain ⟨i, x⟩ := p
        rw [hf] at hneg
        simp only at hneg ⊢
        by_cases hon : (x.channels[channel]?).map (fun ch => ch.state) ≠ some .ON
        · rw [if_pos hon]
        · rw [if_neg hon] at hneg
          exact absurd hneg (not_lt.2 (Int.ofNat_nonneg size))
    · simp only [hi, Bool.not_false, if_true]

theorem read_check_cases (h : Int) (size timeout : Int) (lost datatype : Option Nat)
    (flags unused now : Int) (s : iotc_state) (hinit : s.initialized = true)
    (hsize : 0 < size) :
    (find_connected s h = none ∧
      IOTC_Session_Read_Check_Lost_Data_And_Datatype h true size timeout lost datatype flags
        unused now s = (⟨IOTC_ER_INVALID_SID, lost, datatype⟩, s)) ∨
    (∃ i x, find_connected s h = some (i, x) ∧
      IOTC_Session_Read_Check_Lost_Data_And_Datatype h true size timeout lost datatype flags
        unused now s =
        (⟨0, lost.map (fun _ => 0), datatype.map (fun _ => 0)⟩,
          modify_slot s i (fun y => { y with last_activity := now }))) := by
  have hargs : ¬ ((!true) = true ∨ size ≤ 0) := by
    rintro (hb | hs)
    · cases hb
    · omega
  unfold IOTC_Session_Read_Check_Lost_Data_And_Datatype
  rw [if_neg hargs]
  simp only [hinit, Bool.not_true, Bool.false_eq_true, if_false]
  cases hf : find_connected s h with
  | none => exact Or.inl ⟨rfl, rfl⟩
  | some p =>
    obtain ⟨i, x⟩ := p
    exact Or.inr ⟨i, x, rfl, rfl⟩

/-- Whenever `IOTC_Session_Read` returns, it returns 0. -/
theorem read_returns_zero (h : Int) (buf : Bool) (size timeout flags : Int)
    (guard_before guard_after : Nat) (now : Int) (s : iotc_state) (r : Int × iotc_state)
    (hr : IOTC_Session_Read h buf size timeout flags guard_before guard_after now s = some r) :
    r.1 = 0 := by
  unfold IOTC_Session_Read at hr
  simp only at hr
  split at hr
  · rename_i hc
    cases hr
    exact hc.1
  · cases hr

/-! ## Write and read -/

/-- C27: the failures of write on an initialized table. The call returns -27
when the payload is absent, the length is 0 or above 1400, or the channel index
is 32 or more; with valid arguments it returns -15 when the status of `h` is
not 3 (handle not found, or session not `CONNECTED`); with valid arguments and
a connected session it returns -21 when the channel is `OFF`. In each of these
cases, and whenever the call returns a negative value, the table is
unchanged. -/
theorem write_failures (h : Int) (data : Option (List Nat)) (size channel : Nat) (now : Int)
    (s : iotc_state) (hinit : s.initialized = true) :
    ((data = none ∨ size = 0 ∨ 1400 < size ∨ 32 ≤ channel) →
      IOTC_Session_Write h data size channel now s = (-27, s)) ∧
    (data ≠ none → 1 ≤ size → size ≤ 1400 → channel < 32 →
      (IOTC_Get_Session_Status h s).1 ≠ 3 →
      IOTC_Session_Write h data size channel now s = (-15, s)) ∧
    (data ≠ none → 1 ≤ size → size ≤ 1400 → channel < 32 →
      channel_state s h channel = some .OFF →
      IOTC_Session_Write h data size channel now s = (-21, s)) ∧
    ((IOTC_Session_Write h data size channel now s).1 < 0 →
      (IOTC_Session_Write h data size channel now s).2 = s) := by
  refine ⟨?_, ?_, ?_, write_state h data size channel now s⟩
  · intro hbad
    have hargs : data.isNone ∨ size = 0 ∨ size > MAX_PACKET_SIZE ∨
        channel ≥ MAX_CHANNEL_NUMBER := by
      simp only [MAX_PACKET_SIZE, MAX_CHANNEL_NUMBER, Option.isNone_iff_eq_none]
      exact hbad
    unfold IOTC_Session_Write
    rw [if_pos hargs]
  · intro hdata h1 h2 hc hst
    have hn := (find_connected_none_iff h s hinit).2 hst
    rcases write_cases h data size channel now s hinit hdata h1 h2 hc with
      ⟨_, hr⟩ | ⟨i, x, hf, _⟩
    · exact hr
    · rw [hn] at hf
      cases hf
  · intro hdata h1 h2 hc hoff
    rcases write_cases h data size channel now s hinit hdata h1 h2 hc with
      ⟨hn, _⟩ | ⟨i, x, hf, ⟨_, hr⟩ | ⟨hon, _⟩⟩
    · unfold channel_state channel_of at hoff
      rw [hn] at hoff
      cases hoff
    · exact hr
    · rw [channel_state_intro s h channel i x hf, hon] at hoff
      cases hoff

/-- Witness for C27: on `queued_table`, a write of 1401 bytes returns -27, a
write on the unknown handle 7 returns -15, a write on the `OFF` channel 4 of
handle 1 returns -21, and the table is unchanged each time. -/
theorem write_failures_witness :
    IOTC_Session_Write 1 (some (List.replicate 1401 0)) 1401 3 9 queued_table =
      (-27, queued_table) ∧
    IOTC_Session_Write 7 (some [1]) 1 3 9 queued_table = (-15, queued_table) ∧
    IOTC_Session_Write 1 (some [1]) 1 4 9 queued_table = (-21, queued_table) :=
  ⟨(write_failures 1 (some (List.replicate 1401 0)) 1401 3 9 queued_table (by decide)).1
      (Or.inr (Or.inr (Or.inl (by decide)))),
    (write_failures 7 (some [1]) 1 3 9 queued_table (by decide)).2.1
      (by decide) (by decide) (by decide) (by decide) (by decide),
    (write_failures 1 (some [1]) 1 4 9 queued_table (by decide)).2.2.1
      (by decide) (by decide) (by decide) (by decide) (by decide)⟩

/-- C28: a successful write. On an initialized table, for a payload that is
present with length `n`, `1 ≤ n ≤ 1400`, and a channel `c < 32` that is `ON`
in the connected session of `h`, write returns exactly `n`, and the table
afterwards differs from the table before only in the `last_activity` stamp of
the slot of `h` (`stamped`): states, handles, channel states, queues and
sequence counters of all slots are unchanged. -/
theorem write_success (h : Int) (data : Option (List Nat)) (n c : Nat) (now : Int)
    (s : iotc_state) (hinit : s.initialized = true) (hdata : data ≠ none) (h1 : 1 ≤ n)
    (h2 : n ≤ 1400) (hc : c < 32) (hon : channel_state s h c = some .ON) :
    (IOTC_Session_Write h data n c now s).1 = Int.ofNat n ∧
    stamped s (IOTC_Session_Write h data n c now s).2 h now := by
  rcases write_cases h data n c now s hinit hdata h1 h2 hc with
    ⟨hn, _⟩ | ⟨i, x, hf, ⟨hoff, _⟩ | ⟨_, hr⟩⟩
  · unfold channel_state channel_of at hon
    rw [hn] at hon
    cases hon
  · rw [channel_state_intro s h c i x hf] at hon
    exact absurd hon hoff
  · rw [hr]
    exact ⟨rfl, stamped_modify s h i now (find_connected_spec s h i x hf).1⟩

/-- Witness for C28: a write of 1400 bytes on the `ON` channel 3 of handle 1 in
`queued_table` returns 1400. -/
theorem write_success_witness :
    (IOTC_Session_Write 1 (some (List.replicate 1400 0)) 1400 3 9 queued_table).1 = 1400 :=
  (write_success 1 (some (List.replicate 1400 0)) 1400 3 9 queued_table (by decide)
    (fun hd => Option.noConfusion hd) (by decide) (by decide) (by decide) (by decide)).1

/-- C29: a read on a connected session. On a table where the status of `h` is
3 (`CONNECTED`), with a non-null buffer of positive capacity and a guard value
that is the same before and after the delegated call, `IOTC_Session_Read`
returns 0 (it does not call `__stack_chk_fail`); the delegated read returns 0
and stores 0 behind both out-pointers; and the table afterwards differs from
the table before only in the `last_activity` stamp of the slot of `h`. -/
theorem read_success (h : Int) (size timeout flags unused : Int) (guard : Nat) (now : Int)
    (s : iotc_state) (hst : (IOTC_Get_Session_Status h s).1 = 3) (hsize : 0 < size) :
    ∃ s', stamped s s' h now ∧
      IOTC_Session_Read h true size timeout flags guard guard now s = some (0, s') ∧
      ∀ l d : Nat, IOTC_Session_Read_Check_Lost_Data_And_Datatype h true size timeout
        (some l) (some d) flags unused now s = (⟨0, some 0, some 0⟩, s') := by
  obtain ⟨hinit, i, x, hf⟩ := status_connected h s hst
  refine ⟨modify_slot s i (fun y => { y with last_activity := now }),
    stamped_modify s h i now (find_connected_spec s h i x hf).1, ?_, ?_⟩
  · rcases read_check_cases h size timeout (some 0) (some 0) flags 0 now s hinit hsize with
      ⟨hn, _⟩ | ⟨i', x', hf', hr⟩
    · rw [hn] at hf
      cases hf
    · rw [hf] at hf'
      cases hf'
      unfold IOTC_Session_Read
      rw [hr]
      simp
  · intro l d
    rcases read_check_cases h size timeout (some l) (some d) flags unused now s hinit hsize
      with ⟨hn, _⟩ | ⟨i', x', hf', hr⟩
    · rw [hn] at hf
      cases hf
    · rw [hf] at hf'
      cases hf'
      rw [hr]
      rfl

/-- Witness for C29: a read on the connected handle 1 of `connected_table`
with unchanged guard returns 0. -/
theorem read_success_witness :
    (IOTC_Session_Read 1 true 16 20 0 5 5 9 connected_table).map (fun r => r.1) = some 0 := by
  obtain ⟨s', _, hr, _⟩ := read_success 1 16 20 0 0 5 9 connected_table (by decide) (by decide)
  rw [hr]
  rfl

/-- C30 (the code at the failing input): on the table right after
`IOTC_Initialize`, the delegated read on the unknown handle 7 returns -15 and
changes nothing, and `IOTC_Session_Read` with an unchanged guard value then
calls `__stack_chk_fail` instead of returning -15; the same happens for the
handle 1 that `IOTC_Get_SessionID` has just returned (status 1, not
`CONNECTED`). -/
theorem read_error_reaches_fail_handler :
    IOTC_Session_Read_Check_Lost_Data_And_Datatype 7 true 16 20 (some 0) (some 0) 0 0 5
      fresh_table = (⟨-15, some 0, some 0⟩, fresh_table) ∧
    IOTC_Session_Read 7 true 16 20 0 99 99 5 fresh_table = none ∧
    (IOTC_Get_SessionID fresh_table).1 = 1 ∧
    (IOTC_Get_Session_Status 1 (IOTC_Get_SessionID fresh_table).2).1 = 1 ∧
    (IOTC_Session_Read_Check_Lost_Data_And_Datatype 1 true 16 20 (some 0) (some 0) 0 0 5
      (IOTC_Get_SessionID fresh_table).2).1.ret = -15 ∧
    IOTC_Session_Read 1 true 16 20 0 99 99 5 (IOTC_Get_SessionID fresh_table).2 = none := by
  decide

/-! ## The guard check of read -/

theorem read_with_delegate (session_id : Int) (buf : Bool) (size timeout flags : Int)
    (guard_before guard_after : Nat) (now : Int) (s : iotc_state) :
    IOTC_Session_Read session_id buf size timeout flags guard_before guard_after now s =
      IOTC_Session_Read_with IOTC_Session_Read_Check_Lost_Data_And_Datatype session_id buf size
        timeout flags guard_before guard_after now s := rfl

theorem read_with_none_iff
    (delegate : Int → Bool → Int → Int → Option Nat → Option Nat → Int → Int → Int →
      iotc_state → read_result × iotc_state)
    (session_id : Int) (buf : Bool) (size timeout flags : Int)
    (guard_before guard_after : Nat) (now : Int) (s : iotc_state) :
    IOTC_Session_Read_with delegate session_id buf size timeout flags guard_before guard_after
        now s = none ↔
      ((delegate session_id buf size timeout (some 0) (some 0) flags 0 now s).1.ret ≠ 0 ∨
        guard_before ≠ guard_after) := by
  unfold IOTC_Session_Read_with
  simp only
  by_cases hc : (delegate session_id buf size timeout (some 0) (some 0) flags 0 now s).1.ret = 0 ∧
      guard_before = guard_after
  · rw [if_pos hc]
    constructor
    · intro h
      cases h
    · rintro (h | h)
      · exact absurd hc.1 h
      · exact absurd hc.2 h
  · rw [if_neg hc]
    constructor
    · intro _
      by_cases hr : (delegate session_id buf size timeout (some 0) (some 0) flags 0 now s).1.ret = 0
      · exact Or.inr (fun hg => hc ⟨hr, hg⟩)
      · exact Or.inl hr
    · intro _
      rfl

theorem read_with_some_iff
    (delegate : Int → Bool → Int → Int → Option Nat → Option Nat → Int → Int → Int →
      iotc_state → read_result × iotc_state)
    (session_id : Int) (buf : Bool) (size timeout flags : Int)
    (guard_before guard_after : Nat) (now : Int) (s : iotc_state) (r : Int × iotc_state) :
    IOTC_Session_Read_with delegate session_id buf size timeout flags guard_before guard_after
        now s = some r ↔
      ((delegate session_id buf size timeout (some 0) (some 0) flags 0 now s).1.ret = 0 ∧
        guard_before = guard_after ∧
        r = (0, (delegate session_id buf size timeout (some 0) (some 0) flags 0 now s).2)) := by
  unfold IOTC_Session_Read_with
  simp only
  by_cases hc : (delegate session_id buf size timeout (some 0) (some 0) flags 0 now s).1.ret = 0 ∧
      guard_before = guard_after
  · rw [if_pos hc, hc.1]
    constructor
    · intro h
      exact ⟨rfl, hc.2, (Option.some.inj h).symm⟩
    · rintro ⟨_, _, h⟩
      rw [h]
  · rw [if_neg hc]
    constructor
    · intro h
      cases h
    · rintro ⟨h1, h2, _⟩
      exact absurd ⟨h1, h2⟩ hc

/-- C31: the guard comparison of read. Whenever the value of
`__stack_chk_guard` read after the delegated call differs from the value
captured before it, `IOTC_Session_Read` does not return: it calls
`__stack_chk_fail`. This holds for the function as linked in the library and
for any function linked in place of the delegated read, whatever that
function returns, 0 included. -/
theorem read_guard_change_aborts
    (delegate : Int → Bool → Int → Int → Option Nat → Option Nat → Int → Int → Int →
      iotc_state → read_result × iotc_state)
    (session_id : Int) (buf : Bool) (size timeout flags : Int)
    (guard_before guard_after : Nat) (now : Int) (s : iotc_state)
    (hguard : guard_after ≠ guard_before) :
    IOTC_Session_Read session_id buf size timeout flags guard_before guard_after now s = none ∧
    IOTC_Session_Read_with delegate session_id buf size timeout flags guard_before guard_after
      now s = none :=
  ⟨(read_with_delegate session_id buf size timeout flags guard_before guard_after now s).trans
      ((read_with_none_iff _ session_id buf size timeout flags guard_before guard_after now s).2
        (Or.inr (Ne.symm hguard))),
    (read_with_none_iff delegate session_id buf size timeout flags guard_before guard_after
      now s).2 (Or.inr (Ne.symm hguard))⟩

/-- Witness for C31: on the connected handle 1 of `connected_table` the
delegated read returns 0, and with the guard changed from 5 to 6 the read does
not return; the same with a stub that returns 0. -/
theorem read_guard_change_aborts_witness :
    (IOTC_Session_Read_Check_Lost_Data_And_Datatype 1 true 16 20 (some 0) (some 0) 0 0 9
      connected_table).1.ret = 0 ∧
    IOTC_Session_Read 1 true 16 20 0 5 6 9 connected_table = none ∧
    IOTC_Session_Read_with (stub_read 0) 5 false 10 20 0 5 6 9 connected_table = none :=
  ⟨by decide,
    read_guard_change_aborts (stub_read 0) 1 true 16 20 0 5 6 9 connected_table (by decide) |>.1,
    read_guard_change_aborts (stub_read 0) 5 false 10 20 0 5 6 9 connected_table
      (by decide) |>.2⟩

/-- C32: `IOTC_Session_Read` and a nonzero result of the delegated read.
Whenever the delegated read returns a value other than 0, `IOTC_Session_Read`
calls `__stack_chk_fail` although the guard value is unchanged; it returns
exactly when the delegated read returned 0 and the guard value is unchanged,
and then it returns 0 with the state the delegated read left. This holds for
the function as linked in the library and for any function linked in place of
the delegated read (a stub returning 1, for instance). -/
theorem read_nonzero_aborts
    (delegate : Int → Bool → Int → Int → Option Nat → Option Nat → Int → Int → Int →
      iotc_state → read_result × iotc_state)
    (session_id : Int) (buf : Bool) (size timeout flags : Int)
    (guard_before guard_after : Nat) (now : Int) (s : iotc_state) :
    ((delegate session_id buf size timeout (some 0) (some 0) flags 0 now s).1.ret ≠ 0 →
      IOTC_Session_Read_with delegate session_id buf size timeout flags guard_before guard_before
        now s = none) ∧
    (∀ r, IOTC_Session_Read_with delegate session_id buf size timeout flags guard_before
        guard_after now s = some r ↔
      ((delegate session_id buf size timeout (some 0) (some 0) flags 0 now s).1.ret = 0 ∧
        guard_before = guard_after ∧
        r = (0, (delegate session_id buf size timeout (some 0) (some 0) flags 0 now s).2))) ∧
    ((IOTC_Session_Read_Check_Lost_Data_And_Datatype session_id buf size timeout (some 0)
        (some 0) flags 0 now s).1.ret ≠ 0 →
      IOTC_Session_Read session_id buf size timeout flags guard_before guard_before now s =
        none) ∧
    (∀ r, IOTC_Session_Read session_id buf size timeout flags guard_before guard_after now s =
        some r ↔
      ((IOTC_Session_Read_Check_Lost_Data_And_Datatype session_id buf size timeout (some 0)
          (some 0) flags 0 now s).1.ret = 0 ∧
        guard_before = guard_after ∧
        r = (0, (IOTC_Session_Read_Check_Lost_Data_And_Datatype session_id buf size timeout
          (some 0) (some 0) flags 0 now s).2))) ∧
    IOTC_Session_Read_with (stub_read 1) session_id buf size timeout flags guard_before
      guard_before now s = none := by
  refine ⟨fun h => (read_with_none_iff delegate _ _ _ _ _ _ _ _ _).2 (Or.inl h),
    fun r => read_with_some_iff delegate _ _ _ _ _ _ _ _ _ r, ?_, ?_, ?_⟩
  · intro h
    rw [read_with_delegate]
    exact (read_with_none_iff _ _ _ _ _ _ _ _ _ _).2 (Or.inl h)
  · intro r
    rw [read_with_delegate]
    exact read_with_some_iff _ _ _ _ _ _ _ _ _ _ r
  · apply (read_with_none_iff (stub_read 1) _ _ _ _ _ _ _ _ _).2
    left
    show (1 : Int) ≠ 0
    decide

/-- Witness for C32: with a stub returning 1 and an unchanged guard the read
does not return; on the unknown handle 7 of `connected_table` the delegated
read returns -15 and the read does not return; on the connected handle 1 it
returns 0. -/
theorem read_nonzero_aborts_witness :
    IOTC_Session_Read_with (stub_read 1) 5 false 10 20 0 1 1 9 connected_table = none ∧
    IOTC_Session_Read 7 true 16 20 0 5 5 9 connected_table = none ∧
    (IOTC_Session_Read 1 true 16 20 0 5 5 9 connected_table).map (fun r => r.1) = some 0 :=
  ⟨(read_nonzero_aborts (stub_read 1) 5 false 10 20 0 1 1 9 connected_table).1 (by decide),
    (read_nonzero_aborts (stub_read 1) 7 true 16 20 0 5 5 9 connected_table).2.2.1 (by decide),
    by decide⟩

/-! ## Helper lemmas: byte swap -/

theorem testBit_byte_mask (m s i : Nat) (hm : m = 255 <<< s) :
    m.testBit i = decide (s ≤ i ∧ i < s + 8) := by
  have h255 : (255 : Nat) = 2 ^ 8 - 1 := by norm_num
  rw [hm, Nat.testBit_shiftLeft, h255, Nat.testBit_two_pow_sub_one, Bool.eq_iff_iff]
  simp only [Bool.and_eq_true, decide_eq_true_eq]
  constructor
  · rintro ⟨h1, h2⟩
    omega
  · rintro ⟨h1, h2⟩
    exact ⟨h1, by omega⟩

theorem bswap32_term_shl (v m s t i : Nat) (hm : m = 255 <<< s) (hst : s + t + 8 ≤ 32) :
    (((v &&& m) <<< t) % 4294967296).testBit i =
      (decide (s + t ≤ i ∧ i < s + t + 8) && v.testBit (i - t)) := by
  have p32 : (4294967296 : Nat) = 2 ^ 32 := by norm_num
  rw [p32, Nat.testBit_mod_two_pow, Nat.testBit_shiftLeft, Nat.testBit_and,
    testBit_byte_mask m s _ hm, Bool.eq_iff_iff]
  simp only [Bool.and_eq_true, decide_eq_true_eq]
  constructor
  · rintro ⟨_, h2, h3, h4, h5⟩
    exact ⟨⟨by omega, by omega⟩, h3⟩
  · rintro ⟨⟨h1, h2⟩, h3⟩
    have := hst
    exact ⟨by omega, by omega, h3, by omega, by omega⟩

theorem bswap32_term_shr (v m s t i : Nat) (hm : m = 255 <<< s) :
    ((v &&& m) >>> t).testBit i =
      (decide (s ≤ i + t ∧ i + t < s + 8) && v.testBit (i + t)) := by
  rw [Nat.testBit_shiftRight, Nat.testBit_and, testBit_byte_mask m s _ hm, Bool.eq_iff_iff,
    Nat.add_comm t i]
  simp only [Bool.and_eq_true, decide_eq_true_eq]
  exact ⟨fun h => ⟨h.2, h.1⟩, fun h => ⟨h.2, h.1⟩⟩

theorem bswap32_testBit (v i : Nat) :
    (bswap32 v).testBit i =
      if i < 8 then v.testBit (i + 24)
      else if i < 16 then v.testBit (i + 8)
      else if i < 24 then v.testBit (i - 8)
      else if i < 32 then v.testBit (i - 24)
      else false := by
  unfold bswap32
  rw [Nat.testBit_or, Nat.testBit_or, Nat.testBit_or,
    bswap32_term_shl v 0x000000FF 0 24 i (by decide) (by decide),
    bswap32_term_shl v 0x0000FF00 8 8 i (by decide) (by decide),
    bswap32_term_shr v 0x00FF0000 16 8 i (by decide),
    bswap32_term_shr v 0xFF000000 24 24 i (by decide)]
  by_cases h8 : i < 8
  · rw [decide_eq_false (show ¬ (0 + 24 ≤ i ∧ i < 0 + 24 + 8) by omega),
      decide_eq_false (show ¬ (8 + 8 ≤ i ∧ i < 8 + 8 + 8) by omega),
      decide_eq_false (show ¬ (16 ≤ i + 8 ∧ i + 8 < 16 + 8) by omega),
      decide_eq_true (show 24 ≤ i + 24 ∧ i + 24 < 24 + 8 by omega), if_pos h8]
    simp only [Bool.false_and, Bool.true_and, Bool.false_or]
  · rw [if_neg h8]
    by_cases h16 : i < 16
    · rw [decide_eq_false (show ¬ (0 + 24 ≤ i ∧ i < 0 + 24 + 8) by omega),
        decide_eq_false (show ¬ (8 + 8 ≤ i ∧ i < 8 + 8 + 8) by omega),
        decide_eq_true (show 16 ≤ i + 8 ∧ i + 8 < 16 + 8 by omega),
        decide_eq_false (show ¬ (24 ≤ i + 24 ∧ i + 24 < 24 + 8) by omega), if_pos h16]
      simp only [Bool.false_and, Bool.true_and, Bool.false_or, Bool.or_false]
    · rw [if_neg h16]
      by_cases h24 : i < 24
      · rw [decide_eq_false (show ¬ (0 + 24 ≤ i ∧ i < 0 + 24 + 8) by omega),
          decide_eq_true (show 8 + 8 ≤ i ∧ i < 8 + 8 + 8 by omega),
          decide_eq_false (show ¬ (16 ≤ i + 8 ∧ i + 8 < 16 + 8) by omega),
          decide_eq_false (show ¬ (24 ≤ i + 24 ∧ i + 24 < 24 + 8) by omega), if_pos h24]
        simp only [Bool.false_and, Bool.true_and, Bool.false_or, Bool.or_false]
      · rw [if_neg h24]
        by_cases h32 : i < 32
        · rw [decide_eq_true (show 0 + 24 ≤ i ∧ i < 0 + 24 + 8 by omega),
            decide_eq_false (show ¬ (8 + 8 ≤ i ∧ i < 8 + 8 + 8) by omega),
            decide_eq_false (show ¬ (16 ≤ i + 8 ∧ i + 8 < 16 + 8) by omega),
            decide_eq_false (show ¬ (24 ≤ i + 24 ∧ i + 24 < 24 + 8) by omega), if_pos h32]
          simp only [Bool.false_and, Bool.true_and, Bool.false_or, Bool.or_false]
        · rw [decide_eq_false (show ¬ (0 + 24 ≤ i ∧ i < 0 + 24 + 8) by omega),
            decide_eq_false (show ¬ (8 + 8 ≤ i ∧ i < 8 + 8 + 8) by omega),
            decide_eq_false (show ¬ (16 ≤ i + 8 ∧ i + 8 < 16 + 8) by omega),
            decide_eq_false (show ¬ (24 ≤ i + 24 ∧ i + 24 < 24 + 8) by omega), if_neg h32]
          simp only [Bool.false_and, Bool.false_or]

theorem bswap32_lt (v : Nat) : bswap32 v < 4294967296 := by
  have p32 : (4294967296 : Nat) = 2 ^ 32 := by norm_num
  rw [p32]
  apply Nat.lt_pow_two_of_testBit
  intro i hi
  rw [bswap32_testBit]
  simp only [show ¬ i < 8 by omega, show ¬ i < 16 by omega, show ¬ i < 24 by omega,
    show ¬ i < 32 by omega, if_false]

theorem bswap32_bswap32 (v : Nat) (hv : v < 4294967296) : bswap32 (bswap32 v) = v := by
  apply Nat.eq_of_testBit_eq
  intro i
  rw [bswap32_testBit]
  by_cases h8 : i < 8
  · rw [if_pos h8, bswap32_testBit]
    simp only [show ¬ i + 24 < 8 by omega, show ¬ i + 24 < 16 by omega,
      show ¬ i + 24 < 24 by omega, show i + 24 < 32 by omega, if_false, if_true,
      Nat.add_sub_cancel]
  · rw [if_neg h8]
    by_cases h16 : i < 16
    · rw [if_pos h16, bswap32_testBit]
      simp only [show ¬ i + 8 < 8 by omega, show ¬ i + 8 < 16 by omega,
        show i + 8 < 24 by omega, if_false, if_true, Nat.add_sub_cancel]
    · rw [if_neg h16]
      by_cases h24 : i < 24
      · rw [if_pos h24, bswap32_testBit]
        simp only [show ¬ i - 8 < 8 by omega, show i - 8 < 16 by omega, if_false, if_true,
          show i - 8 + 8 = i by omega]
      · rw [if_neg h24]
        by_cases h32 : i < 32
        · rw [if_pos h32, bswap32_testBit]
          simp only [show i - 24 < 8 by omega, if_true, show i - 24 + 24 = i by omega]
        · rw [if_neg h32]
          have p32 : (4294967296 : Nat) = 2 ^ 32 := by norm_num
          rw [p32] at hv
          exact (Nat.testBit_lt_two_pow (Nat.lt_of_lt_of_le hv
            (Nat.pow_le_pow_right (by decide) (by omega)))).symm

theorem byte_testBit (k v j : Nat) :
    (byte_of k v).testBit j = (decide (j < 8) && v.testBit (8 * k + j)) := by
  unfold byte_of
  have h1 : (256 : Nat) ^ k = 2 ^ (8 * k) := by
    rw [Nat.pow_mul]
  have h2 : (256 : Nat) = 2 ^ 8 := by norm_num
  rw [h1, ← Nat.shiftRight_eq_div_pow]
  conv_lhs => rw [h2]
  rw [Nat.testBit_mod_two_pow, Nat.testBit_shiftRight]

theorem byte_bswap32 (k v : Nat) (hk : k < 4) : byte_of k (bswap32 v) = byte_of (3 - k) v := by
  apply Nat.eq_of_testBit_eq
  intro j
  rw [byte_testBit, byte_testBit, bswap32_testBit]
  by_cases hj : j < 8
  swap
  · simp only [hj, decide_False, Bool.false_and]
  · simp only [hj, decide_True, Bool.true_and]
    have hk4 : k = 0 ∨ k = 1 ∨ k = 2 ∨ k = 3 := by omega
    rcases hk4 with rfl | rfl | rfl | rfl
    · simp only [show 8 * 0 + j < 8 by omega, if_true]
      congr 1
      omega
    · simp only [show ¬ 8 * 1 + j < 8 by omega, show 8 * 1 + j < 16 by omega, if_true, if_false]
      congr 1
      omega
    · simp only [show ¬ 8 * 2 + j < 8 by omega, show ¬ 8 * 2 + j < 16 by omega,
        show 8 * 2 + j < 24 by omega, if_true, if_false]
      congr 1
      omega
    · simp only [show ¬ 8 * 3 + j < 8 by omega, show ¬ 8 * 3 + j < 16 by omega,
        show ¬ 8 * 3 + j < 24 by omega, show 8 * 3 + j < 32 by omega, if_true, if_false]
      congr 1
      omega

theorem and_byte_shl_lt (v t : Nat) (m : Nat) (hm : m * 2 ^ t < 4294967296) :
    (v &&& m) <<< t < 4294967296 := by
  rw [Nat.shiftLeft_eq]
  exact Nat.lt_of_le_of_lt (Nat.mul_le_mul_right _ Nat.and_le_right) hm

theorem data_round_trip (little_endian : Bool) (v : Nat) (hv : v < 4294967296) :
    IOTC_Data_ntoh little_endian (IOTC_Data_hton little_endian v) = v ∧
    IOTC_Data_hton little_endian (IOTC_Data_ntoh little_endian v) = v := by
  cases little_endian with
  | false => exact ⟨rfl, rfl⟩
  | true =>
    simp only [IOTC_Data_ntoh, IOTC_Data_hton, if_true]
    exact ⟨bswap32_bswap32 v hv, bswap32_bswap32 v hv⟩

/-! ## Byte order and version -/

/-- C33: header round trip. For a header whose five fields are 32-bit values,
on a little-endian and on a big-endian host alike: `IOTC_Header_hton` followed
by `IOTC_Header_ntoh`, and `IOTC_Header_ntoh` followed by `IOTC_Header_hton`,
give back the header; each conversion replaces every field by the scalar
conversion of that same field; a null pointer is left alone. -/
theorem header_round_trip (little_endian : Bool) (h : IOTCHeader) (hr : header_in_range h) :
    IOTC_Header_ntoh little_endian (IOTC_Header_hton little_endian (some h)) = some h ∧
    IOTC_Header_hton little_endian (IOTC_Header_ntoh little_endian (some h)) = some h ∧
    IOTC_Header_hton little_endian (some h) =
      some { flag := IOTC_Data_hton little_endian h.flag,
             sid := IOTC_Data_hton little_endian h.sid,
             seq := IOTC_Data_hton little_endian h.seq,
             timestamp := IOTC_Data_hton little_endian h.timestamp,
             payload := IOTC_Data_hton little_endian h.payload } ∧
    IOTC_Header_ntoh little_endian (some h) =
      some { flag := IOTC_Data_ntoh little_endian h.flag,
             sid := IOTC_Data_ntoh little_endian h.sid,
             seq := IOTC_Data_ntoh little_endian h.seq,
             timestamp := IOTC_Data_ntoh little_endian h.timestamp,
             payload := IOTC_Data_ntoh little_endian h.payload } ∧
    IOTC_Header_hton little_endian none = none ∧
    IOTC_Header_ntoh little_endian none = none := by
  obtain ⟨h1, h2, h3, h4, h5⟩ := hr
  obtain ⟨flag, sid, seq, timestamp, payload⟩ := h
  simp only at h1 h2 h3 h4 h5
  refine ⟨?_, ?_, rfl, rfl, rfl, rfl⟩
  · simp only [IOTC_Header_ntoh, IOTC_Header_hton]
    rw [(data_round_trip little_endian flag h1).1, (data_round_trip little_endian sid h2).1,
      (data_round_trip little_endian seq h3).1, (data_round_trip little_endian timestamp h4).1,
      (data_round_trip little_endian payload h5).1]
  · simp only [IOTC_Header_ntoh, IOTC_Header_hton]
    rw [(data_round_trip little_endian flag h1).2, (data_round_trip little_endian sid h2).2,
      (data_round_trip little_endian seq h3).2, (data_round_trip little_endian timestamp h4).2,
      (data_round_trip little_endian payload h5).2]

/-- Witness for C33: the header of the conversion test, on a little-endian
host. -/
theorem header_round_trip_witness :
    IOTC_Header_hton true (some test_header) =
      some { flag := 0x44332211, sid := 0x88776655, seq := 0xccbbaa99, timestamp := 0x00ffeedd,
             payload := 0x78563412 } ∧
    IOTC_Header_ntoh true (IOTC_Header_hton true (some test_header)) = some test_header :=
  ⟨by decide,
    (header_round_trip true test_header
      ⟨by decide, by decide, by decide, by decide, by decide⟩).1⟩

/-- C34: the scalar conversions on a little-endian host. For every 32-bit
`x`: `IOTC_Data_hton` and `IOTC_Data_ntoh` both are `bswap32`; byte `k` of the
result is byte `3 - k` of `x`, and the result is a 32-bit value; the two left
shifts stay below `2^32`, so the reduction modulo `2^32` drops nothing; and
each conversion undoes the other. -/
theorem data_swap_little_endian (x : Nat) (hx : x < 4294967296) :
    IOTC_Data_hton true x = bswap32 x ∧ IOTC_Data_ntoh true x = bswap32 x ∧
    (∀ k : Nat, k < 4 → byte_of k (bswap32 x) = byte_of (3 - k) x) ∧
    bswap32 x < 4294967296 ∧
    (x &&& 0x000000FF) <<< 24 < 4294967296 ∧ (x &&& 0x0000FF00) <<< 8 < 4294967296 ∧
    IOTC_Data_ntoh true (IOTC_Data_hton true x) = x ∧
    IOTC_Data_hton true (IOTC_Data_ntoh true x) = x :=
  ⟨rfl, rfl, fun k hk => byte_bswap32 k x hk, bswap32_lt x,
    and_byte_shl_lt x 24 0x000000FF (by decide), and_byte_shl_lt x 8 0x0000FF00 (by decide),
    (data_round_trip true x hx).1, (data_round_trip true x hx).2⟩

/-- Witness for C34: `0x11223344` becomes `0x44332211`, and back. -/
theorem data_swap_little_endian_witness :
    IOTC_Data_hton true 0x11223344 = 0x44332211 ∧
    IOTC_Data_ntoh true (IOTC_Data_hton true 0x11223344) = 0x11223344 :=
  ⟨by decide, (data_swap_little_endian 0x11223344 (by decide)).2.2.2.2.2.2.1⟩

/-- C35: the version. `IOTC_Get_Version` stores `0x010d0700` behind a non-null
pointer; the four bytes of that value, most significant first, are 1, 13, 7
and 0; `IOTC_Get_Version_String` returns `1.13.7.0`, whose dot-separated
numbers are the same four values. -/
theorem version_spec :
    (∀ v : Nat, IOTC_Get_Version (some v) = some 0x010d0700) ∧
    IOTC_Get_Version none = none ∧
    version_bytes 0x010d0700 = [1, 13, 7, 0] ∧
    IOTC_Get_Version_String = "1.13.7.0" ∧
    version_components IOTC_Get_Version_String = [1, 13, 7, 0] ∧
    (∀ v : Nat, (IOTC_Get_Version (some v)).map version_bytes =
      some (version_components IOTC_Get_Version_String)) := by
  refine ⟨fun _ => rfl, rfl, by decide, rfl, by decide, fun _ => ?_⟩
  show some (version_bytes 0x010d0700) = some (version_components IOTC_Get_Version_String)
  decide

/-! ## Helper lemmas: error codes -/

theorem toUInt32_neg_one : toUInt32 (-1) = 4294967295 := by decide

theorem find_session_by_id_neg_one (s : iotc_state) (hwf : table_wf s) :
    find_session_by_id s (-1) = none := by
  rw [find_session_by_id_none]
  intro x hx hxs
  have hmem := List.mem_of_mem_take hx
  obtain ⟨_, hlt⟩ := hwf.2.2.2.2.2.2.1 x hmem hxs.1
  have hmax := hwf.2.2.2.2.2.1
  have hid : (x.session_id : Int) = 4294967295 := by
    rw [hxs.2, toUInt32_neg_one]
    rfl
  omega

theorem close_twice (h : Int) (s : iotc_state) (hinit : s.initialized = true)
    (hwf : table_wf s) (hok : (IOTC_Session_Close h s).1 = 0) :
    IOTC_Session_Close h (IOTC_Session_Close h s).2 =
      (IOTC_ER_INVALID_SID, (IOTC_Session_Close h s).2) := by
  rcases close_cases h s hinit with ⟨_, hcl⟩ | ⟨i, hf, hcl⟩
  · rw [hcl] at hok
    exact absurd hok (show ¬ (IOTC_ER_INVALID_SID = (0 : Int)) by decide)
  · obtain ⟨x, hx, hxs, hid⟩ := find_session_by_id_some s h i hf
    have hslots : slots (IOTC_Session_Close h s).2 = (slots s).set i (cleanup_session x) := by
      rw [hcl]
      exact slots_modify_slot_of_some s i _ x hx
    have hinit2 : (IOTC_Session_Close h s).2.initialized = true := by
      rw [hcl]
      exact hinit
    have hnone2 : find_session_by_id (IOTC_Session_Close h s).2 h = none := by
      rw [find_session_by_id_none]
      intro y hy hys
      have hy2 := List.mem_of_mem_take hy
      rw [hslots] at hy2
      obtain ⟨k, hk⟩ := List.mem_iff_getElem?.1 hy2
      by_cases hik : i = k
      · subst hik
        rw [List.getElem?_set_self (List.getElem?_eq_some.1 hx).1] at hk
        cases hk
        exact hys.1 rfl
      · rw [List.getElem?_set_ne hik] at hk
        exact hik (hwf.2.2.2.2.2.2.2 i k x y hx hk hxs hys.1 (hid.trans hys.2.symm))
    rcases close_cases h _ hinit2 with ⟨_, hc2⟩ | ⟨k, hk, _⟩
    · exact hc2
    · rw [hnone2] at hk
      cases hk

theorem find_connected_of_not_found (s : iotc_state) (h : Int)
    (hf : find_session_by_id s h = none) : find_connected s h = none := by
  unfold find_connected
  rw [hf]

/-! ## Error codes -/

/-- C36 (as stated, refuted): in the scenario of the error-condition test on
a freshly initialized table, close of handle -1, channel on and off of handle
-1, channel on and off with channel 32 on the allocated handle 1, and the
second close of handle 1 do not return -1: they return -15, -15, -15, -27,
-27 and -15; an allocation on the full table returns -16, not -1. -/
theorem error_codes_are_not_minus_one :
    results fresh_table
      [.Session_Close (-1), .Session_Channel_ON (-1) 0, .Session_Channel_OFF (-1) 0,
       .Get_SessionID, .Session_Channel_ON 1 32, .Session_Channel_OFF 1 32,
       .Session_Close 1, .Session_Close 1] = [-15, -15, -15, 1, -27, -27, 0, -15] ∧
    ¬ (results fresh_table
      [.Session_Close (-1), .Session_Channel_ON (-1) 0, .Session_Channel_OFF (-1) 0,
       .Get_SessionID, .Session_Channel_ON 1 32, .Session_Channel_OFF 1 32,
       .Session_Close 1, .Session_Close 1] = [-1, -1, -1, 1, -1, -1, 0, -1]) ∧
    (IOTC_Get_SessionID full_table).1 = -16 ∧
    ¬ ((IOTC_Get_SessionID full_table).1 = -1) := by
  decide

/-- C36 (amended): on an initialized, well-formed table the rejected calls
return the specific codes: close, channel on and channel off of handle -1
return -15 (`IOTC_ER_INVALID_SID`); channel on and channel off with channel 32
return -27 (`IOTC_ER_INVALID_ARG`) for every handle; the close of a handle
that was just closed successfully returns -15; an allocation on a table with
no free slot returns -16 (`IOTC_ER_EXCEED_MAX_SESSION`). Each of these calls
leaves the table as it was. -/
theorem rejected_calls_codes (s : iotc_state) (hinit : s.initialized = true)
    (hwf : table_wf s) :
    IOTC_Session_Close (-1) s = (-15, s) ∧
    IOTC_Session_Channel_ON (-1) 0 s = (-15, s) ∧
    IOTC_Session_Channel_OFF (-1) 0 s = (-15, s) ∧
    (∀ h : Int, IOTC_Session_Channel_ON h 32 s = (-27, s) ∧
      IOTC_Session_Channel_OFF h 32 s = (-27, s)) ∧
    (∀ h : Int, (IOTC_Session_Close h s).1 = 0 →
      IOTC_Session_Close h (IOTC_Session_Close h s).2 = (-15, (IOTC_Session_Close h s).2)) ∧
    (free_slots s = 0 → IOTC_Get_SessionID s = (-16, s)) := by
  have hnf := find_session_by_id_neg_one s hwf
  have hnc := find_connected_of_not_found s (-1) hnf
  refine ⟨?_, ?_, ?_, ?_, fun h hok => close_twice h s hinit hwf hok,
    fun hfull => get_sessionid_full s hinit hfull⟩
  · rcases close_cases (-1) s hinit with ⟨_, hcl⟩ | ⟨i, hf, _⟩
    · exact hcl
    · rw [hnf] at hf
      cases hf
  · rcases channel_on_cases (-1) 0 s (by decide) hinit with ⟨_, hr⟩ | ⟨i, x, hf, _⟩
    · exact hr
    · rw [hnc] at hf
      cases hf
  · rcases channel_off_cases (-1) 0 s (by decide) hinit with ⟨_, hr⟩ | ⟨i, x, hf, _⟩
    · exact hr
    · rw [hnc] at hf
      cases hf
  · intro h
    exact ⟨(channel_bad_index h 32 s (Nat.le_refl 32)).1,
      (channel_bad_index h 32 s (Nat.le_refl 32)).2.1⟩

/-- Witness for C36 (amended), on the table right after `IOTC_Initialize`. -/
theorem rejected_calls_codes_witness :
    IOTC_Session_Close (-1) fresh_table = (-15, fresh_table) ∧
    IOTC_Session_Channel_ON 1 32 fresh_table = (-27, fresh_table) :=
  ⟨(rejected_calls_codes fresh_table (by decide) fresh_table_wf).1,
    ((rejected_calls_codes fresh_table (by decide) fresh_table_wf).2.2.2.1 1).1⟩

/-- C40: argument checks come before the initialization check. On a table
that is not initialized: channel on, channel off and channel check with a
channel index of 32 or more, write with an absent payload, a length of 0 or a
length above 1400, or a channel index of 32 or more, and connect with a null
id or an id whose length is not 20 all return -27 (`IOTC_ER_INVALID_ARG`); the
same calls with valid arguments return -1 (`IOTC_ER_NOT_INITIALIZED`). The
table is unchanged in every case. -/
theorem argument_check_precedes_init (s : iotc_state) (hs : s.initialized = false) (h : Int)
    (ch : Nat) (data : Option (List Nat)) (size : Nat) (uid : Option (List Nat))
    (sock now : Int) :
    (32 ≤ ch →
      IOTC_Session_Channel_ON h ch s = (-27, s) ∧
      IOTC_Session_Channel_OFF h ch s = (-27, s) ∧
      IOTC_Session_Channel_Check_ON_OFF h ch s = (-27, s)) ∧
    ((data = none ∨ size = 0 ∨ 1400 < size ∨ 32 ≤ ch) →
      IOTC_Session_Write h data size ch now s = (-27, s)) ∧
    ((∀ u, uid = some u → u.length ≠ 20) →
      IOTC_Connect_ByUID uid sock now s = some (-27, s)) ∧
    (ch < 32 →
      IOTC_Session_Channel_ON h ch s = (-1, s) ∧
      IOTC_Session_Channel_OFF h ch s = (-1, s) ∧
      IOTC_Session_Channel_Check_ON_OFF h ch s = (-1, s)) ∧
    (data ≠ none → 1 ≤ size → size ≤ 1400 → ch < 32 →
      IOTC_Session_Write h data size ch now s = (-1, s)) ∧
    ((∃ u, uid = some u ∧ u.length = 20) →
      IOTC_Connect_ByUID uid sock now s = some (-1, s)) := by
  refine ⟨fun hch => channel_bad_index h ch s hch, ?_, fun hu => connect_invalid uid sock now s hu,
    ?_, ?_, ?_⟩
  · intro hbad
    have hargs : data.isNone ∨ size = 0 ∨ size > MAX_PACKET_SIZE ∨
        ch ≥ MAX_CHANNEL_NUMBER := by
      simp only [MAX_PACKET_SIZE, MAX_CHANNEL_NUMBER, Option.isNone_iff_eq_none]
      exact hbad
    unfold IOTC_Session_Write
    rw [if_pos hargs]
  · intro hch
    have hge : ¬ (ch ≥ MAX_CHANNEL_NUMBER) := by
      simp only [MAX_CHANNEL_NUMBER]
      omega
    refine ⟨?_, ?_, ?_⟩
    · simp only [IOTC_Session_Channel_ON, hge, hs, if_false, Bool.not_false, if_true]
    · simp only [IOTC_Session_Channel_OFF, hge, hs, if_false, Bool.not_false, if_true]
    · simp only [IOTC_Session_Channel_Check_ON_OFF, hge, hs, if_false, Bool.not_false, if_true]
  · intro hdata h1 h2 hch
    have hargs : ¬ (data.isNone ∨ size = 0 ∨ size > MAX_PACKET_SIZE ∨
        ch ≥ MAX_CHANNEL_NUMBER) := by
      simp only [MAX_PACKET_SIZE, MAX_CHANNEL_NUMBER, Option.isNone_iff_eq_none]
      rintro (hd | h0 | hbig | hc)
      · exact hdata hd
      · omega
      · omega
      · omega
    unfold IOTC_Session_Write
    rw [if_neg hargs]
    simp only [hs, Bool.not_false, if_true]
  · rintro ⟨u, rfl, hlen⟩
    exact connect_uninit u sock now s hlen hs

/-- Witness for C40, on the all-zero state: channel 32 gives -27 and channel
0 gives -1; a write of 1401 bytes gives -27; a 19-byte id gives -27 and a
20-byte id gives -1. -/
theorem argument_check_precedes_init_witness :
    IOTC_Session_Channel_ON 1 32 g_iotc_state_zero = (-27, g_iotc_state_zero) ∧
    IOTC_Session_Channel_ON 1 0 g_iotc_state_zero = (-1, g_iotc_state_zero) ∧
    IOTC_Session_Write 1 (some (List.replicate 1401 0)) 1401 0 9 g_iotc_state_zero =
      (-27, g_iotc_state_zero) ∧
    IOTC_Connect_ByUID (some (List.replicate 19 65)) 3 0 g_iotc_state_zero =
      some (-27, g_iotc_state_zero) ∧
    IOTC_Connect_ByUID (some (List.replicate 20 65)) 3 0 g_iotc_state_zero =
      some (-1, g_iotc_state_zero) :=
  ⟨((argument_check_precedes_init g_iotc_state_zero rfl 1 32 none 0 none 3 0).1
      (by decide)).1,
    ((argument_check_precedes_init g_iotc_state_zero rfl 1 0 none 0 none 3 0).2.2.2.1
      (by decide)).1,
    (argument_check_precedes_init g_iotc_state_zero rfl 1 0 (some (List.replicate 1401 0)) 1401
      none 3 9).2.1 (Or.inr (Or.inr (Or.inl (by decide)))),
    (argument_check_precedes_init g_iotc_state_zero rfl 1 0 none 0
      (some (List.replicate 19 65)) 3 0).2.2.1
      (fun u hu => by cases hu; decide),
    (argument_check_precedes_init g_iotc_state_zero rfl 1 0 none 0
      (some (List.replicate 20 65)) 3 0).2.2.2.2.2 ⟨_, rfl, by decide⟩⟩

/-! ## Helper lemmas: slot states along a sequence of calls -/

theorem states_ok_modify_slot (s : iotc_state) (i : Nat) (f : session_info_t → session_info_t)
    (hs : states_ok s)
    (hf : ∀ x, (f x).state = .FREE ∨ (f x).state = .USED ∨ (f x).state = .CONNECTED) :
    states_ok (modify_slot s i f) := by
  intro y hy
  rcases mem_slots_modify_slot s i f y hy with h | ⟨x, _, rfl⟩
  · exact hs y h
  · exact hf x

theorem states_ok_of_evolves (s t : iotc_state) (hs : states_ok s) (h : evolves s t) :
    states_ok t := by
  intro y hy
  obtain ⟨i, hi⟩ := List.mem_iff_getElem?.1 hy
  obtain ⟨x, hx, hrel⟩ := h.2.2.2.2 i y hi
  rcases hrel.2.2.1 with h1 | h1 | h1
  · rw [h1]
    exact hs x (List.getElem?_mem hx)
  · exact Or.inl h1
  · exact Or.inr (Or.inr h1.2)

theorem states_ok_get (s : iotc_state) (hs : states_ok s) :
    states_ok (IOTC_Get_SessionID s).2 := by
  rcases Bool.eq_false_or_eq_true s.initialized with hinit | hinit
  · rcases get_sessionid_cases s hinit with ⟨_, h⟩ | ⟨i, x, _, _, _, h⟩
    · rw [h]
      exact hs
    · rw [h]
      exact states_ok_modify_slot s i _ hs (fun _ => Or.inr (Or.inl rfl))
  · have : IOTC_Get_SessionID s = (IOTC_ER_NOT_INITIALIZED, s) := by
      simp [IOTC_Get_SessionID, hinit]
    rw [this]
    exact hs

theorem states_ok_of_slots_eq (s t : iotc_state) (hs : states_ok s) (h : slots t = slots s) :
    states_ok t := by
  intro y hy
  rw [h] at hy
  exact hs y hy

theorem states_ok_of_slots_nil (t : iotc_state) (h : slots t = []) : states_ok t := by
  intro y hy
  rw [h] at hy
  cases hy

theorem step_states_ok (op : Op) (s : iotc_state) (r : Int × iotc_state)
    (hstep : step op s = some r) (hs : states_ok s) : states_ok r.2 := by
  cases op with
  | Initialize alloc_ok now =>
    simp only [step, Option.some.injEq] at hstep
    subst hstep
    rcases Bool.eq_false_or_eq_true s.initialized with hi | hi
    · rw [initialize_of_initialized alloc_ok now s hi]
      exact hs
    · cases alloc_ok with
      | false =>
        apply states_ok_of_slots_nil
        simp [IOTC_Initialize, hi, slots]
      | true =>
        rw [initialize_success now s hi]
        intro y hy
        simp only [slots, Option.getD_some] at hy
        rw [List.eq_of_mem_replicate hy]
        exact Or.inl rfl
  | DeInitialize =>
    simp only [step, Option.some.injEq] at hstep
    subst hstep
    rcases Bool.eq_false_or_eq_true s.initialized with hi | hi
    · exact states_ok_of_slots_nil _ (slots_after_deinit s hi)
    · have : IOTC_DeInitialize s = (IOTC_ER_NOT_INITIALIZED, s) := by
        simp [IOTC_DeInitialize, hi]
      rw [this]
      exact hs
  | Get_SessionID =>
    simp only [step, Option.some.injEq] at hstep
    subst hstep
    exact states_ok_get s hs
  | Set_Max_Session_Number n =>
    simp only [step, Option.some.injEq] at hstep
    subst hstep
    exact states_ok_of_slots_eq s _ hs (slots_set_max n s)
  | Connect_ByUID uid sock now =>
    simp only [step] at hstep
    rw [(connect_returns uid sock now s r hstep).1]
    exact hs
  | Session_Close sid =>
    simp only [step, Option.some.injEq] at hstep
    subst hstep
    exact states_ok_of_evolves s _ hs (evolves_close sid s)
  | Session_Channel_ON sid ch =>
    simp only [step, Option.some.injEq] at hstep
    subst hstep
    exact states_ok_of_evolves s _ hs (evolves_channel_on sid ch s)
  | Session_Channel_OFF sid ch =>
    simp only [step, Option.some.injEq] at hstep
    subst hstep
    exact states_ok_of_evolves s _ hs (evolves_channel_off sid ch s)
  | Session_Channel_Check_ON_OFF sid ch =>
    simp only [step, Option.some.injEq] at hstep
    subst hstep
    rw [channel_check_state]
    exact hs
  | Session_Get_Free_Channel sid =>
    simp only [step, Option.some.injEq] at hstep
    subst hstep
    rw [free_channel_state]
    exact hs
  | Session_Write sid data size ch now =>
    simp only [step, Option.some.injEq] at hstep
    subst hstep
    exact states_ok_of_evolves s _ hs (evolves_write sid data size ch now s)
  | Session_Read_Check_Lost_Data_And_Datatype sid buf size timeout lost datatype flags unused now =>
    simp only [step, Option.some.injEq] at hstep
    subst hstep
    exact states_ok_of_evolves s _ hs
      (evolves_read_check sid buf size timeout lost datatype flags unused now s)
  | Session_Read sid buf size timeout flags g0 g1 now =>
    simp only [step, IOTC_Session_Read] at hstep
    split at hstep
    · simp only [Option.some.injEq] at hstep
      subst hstep
      exact states_ok_of_evolves s _ hs
        (evolves_read_check sid buf size timeout (some 0) (some 0) flags 0 now s)
    · cases hstep
  | Get_Session_Status sid =>
    simp only [step, Option.some.injEq] at hstep
    subst hstep
    rw [status_state]
    exact hs
  | Session_Check sid =>
    simp only [step, Option.some.injEq] at hstep
    subst hstep
    rw [session_check_state]
    exact hs
  | Session_Get_Channel_ON_Count sid =>
    simp only [step, Option.some.injEq] at hstep
    subst hstep
    rw [on_count_state]
    exact hs
  | Session_Get_Channel_ON_Bitmap sid =>
    simp only [step, Option.some.injEq] at hstep
    subst hstep
    rw [on_bitmap_state]
    exact hs

theorem run_states_ok (ops : List Op) :
    ∀ (s s' : iotc_state), states_ok s → run s ops = some s' → states_ok s' := by
  induction ops with
  | nil =>
    intro s s' hs hrun
    simp only [run, Option.some.injEq] at hrun
    subst hrun
    exact hs
  | cons op ops ih =>
    intro s s' hs hrun
    simp only [run] at hrun
    cases hstep : step op s with
    | none =>
      rw [hstep] at hrun
      cases hrun
    | some r =>
      rw [hstep] at hrun
      exact ih r.2 s' (step_states_ok op s r hstep hs) hrun

theorem status_values (h : Int) (s : iotc_state) (hs : states_ok s) :
    (IOTC_Get_Session_Status h s).1 = -1 ∨ (IOTC_Get_Session_Status h s).1 = -15 ∨
    (IOTC_Get_Session_Status h s).1 = 1 ∨ (IOTC_Get_Session_Status h s).1 = 3 := by
  rcases Bool.eq_false_or_eq_true s.initialized with hi | hi
  · rcases status_eq h s hi with ⟨_, hst⟩ | ⟨i, x, _, hx, hfree, _, hst⟩
    · rw [hst]
      exact Or.inr (Or.inl rfl)
    · rw [hst]
      rcases hs x (List.getElem?_mem hx) with h1 | h1 | h1
      · exact absurd h1 hfree
      · rw [h1]
        exact Or.inr (Or.inr (Or.inl rfl))
      · rw [h1]
        exact Or.inr (Or.inr (Or.inr rfl))
  · left
    simp [IOTC_Get_Session_Status, hi]

/-! ## Slot states -/

/-- C39: the slot states of the reachable tables. In every state that a
sequence of public calls reaches from the all-zero global state, each slot is
`FREE`, `USED` or `CONNECTED` (none is `CONNECTING` or `DISCONNECTED`), and for
every handle the status call returns -1, -15, 1 or 3: never 0 (`FREE`), 2
(`CONNECTING`) or 4 (`DISCONNECTED`). -/
theorem reachable_slot_states (ops : List Op) (s : iotc_state)
    (hrun : run g_iotc_state_zero ops = some s) :
    (∀ x ∈ slots s, x.state = .FREE ∨ x.state = .USED ∨ x.state = .CONNECTED) ∧
    (∀ x ∈ slots s, x.state ≠ .CONNECTING ∧ x.state ≠ .DISCONNECTED) ∧
    ∀ h : Int,
      ((IOTC_Get_Session_Status h s).1 = -1 ∨ (IOTC_Get_Session_Status h s).1 = -15 ∨
        (IOTC_Get_Session_Status h s).1 = 1 ∨ (IOTC_Get_Session_Status h s).1 = 3) ∧
      (IOTC_Get_Session_Status h s).1 ≠ 0 ∧ (IOTC_Get_Session_Status h s).1 ≠ 2 ∧
      (IOTC_Get_Session_Status h s).1 ≠ 4 := by
  have hs : states_ok s :=
    run_states_ok ops g_iotc_state_zero s (states_ok_of_slots_nil _ rfl) hrun
  refine ⟨hs, ?_, ?_⟩
  · intro x hx
    rcases hs x hx with h1 | h1 | h1 <;> rw [h1] <;> exact ⟨by decide, by decide⟩
  · intro h
    have hv := status_values h s hs
    refine ⟨hv, ?_, ?_, ?_⟩ <;>
    · intro hc
      rw [hc] at hv
      revert hv
      decide

/-- Witness for C39: the table reached by initialising and allocating one
session; the status of handle 1 is 1 and the status of handle 7 is -15. -/
theorem reachable_slot_states_witness :
    run g_iotc_state_zero [.Initialize true 0, .Get_SessionID] =
      some (IOTC_Get_SessionID fresh_table).2 ∧
    (IOTC_Get_Session_Status 1 (IOTC_Get_SessionID fresh_table).2).1 ≠ 2 ∧
    (IOTC_Get_Session_Status 1 (IOTC_Get_SessionID fresh_table).2).1 = 1 ∧
    (IOTC_Get_Session_Status 7 (IOTC_Get_SessionID fresh_table).2).1 = -15 :=
  ⟨rfl,
    ((reachable_slot_states [.Initialize true 0, .Get_SessionID]
      (IOTC_Get_SessionID fresh_table).2 rfl).2.2 1).2.2.1,
    by decide, by decide⟩

/-! ## Helper lemmas: channels along a sequence of calls -/

theorem store_same (mem : Nat → Option linked_entry) (a : Nat) (v : Option linked_entry) :
    store mem a v a = v := by
  unfold store
  rw [if_pos rfl]

theorem store_other (mem : Nat → Option linked_entry) (a b : Nat) (v : Option linked_entry)
    (h : b ≠ a) : store mem a v b = mem b := by
  unfold store
  rw [if_neg h]

theorem chain_store (mem : Nat → Option linked_entry) (a : Nat) (v : Option linked_entry)
    (l : List Nat) (p : Option Nat) (ha : a ∉ l) (h : chain mem l p) :
    chain (store mem a v) l p := by
  induction l generalizing p with
  | nil => exact h
  | cons b l ih =>
    obtain ⟨hp, c, hc, hrest⟩ := h
    have hba : b ≠ a := fun hh => ha (by rw [hh]; exact List.mem_cons_self _ _)
    refine ⟨hp, c, ?_, ih c.next (fun hh => ha (List.mem_cons_of_mem _ hh)) hrest⟩
    rw [store_other mem a b v hba]
    exact hc

theorem chain_head (mem : Nat → Option linked_entry) (l : List Nat) (p : Option Nat)
    (h : chain mem l p) : p = l.head? := by
  cases l with
  | nil => exact h
  | cons a l => exact h.1

theorem chain_nil_of_none (mem : Nat → Option linked_entry) (l : List Nat)
    (h : chain mem l none) : l = [] := by
  cases l with
  | nil => rfl
  | cons a l => cases h.1

theorem chain_snoc (mem : Nat → Option linked_entry) (e t : Nat) (n : linked_entry)
    (hn : n.next = none) (l : List Nat) (p : Option Nat) (h : chain mem l p)
    (hnd : l.Nodup) (he : e ∉ l) (ht : l.getLast? = some t) :
    chain (store (store mem e (some n)) t
      ((store mem e (some n) t).map (fun c => { c with next := some e }))) (l ++ [e]) p := by
  induction l generalizing p with
  | nil => cases ht
  | cons a l ih =>
    obtain ⟨hp, c, hc, hrest⟩ := h
    have hae : a ≠ e := fun hh => he (by rw [hh]; exact List.mem_cons_self _ _)
    have hel : e ∉ l := fun hh => he (List.mem_cons_of_mem _ hh)
    cases l with
    | nil =>
      simp only [List.getLast?_singleton, Option.some.injEq] at ht
      subst ht
      have hnil : c.next = none := hrest
      refine ⟨hp, { c with next := some e }, ?_, ?_⟩
      · rw [store_same, store_other mem e a _ hae, hc]
        rfl
      · refine ⟨rfl, n, ?_, ?_⟩
        · rw [store_other _ a e _ (Ne.symm hae), store_same]
        · rw [hn]
          rfl
    | cons b l' =>
      rw [List.getLast?_cons_cons] at ht
      have hat : a ≠ t := by
        intro hh
        have hmem : t ∈ b :: l' := List.mem_of_getLast?_eq_some ht
        rw [← hh] at hmem
        exact (List.nodup_cons.1 hnd).1 hmem
      refine ⟨hp, c, ?_, ih c.next hrest (List.nodup_cons.1 hnd).2 hel ht⟩
      rw [store_other _ t a _ hat, store_other mem e a _ hae]
      exact hc

theorem contents_congr (q q' : linked_queue) (l : List Nat)
    (h : ∀ a ∈ l, (q'.mem a).map message_of = (q.mem a).map message_of) :
    contents q' l = contents q l := by
  unfold contents
  induction l with
  | nil => rfl
  | cons a l ih =>
    rw [List.filterMap_cons, List.filterMap_cons, h a (List.mem_cons_self _ _),
      ih (fun b hb => h b (List.mem_cons_of_mem _ hb))]

theorem contents_cons (q : linked_queue) (a : Nat) (l : List Nat) (c : linked_entry)
    (hc : q.mem a = some c) : contents q (a :: l) = message_of c :: contents q l := by
  unfold contents
  rw [List.filterMap_cons, hc]
  rfl

theorem contents_length (q : linked_queue) (l : List Nat) (p : Option Nat)
    (h : chain q.mem l p) : (contents q l).length = l.length := by
  induction l generalizing p with
  | nil => rfl
  | cons a l ih =>
    obtain ⟨_, c, hc, hrest⟩ := h
    rw [contents_cons q a l c hc, List.length_cons, List.length_cons, ih c.next hrest]

theorem queue_wf_empty_iff (q : linked_queue) (l : List Nat) (h : queue_wf q l) :
    (q.msg_queue_head = none ↔ q.msg_queue_tail = none) ∧
    (q.msg_queue_head = none ↔ l = []) := by
  obtain ⟨hch, htl, _⟩ := h
  have hh := chain_head q.mem l _ hch
  rw [hh, htl]
  cases l with
  | nil => simp
  | cons a l => simp

theorem linked_enqueue_first (q : linked_queue) (data : List Nat) (size seq_id e : Nat)
    (h : q.msg_queue_tail = none) :
    linked_enqueue_message q data size seq_id (some e) true =
      (0, { mem := store q.mem e (some { data := data.take size, size := size,
                                          seq_id := seq_id % 65536, next := none }),
            msg_queue_head := some e, msg_queue_tail := some e }) := by
  unfold linked_enqueue_message
  rw [h]
  rfl

theorem linked_enqueue_next (q : linked_queue) (data : List Nat) (size seq_id e t : Nat)
    (h : q.msg_queue_tail = some t) :
    linked_enqueue_message q data size seq_id (some e) true =
      (0, { mem := store (store q.mem e (some { data := data.take size, size := size,
                                                 seq_id := seq_id % 65536, next := none })) t
              ((store q.mem e (some { data := data.take size, size := size,
                                       seq_id := seq_id % 65536, next := none }) t).map
                (fun c => { c with next := some e })),
            msg_queue_head := q.msg_queue_head, msg_queue_tail := some e }) := by
  unfold linked_enqueue_message
  rw [h]
  rfl

theorem linked_enqueue_wf (q : linked_queue) (l : List Nat) (h : queue_wf q l)
    (data : List Nat) (size seq_id e : Nat) (he : e ∉ l) :
    (linked_enqueue_message q data size seq_id (some e) true).1 = 0 ∧
    queue_wf (linked_enqueue_message q data size seq_id (some e) true).2 (l ++ [e]) ∧
    contents (linked_enqueue_message q data size seq_id (some e) true).2 (l ++ [e]) =
      contents q l ++
        [{ data := data.take size, size := size, seq_id := seq_id % 65536 }] := by
  obtain ⟨hch, htl, hnd⟩ := h
  have hnd2 : (l ++ [e]).Nodup := by
    rw [List.nodup_append]
    refine ⟨hnd, List.nodup_singleton e, ?_⟩
    intro a ha hae
    rw [List.mem_singleton] at hae
    subst hae
    exact he ha
  cases htail : q.msg_queue_tail with
  | none =>
    rw [htail] at htl
    have hl : l = [] := List.getLast?_eq_none_iff.1 htl.symm
    subst hl
    rw [linked_enqueue_first q data size seq_id e htail]
    refine ⟨rfl, ⟨⟨rfl, _, store_same _ _ _, rfl⟩, rfl, hnd2⟩, ?_⟩
    show contents _ [e] = [] ++ _
    rw [contents_cons _ e [] _ (store_same _ _ _)]
    rfl
  | some t =>
    rw [htail] at htl
    rw [linked_enqueue_next q data size seq_id e t htail]
    have htl' : t ∈ l := List.mem_of_getLast?_eq_some htl.symm
    have hte : t ≠ e := fun hh => he (hh ▸ htl')
    refine ⟨rfl, ⟨?_, ?_, hnd2⟩, ?_⟩
    · exact chain_snoc q.mem e t _ rfl l _ hch hnd he htl.symm
    · exact (List.getLast?_concat l).symm
    · show contents _ (l ++ [e]) = _
      unfold contents
      rw [List.filterMap_append]
      congr 1
      · apply contents_congr q _ l
        intro a ha
        have hae : a ≠ e := fun hh => he (hh ▸ ha)
        by_cases hat : a = t
        · subst hat
          simp only [store_same, store_other q.mem e a _ hae]
          cases q.mem a <;> rfl
        · simp only [store_other _ t a _ hat, store_other q.mem e a _ hae]
      · rw [List.filterMap_cons]
        simp only [store_other _ t e _ (Ne.symm hte), store_same, Option.map_some',
          List.filterMap_nil]
        rfl

theorem linked_dequeue_step (q : linked_queue) (a : Nat) (c : linked_entry)
    (h : q.msg_queue_head = some a) (hc : q.mem a = some c) :
    linked_dequeue_message q =
      (some a, { mem := q.mem, msg_queue_head := c.next,
                 msg_queue_tail := if c.next.isNone then none else q.msg_queue_tail }) := by
  unfold linked_dequeue_message
  rw [h]
  simp only [hc]
  rfl

theorem linked_dequeue_wf (q : linked_queue) (a : Nat) (l : List Nat)
    (h : queue_wf q (a :: l)) :
    (linked_dequeue_message q).1 = some a ∧
    queue_wf (linked_dequeue_message q).2 l ∧
    (linked_dequeue_message q).2.mem = q.mem ∧
    (∃ m, message_at q (some a) = some m ∧
      contents q (a :: l) = m :: contents (linked_dequeue_message q).2 l) := by
  obtain ⟨⟨hp, c, hc, hrest⟩, htl, hnd⟩ := h
  rw [linked_dequeue_step q a c hp hc]
  refine ⟨rfl, ⟨hrest, ?_, (List.nodup_cons.1 hnd).2⟩, rfl, message_of c, ?_, ?_⟩
  · show (if c.next.isNone then none else q.msg_queue_tail) = l.getLast?
    cases hcn : c.next with
    | none =>
      rw [hcn] at hrest
      rw [chain_nil_of_none q.mem l hrest]
      rfl
    | some b =>
      rw [hcn] at hrest
      cases l with
      | nil => cases hrest
      | cons b' l' =>
        rw [htl]
        exact List.getLast?_cons_cons
  · show (q.mem a).map message_of = _
    rw [hc]
    rfl
  · exact contents_cons q a l c hc

theorem linked_dequeue_empty (q : linked_queue) (h : queue_wf q []) :
    linked_dequeue_message q = (none, q) := by
  have hh : q.msg_queue_head = none := h.1
  unfold linked_dequeue_message
  rw [hh]

theorem linked_enqueue_all_wf (reqs : List enqueue_request) :
    ∀ (q : linked_queue) (l : List Nat), queue_wf q l →
      (reqs.map (fun r => r.addr)).Nodup → (∀ r ∈ reqs, r.addr ∉ l) →
      queue_wf (linked_enqueue_all q reqs) (l ++ reqs.map (fun r => r.addr)) ∧
      contents (linked_enqueue_all q reqs) (l ++ reqs.map (fun r => r.addr)) =
        contents q l ++ reqs.map enqueue_request.message ∧
      linked_enqueue_codes q reqs = List.replicate reqs.length 0 := by
  induction reqs with
  | nil =>
    intro q l hwf _ _
    simp only [linked_enqueue_all, linked_enqueue_codes, List.map_nil, List.append_nil,
      List.length_nil, List.replicate_zero]
    exact ⟨hwf, trivial, trivial⟩
  | cons r rs ih =>
    intro q l hwf hnd hfresh
    have hr : r.addr ∉ l := hfresh r (List.mem_cons_self _ _)
    obtain ⟨h0, hwf1, hc1⟩ := linked_enqueue_wf q l hwf r.data r.size r.seq_id r.addr hr
    rw [List.map_cons, List.nodup_cons] at hnd
    have hfresh2 : ∀ r' ∈ rs, r'.addr ∉ l ++ [r.addr] := by
      intro r' hr' hmem
      rcases List.mem_append.1 hmem with hm | hm
      · exact hfresh r' (List.mem_cons_of_mem _ hr') hm
      · rw [List.mem_singleton] at hm
        exact hnd.1 (List.mem_map.2 ⟨r', hr', hm⟩)
    obtain ⟨hwf2, hc2, hcodes⟩ := ih _ (l ++ [r.addr]) hwf1 hnd.2 hfresh2
    simp only [linked_enqueue_all, linked_enqueue_codes, List.map_cons, List.length_cons,
      List.replicate_succ]
    rw [List.append_assoc] at hwf2 hc2
    refine ⟨hwf2, ?_, ?_⟩
    · rw [show l ++ r.addr :: List.map (fun r => r.addr) rs =
        l ++ ([r.addr] ++ List.map (fun r => r.addr) rs) from rfl, hc2, hc1,
        List.append_assoc]
      rfl
    · rw [h0, hcodes]

theorem linked_dequeue_all_wf (l : List Nat) :
    ∀ (q : linked_queue) (k : Nat), queue_wf q l →
      (linked_dequeue_all q (l.length + k)).1 =
        (contents q l).map some ++ List.replicate k none ∧
      queue_wf (linked_dequeue_all q (l.length + k)).2 [] := by
  induction l with
  | nil =>
    intro q k hwf
    simp only [List.length_nil, Nat.zero_add]
    induction k with
    | zero => exact ⟨rfl, hwf⟩
    | succ k ihk =>
      simp only [linked_dequeue_all, linked_dequeue_empty q hwf, List.replicate_succ]
      exact ⟨by rw [ihk.1]; rfl, ihk.2⟩
  | cons a l ih =>
    intro q k hwf
    obtain ⟨h1, hwf1, _, m, hm, hc⟩ := linked_dequeue_wf q a l hwf
    obtain ⟨hd, hwf2⟩ := ih (linked_dequeue_message q).2 k hwf1
    have hlen : (a :: l).length + k = (l.length + k) + 1 := by
      simp only [List.length_cons]
      omega
    rw [hlen]
    simp only [linked_dequeue_all]
    refine ⟨?_, hwf2⟩
    rw [h1, hm, hd, hc]
    rfl

theorem enqueue_request_message_exact (r : enqueue_request) (hlen : r.data.length = r.size)
    (hseq : r.seq_id < 65536) :
    r.message = { data := r.data, size := r.size, seq_id := r.seq_id } := by
  unfold enqueue_request.message
  rw [List.take_of_length_le (Nat.le_of_eq hlen), Nat.mod_eq_of_lt hseq]

/-! ## The channel queue -/

/-- C37: the channel queue is first-in first-out. `queue_wf q l` says that the
queue `q` consists of the entries at the distinct addresses `l`, linked in
this order from the head, the tail pointing to the last one; it holds of a
queue just initialised (with no entry) and is kept by every successful
enqueue (with an address not in use by the queue) and by every dequeue. For
such a queue: the head is `NULL` exactly when the tail is `NULL` (and exactly
when there is no entry); an enqueue whose allocation fails returns -1 and
changes nothing; a successful enqueue returns 0 and appends one entry with the
first `size` bytes of the data, the size and the sequence tag given; a dequeue
on the empty queue returns `NULL` and changes nothing; a dequeue on a
non-empty queue returns the pointer to the oldest entry, whose message is the
first one, and leaves the others in order; and after any sequence of
successful enqueues, successive dequeues return the messages that were there
before followed by the enqueued ones, in the order of the requests, and
`NULL` from then on. The queue as a list of messages, with `enqueue_message`
and `dequeue_message` acting on that list, is the image of the linked queue
under `contents`. -/
theorem queue_fifo (q : linked_queue) (l : List Nat) (hwf : queue_wf q l) :
    (∀ q0 : linked_queue, queue_wf (linked_init_channel q0) []) ∧
    ((q.msg_queue_head = none ↔ q.msg_queue_tail = none) ∧
      (q.msg_queue_head = none ↔ l = [])) ∧
    (∀ (data : List Nat) (size seq_id : Nat) (entry : Option Nat),
      linked_enqueue_message q data size seq_id none true = (-1, q) ∧
      linked_enqueue_message q data size seq_id entry false = (-1, q)) ∧
    (∀ (data : List Nat) (size seq_id e : Nat), e ∉ l →
      (linked_enqueue_message q data size seq_id (some e) true).1 = 0 ∧
      queue_wf (linked_enqueue_message q data size seq_id (some e) true).2 (l ++ [e]) ∧
      contents (linked_enqueue_message q data size seq_id (some e) true).2 (l ++ [e]) =
        contents q l ++ [{ data := data.take size, size := size, seq_id := seq_id % 65536 }]) ∧
    (l = [] → linked_dequeue_message q = (none, q)) ∧
    (∀ (a : Nat) (l' : List Nat), l = a :: l' →
      (linked_dequeue_message q).1 = some a ∧
      queue_wf (linked_dequeue_message q).2 l' ∧
      ∃ m, message_at q (some a) = some m ∧
        contents q l = m :: contents (linked_dequeue_message q).2 l') ∧
    (∀ (reqs : List enqueue_request) (k : Nat),
      (reqs.map (fun r => r.addr)).Nodup → (∀ r ∈ reqs, r.addr ∉ l) →
      linked_enqueue_codes q reqs = List.replicate reqs.length 0 ∧
      (linked_dequeue_all (linked_enqueue_all q reqs) (l.length + reqs.length + k)).1 =
        (contents q l ++ reqs.map enqueue_request.message).map some ++ List.replicate k none ∧
      queue_wf (linked_dequeue_all (linked_enqueue_all q reqs)
        (l.length + reqs.length + k)).2 []) ∧
    (∀ r : enqueue_request, r.data.length = r.size → r.seq_id < 65536 →
      r.message = { data := r.data, size := r.size, seq_id := r.seq_id }) ∧
    (∀ ch : channel_info_t, ch.msg_queue = contents q l →
      (∀ (data : List Nat) (size seq_id e : Nat), e ∉ l →
        (enqueue_message ch data size seq_id true).2.msg_queue =
          contents (linked_enqueue_message q data size seq_id (some e) true).2 (l ++ [e])) ∧
      (dequeue_message ch).1 = message_at q (linked_dequeue_message q).1 ∧
      (dequeue_message ch).2.msg_queue = contents (linked_dequeue_message q).2 l.tail) := by
  refine ⟨fun q0 => ⟨rfl, rfl, List.nodup_nil⟩, queue_wf_empty_iff q l hwf, ?_,
    fun data size seq_id e he => linked_enqueue_wf q l hwf data size seq_id e he, ?_, ?_, ?_,
    enqueue_request_message_exact, ?_⟩
  · intro data size seq_id entry
    refine ⟨rfl, ?_⟩
    cases entry <;> rfl
  · intro hl
    subst hl
    exact linked_dequeue_empty q hwf
  · intro a l' hl
    subst hl
    obtain ⟨h1, h2, _, h4⟩ := linked_dequeue_wf q a l' hwf
    exact ⟨h1, h2, h4⟩
  · intro reqs k hnd hfresh
    obtain ⟨hwf1, hc1, hcodes⟩ := linked_enqueue_all_wf reqs q l hwf hnd hfresh
    obtain ⟨hd, hwf2⟩ := linked_dequeue_all_wf (l ++ reqs.map (fun r => r.addr))
      (linked_enqueue_all q reqs) k hwf1
    have hlen : (l ++ reqs.map (fun r => r.addr)).length = l.length + reqs.length := by
      rw [List.length_append, List.length_map]
    rw [hlen, hc1] at hd
    rw [hlen] at hwf2
    exact ⟨hcodes, hd, hwf2⟩
  · intro ch hch
    refine ⟨?_, ?_⟩
    · intro data size seq_id e he
      rw [(linked_enqueue_wf q l hwf data size seq_id e he).2.2, ← hch]
      rfl
    · cases l with
      | nil =>
        have hnil : ch.msg_queue = [] := hch
        rw [linked_dequeue_empty q hwf]
        unfold dequeue_message
        rw [hnil]
        exact ⟨rfl, hnil⟩
      | cons a l' =>
        obtain ⟨h1, _, _, m, hm, hc⟩ := linked_dequeue_wf q a l' hwf
        rw [hc] at hch
        rw [h1, hm]
        unfold dequeue_message
        rw [hch]
        exact ⟨rfl, rfl⟩

/-- Witness for C37: three messages enqueued on the empty queue at the
addresses 40, 8 and 24 come back in the order of the requests, each with its
bytes, size and tag, and the fourth dequeue returns `NULL`. -/
theorem queue_fifo_witness :
    (linked_dequeue_all (linked_enqueue_all empty_queue sample_requests) 4).1 =
      [some { data := [1, 2, 3], size := 3, seq_id := 1 },
       some { data := [7], size := 1, seq_id := 2 },
       some { data := [5, 6], size := 2, seq_id := 65535 }, none] :=
  ((queue_fifo empty_queue [] ⟨rfl, rfl, List.nodup_nil⟩).2.2.2.2.2.2.1 sample_requests 1
    (by decide) (fun _ _ hm => nomatch hm)).2.1

end IOTC
